import Mathlib

/-!
# Event-sourced ledger: shallow embedding of `go-event-source`

The development embeds the service layer (`internal/app/service`), the repository layer
(`internal/app/repository`) and the records they use (`internal/app/model`, `internal/app/dto`).

* `decimal.Decimal` (arbitrary-precision decimal, exact `Add`/`Sub`/`LessThan`) is `ℚ`.
* `int64` values are `Int`; the one place where the program does arithmetic on them, the
  collector's `sequenceNumber++`, wraps explicitly (`wrapInt64`).
* `time.Time` is an `Int` count of nanoseconds, `time.Duration` an `Int` in the `int64` range.
* The PostgreSQL database is a `Ledger` (event rows and account rows); a `World` adds the
  open transaction's private view, the log of store calls, and a script of driver failures.
* Execution is sequential: one call runs to completion before the next starts.
-/

namespace EventSource

/-! ## Errors -/

/-- Go `error` values. `wrap c e` is `fmt.Errorf(c + ": %w", e)`. The sentinels
`exception.ErrRecordNotFound` and `exception.ErrRecordNotUnique` live in a package outside
the embedded sources; only their identity is used. -/
inductive Error where
  | recordNotFound
  | recordNotUnique
  | app (messageID message : String) (statusCode : Nat)
  | pq (code message : String)
  | text (message : String)
  | wrap (context : String) (cause : Error)
deriving DecidableEq, Repr

/-- Go `errors.Is(err, target)`: a `%w` wrapper is a fresh pointer that never equals the
target itself, so the chain is unwrapped down to its innermost error. -/
def errorsIs : Error → Error → Bool
  | .wrap _ cause, target => errorsIs cause target
  | e, target => decide (e = target)

def ErrRecordNotFound : Error := .recordNotFound
def ErrRecordNotUnique : Error := .recordNotUnique

def ErrSourceAccountNotFound : Error :=
  .app "errors.source_account_not_found" "source account not found" 404
def ErrDestinationAccountNotFound : Error :=
  .app "errors.destination_account_not_found" "destination account not found" 404
def ErrInsufficientBalance : Error :=
  .app "errors.insufficient_balance" "insufficient balance" 400
def ErrInvalidRequestTime : Error :=
  .app "errors.invalid_request_time" "invalid request time" 400
def ErrIdempotency : Error :=
  .app "errors.idempotency" "transaction id already used by another operation" 409
def ErrSourceAndDestinationAccountSame : Error :=
  .app "errors.source_and_destination_account_same"
    "source and destination account cannot be the same" 409
def ErrAccountAlreadyExists : Error :=
  .app "errors.account_already_exists" "account already exists" 409

/-- An error raised below the repository layer by `database/sql` or the `pq` driver. -/
inductive DriverError where
  | pq (code message : String)
  | text (message : String)
deriving DecidableEq, Repr

def DriverError.toError : DriverError → Error
  | .pq code message => .pq code message
  | .text message => .text message

/-- Go `strings.HasPrefix` on character lists. -/
def hasPrefix : List Char → List Char → Bool
  | _, [] => true
  | [], _ :: _ => false
  | c :: cs, p :: ps => c == p && hasPrefix cs ps

/-- Go `strings.Contains` on character lists. -/
def stringsContains : List Char → List Char → Bool
  | [], sub => sub.isEmpty
  | c :: cs, sub => hasPrefix (c :: cs) sub || stringsContains cs sub

/-- The single entry of `dbErrorMap`. -/
def dbErrorMap : List (String × Error) := [("SQLSTATE 23505", ErrRecordNotUnique)]

/-- Go `errors.As(err, &pgErr)`: the code of the first `*pq.Error` in the chain. -/
def asPqError : Error → Option String
  | .pq code _ => some code
  | .wrap _ cause => asPqError cause
  | _ => none

/-- The method `errorMapper.mapError`. -/
def mapError (err : Error) : Error :=
  match asPqError err with
  | some code =>
    match dbErrorMap.find? (fun entry => stringsContains code.data entry.1.data) with
    | some entry => entry.2
    | none => err
  | none => err

/-! ## Records -/

abbrev Decimal := ℚ

abbrev AggregateType := String
def AggregateTypeAccount : AggregateType := "account"

abbrev EventType := String
def EventTypeInitBalance : EventType := "init_balance"
def EventTypeDepositReceived : EventType := "deposit_received"
def EventTypeDebitBalance : EventType := "balance_debited"
def EventTypeCreditBalance : EventType := "balance_credited"

/-- A value stored in an event payload (`map[string]interface{}`). -/
inductive PayloadValue where
  | decimal (d : Decimal)
  | int64 (n : Int)
  | string (s : String)
deriving DecidableEq

/-- The record `model.Event`. `EventData` lists the payload's key/value pairs. -/
structure Event where
  ID : Int := 0
  TransactionID : String := ""
  SequenceNumber : Int := 0
  AggregateID : Int := 0
  AggregateType : AggregateType := ""
  EventType : EventType := ""
  EventData : List (String × PayloadValue) := []
  Version : String := ""
  CreatedAt : Int := 0
deriving DecidableEq

/-- The record `model.Account`. -/
structure Account where
  ID : Int := 0
  Balance : Decimal := 0
  CreatedAt : Int := 0
  UpdatedAt : Int := 0
deriving DecidableEq

/-- The record `dto.RequestContext`. -/
structure RequestContext where
  Signature : String := ""
  Language : String := ""
  Timestamp : Int := 0
  TransactionID : String := ""
deriving DecidableEq

structure CreateAccountRequest where
  AccountID : Int
  InitialBalance : Decimal
deriving DecidableEq

structure CreateTransferRequest where
  SourceAccountID : Int
  DestinationAccountID : Int
  Amount : Decimal
deriving DecidableEq

/-- Keys of a `context.Context`: the private type `dto.contextKey`, or a key of another type. -/
inductive CtxKey where
  | contextKey (name : String)
  | foreign (name : String)
deriving DecidableEq

/-- Values carried by a `context.Context`. -/
inductive CtxValue where
  | requestContext (rc : RequestContext)
  | other (description : String)
deriving DecidableEq

/-- A `context.Context` as its chain of `WithValue` bindings, innermost first. -/
abbrev Context := List (CtxKey × CtxValue)

def requestContextKey : CtxKey := .contextKey "request_context"

/-- The function `dto.RequestFromContext`. -/
def RequestFromContext (ctx : Context) : RequestContext × Bool :=
  match ctx.lookup requestContextKey with
  | some (.requestContext rc) => (rc, true)
  | _ => ({}, false)

/-! ## The store -/

/-- Rows of the `events` and `accounts` tables, events in insertion order. -/
structure Ledger where
  events : List Event := []
  accounts : List Account := []
deriving DecidableEq

/-- A `*sql.Tx` handle. -/
structure Tx where
  id : Nat
deriving DecidableEq, Repr

/-- The calls the services make on the repositories and on `database/sql`. -/
inductive StoreCall where
  | beginTx
  | commit (tx : Tx)
  | rollback (tx : Tx)
  | upsertTx (tx : Option Tx) (account : Account)
  | findByID (accountID : Int)
  | findByIDForUpdateTx (tx : Tx) (accountID : Int)
  | createTx (tx : Option Tx) (event : Event)
  | createBulkTx (tx : Option Tx) (events : List Event)
  | findAllByTransactionID (transactionID : String)
  | findLastByAggregateID (aggregateID : Int)
deriving DecidableEq

/-- One logged store call and the error it returned (`none`: it succeeded). -/
structure TraceEntry where
  call : StoreCall
  err : Option Error
deriving DecidableEq

/-- Where inside a repository call the driver fails. A call that has no such stage, or does
not reach it, runs without failure. `next delivered`: the iteration of a result set stops on
a driver error, `rows.Next()` returning false after `delivered` rows were handed over. -/
inductive Stage where
  | prepare
  | exec
  | scan
  | flush
  | next (delivered : Nat)
deriving DecidableEq, Repr

structure Fault where
  stage : Stage
  cause : DriverError
deriving DecidableEq, Repr

/-- The state the program runs against.
* `db`: the committed rows, what every reader outside a transaction sees;
* `tx`: the handle and private view of the open transaction, if any;
* `txCount`: number of transactions begun so far;
* `trace`: the store calls made so far, oldest first;
* `faults`: driver failures, keyed by the index (in `trace`) of the call they hit;
* `now`, `ticks`: the wall clock: a `time.Now()` reading takes the next instant of `ticks`,
  or the last reading when none is left. -/
structure World where
  db : Ledger := {}
  tx : Option (Tx × Ledger) := none
  txCount : Nat := 0
  trace : List TraceEntry := []
  faults : List (Nat × Fault) := []
  now : Int := 0
  ticks : List Int := []

/-- Go `time.Now()`. -/
def timeNow (w : World) : Int × World :=
  match w.ticks with
  | [] => (w.now, w)
  | t :: ts => (t, { w with now := t, ticks := ts })

/-- The driver failure scripted for the store call about to be made. -/
def World.fault (w : World) : Option Fault := w.faults.lookup w.trace.length

/-- Log a store call and its outcome. -/
def World.record (w : World) (call : StoreCall) (err : Option Error) : World :=
  { w with trace := w.trace ++ [⟨call, err⟩] }

/-- The error `sql.ErrTxDone`. -/
def ErrTxDone : Error := .text "sql: transaction has already been committed or rolled back"

/-- The private view of the open transaction when `dbTx` is its handle. -/
def World.view (w : World) (dbTx : Tx) : Option Ledger :=
  match w.tx with
  | some (h, l) => if h = dbTx then some l else none
  | none => none

/-- Log a failed store call and return its error. -/
def World.fail (w : World) (call : StoreCall) (err : Error) : World × Option Error :=
  (w.record call (some err), some err)

/-! ## Repository layer (`internal/app/repository`) -/

/-- Committed or in-transaction row lookup `SELECT id, balance FROM accounts WHERE id = $1`:
only the two selected columns are filled in. -/
def selectAccount (l : Ledger) (accountID : Int) : Option Account :=
  match l.accounts.find? (fun a => decide (a.ID = accountID)) with
  | some a => some { ID := a.ID, Balance := a.Balance }
  | none => none

/-- The statement
`INSERT INTO accounts ... ON CONFLICT (id) DO UPDATE SET balance = $2, updated_at = $4`. -/
def upsertAccount (l : Ledger) (account : Account) : Ledger :=
  if l.accounts.any (fun a => decide (a.ID = account.ID)) then
    { l with accounts := l.accounts.map (fun a =>
        if a.ID = account.ID then
          { a with Balance := account.Balance, UpdatedAt := account.UpdatedAt }
        else a) }
  else
    { l with accounts := l.accounts ++ [account] }

/-- The row an `INSERT INTO events` writes: the statement lists every column except `id` and
`created_at`, which are left to the table (its definition is outside the embedded sources)
and stay at their zero value here. -/
def eventRow (e : Event) : Event := { e with ID := 0, CreatedAt := 0 }

def insertEvents (l : Ledger) (events : List Event) : Ledger :=
  { l with events := l.events ++ events.map eventRow }

/-- The row `ORDER BY sequence_number DESC LIMIT 1` picks among `events`. -/
def lastBySequence (events : List Event) : Option Event :=
  events.foldl (fun best e =>
    match best with
    | none => some e
    | some b => if b.SequenceNumber ≤ e.SequenceNumber then some e else some b) none

/-- The method `transactable.WithTransaction`, first step: `r.db.BeginTx`. On success the new
transaction starts from the committed rows. -/
def BeginTx (w : World) : World × Except Error Tx :=
  match w.fault with
  | some f => (w.record .beginTx (some f.cause.toError), .error f.cause.toError)
  | none =>
    let h : Tx := ⟨w.txCount⟩
    (({ w with tx := some (h, w.db), txCount := w.txCount + 1 } : World).record .beginTx none,
      .ok h)

/-- The call `dbTx.Commit()`: publishes the transaction's view. A failed commit publishes
nothing; either way the transaction is over. -/
def Commit (w : World) (dbTx : Tx) : World × Option Error :=
  match w.view dbTx with
  | none => w.fail (.commit dbTx) ErrTxDone
  | some l =>
    match w.fault with
    | some f => ({ w with tx := none } : World).fail (.commit dbTx) f.cause.toError
    | none => (({ w with db := l, tx := none } : World).record (.commit dbTx) none, none)

/-- The call `dbTx.Rollback()`: discards the transaction's view. -/
def Rollback (w : World) (dbTx : Tx) : World × Option Error :=
  match w.view dbTx with
  | none => w.fail (.rollback dbTx) ErrTxDone
  | some _ =>
    match w.fault with
    | some f => ({ w with tx := none } : World).fail (.rollback dbTx) f.cause.toError
    | none => (({ w with tx := none } : World).record (.rollback dbTx) none, none)

/-- The method `transactable.WithTransaction`. The deferred function assigns the result of
`Commit` to the local `err` after the (unnamed) return value has been fixed, and ignores the
result of `Rollback`. The `recover` branch is not reachable: nothing in the embedded callbacks
panics. -/
def WithTransaction (w : World) (txFunc : World → Tx → World × Option Error) :
    World × Option Error :=
  match BeginTx w with
  | (w, .error err) => (w, some (.wrap "failed to begin transaction" err))
  | (w, .ok dbTx) =>
    match txFunc w dbTx with
    | (w, some err) => ((Rollback w dbTx).1, some err)
    | (w, none) => ((Commit w dbTx).1, none)

/-- The method `AccountRepository.UpsertTx`. -/
def UpsertTx (w : World) (dbTx : Option Tx) (account : Account) : World × Option Error :=
  match dbTx with
  | none => w.fail (.upsertTx dbTx account) (.text "transaction is nil")
  | some h =>
    match w.view h with
    | none => w.fail (.upsertTx dbTx account) (.wrap "failed to prepare statement" ErrTxDone)
    | some l =>
      match w.fault with
      | some ⟨.prepare, e⟩ =>
        w.fail (.upsertTx dbTx account) (.wrap "failed to prepare statement" e.toError)
      | some ⟨.exec, e⟩ =>
        w.fail (.upsertTx dbTx account) (.wrap "failed to exec statement" (mapError e.toError))
      | _ =>
        (({ w with tx := some (h, upsertAccount l account) } : World).record
          (.upsertTx dbTx account) none, none)

/-- The method `AccountRepository.FindByID`: reads committed rows through `r.db`. -/
def FindByID (w : World) (accountID : Int) : World × Except Error Account :=
  match w.fault with
  | some ⟨.prepare, e⟩ =>
    let err := Error.wrap "failed to prepare statement" e.toError
    (w.record (.findByID accountID) (some err), .error err)
  | some ⟨.exec, e⟩ | some ⟨.scan, e⟩ =>
    let err := Error.wrap "failed to scan row" (mapError e.toError)
    (w.record (.findByID accountID) (some err), .error err)
  | _ =>
    match selectAccount w.db accountID with
    | none =>
      let err := Error.wrap "account not found" ErrRecordNotFound
      (w.record (.findByID accountID) (some err), .error err)
    | some account => (w.record (.findByID accountID) none, .ok account)

/-- The method `AccountRepository.FindByIDForUpdateTx`: reads (and locks) the row inside the
transaction. The method dereferences `dbTx` without a nil check, so it takes a handle. -/
def FindByIDForUpdateTx (w : World) (dbTx : Tx) (accountID : Int) :
    World × Except Error Account :=
  match w.view dbTx with
  | none =>
    let err := Error.wrap "failed to prepare statement" ErrTxDone
    (w.record (.findByIDForUpdateTx dbTx accountID) (some err), .error err)
  | some l =>
    match w.fault with
    | some ⟨.prepare, e⟩ =>
      let err := Error.wrap "failed to prepare statement" e.toError
      (w.record (.findByIDForUpdateTx dbTx accountID) (some err), .error err)
    | some ⟨.exec, e⟩ | some ⟨.scan, e⟩ =>
      let err := Error.wrap "failed to scan row" (mapError e.toError)
      (w.record (.findByIDForUpdateTx dbTx accountID) (some err), .error err)
    | _ =>
      match selectAccount l accountID with
      | none =>
        let err := Error.wrap "account not found" ErrRecordNotFound
        (w.record (.findByIDForUpdateTx dbTx accountID) (some err), .error err)
      | some account => (w.record (.findByIDForUpdateTx dbTx accountID) none, .ok account)

/-- The method `EventRepository.CreateTx`. -/
def CreateTx (w : World) (dbTx : Option Tx) (event : Event) : World × Option Error :=
  match dbTx with
  | none => w.fail (.createTx dbTx event) (.text "transaction is nil")
  | some h =>
    match w.view h with
    | none => w.fail (.createTx dbTx event) (.wrap "failed to prepare statement" ErrTxDone)
    | some l =>
      match w.fault with
      | some ⟨.prepare, e⟩ =>
        w.fail (.createTx dbTx event) (.wrap "failed to prepare statement" e.toError)
      | some ⟨.exec, e⟩ =>
        w.fail (.createTx dbTx event) (.wrap "failed to exec statement" (mapError e.toError))
      | _ =>
        (({ w with tx := some (h, insertEvents l [event]) } : World).record
          (.createTx dbTx event) none, none)

/-- The method `EventRepository.CreateBulkTx` (`COPY events FROM STDIN`): the rows are buffered
by one `ExecContext` each and written by the closing `ExecContext`. `json.Marshal` of a payload
of decimals, integers and strings does not fail. -/
def CreateBulkTx (w : World) (dbTx : Option Tx) (events : List Event) : World × Option Error :=
  match dbTx with
  | none => w.fail (.createBulkTx dbTx events) (.text "transaction is nil")
  | some h =>
    match w.view h with
    | none => w.fail (.createBulkTx dbTx events) (.wrap "failed to prepare statement" ErrTxDone)
    | some l =>
      let done : World × Option Error :=
        (({ w with tx := some (h, insertEvents l events) } : World).record
          (.createBulkTx dbTx events) none, none)
      match w.fault with
      | some ⟨.prepare, e⟩ =>
        w.fail (.createBulkTx dbTx events) (.wrap "failed to prepare statement" e.toError)
      | some ⟨.exec, e⟩ =>
        if events.isEmpty then done
        else
          w.fail (.createBulkTx dbTx events)
            (.wrap "failed to exec statement" (mapError e.toError))
      | some ⟨.flush, e⟩ =>
        w.fail (.createBulkTx dbTx events)
          (.wrap "failed to exec flush statement" (mapError e.toError))
      | _ => done

/-- The row as `FindAllByTransactionID` and `FindLastByAggregateID` scan it: their `SELECT`
lists neither `transaction_id` nor `created_at`. -/
def scanEvent (e : Event) : Event := { e with TransactionID := "", CreatedAt := 0 }

/-- The method `EventRepository.FindAllByTransactionID`: reads committed rows through `r.db`.
The loop `for rows.Next()` ends when `Next` returns false, and the method never reads
`rows.Err()`: when the driver fails during the iteration, the rows delivered so far are the
result, "event not found" when there are none. -/
def FindAllByTransactionID (w : World) (transactionID : String) :
    World × Except Error (List Event) :=
  let rows := w.db.events.filter (fun e => decide (e.TransactionID = transactionID))
  let notFound : World × Except Error (List Event) :=
    let err := Error.wrap "event not found" ErrRecordNotFound
    (w.record (.findAllByTransactionID transactionID) (some err), .error err)
  let deliver (events : List Event) : World × Except Error (List Event) :=
    if events.isEmpty then notFound
    else (w.record (.findAllByTransactionID transactionID) none, .ok (events.map scanEvent))
  let found : World × Except Error (List Event) := deliver rows
  match w.fault with
  | some ⟨.prepare, e⟩ =>
    let err := Error.wrap "failed to prepare statement" e.toError
    (w.record (.findAllByTransactionID transactionID) (some err), .error err)
  | some ⟨.exec, e⟩ =>
    let err := Error.wrap "failed to query statement" e.toError
    (w.record (.findAllByTransactionID transactionID) (some err), .error err)
  | some ⟨.scan, e⟩ =>
    if rows.isEmpty then notFound
    else
      let err := Error.wrap "failed to scan row" e.toError
      (w.record (.findAllByTransactionID transactionID) (some err), .error err)
  | some ⟨.next delivered, _⟩ => deliver (rows.take delivered)
  | _ => found

/-- The method `EventRepository.FindLastByAggregateID`: reads committed rows through `r.db`. -/
def FindLastByAggregateID (w : World) (aggregateID : Int) : World × Except Error Event :=
  match w.fault with
  | some ⟨.prepare, e⟩ =>
    let err := Error.wrap "failed to prepare statement" e.toError
    (w.record (.findLastByAggregateID aggregateID) (some err), .error err)
  | some ⟨.exec, e⟩ | some ⟨.scan, e⟩ =>
    let err := Error.wrap "failed to scan row" (mapError e.toError)
    (w.record (.findLastByAggregateID aggregateID) (some err), .error err)
  | _ =>
    match lastBySequence (w.db.events.filter (fun e => decide (e.AggregateID = aggregateID))) with
    | none =>
      let err := Error.wrap "event not found" ErrRecordNotFound
      (w.record (.findLastByAggregateID aggregateID) (some err), .error err)
    | some event => (w.record (.findLastByAggregateID aggregateID) none, .ok (scanEvent event))

/-! ## Service layer (`internal/app/service`) -/

def int64Max : Int := 9223372036854775807
def int64Min : Int := -9223372036854775808

/-- Two's-complement wrap-around of `int64` arithmetic. -/
def wrapInt64 (x : Int) : Int :=
  (x + 9223372036854775808) % 18446744073709551616 - 9223372036854775808

/-- Go `t.Sub(u)`: the difference as a `Duration`, saturating at the `int64` bounds. -/
def timeSub (t u : Int) : Int :=
  if t - u > int64Max then int64Max else if t - u < int64Min then int64Min else t - u

/-- The function `getRequestContext` of `service/helper.go`. -/
def getRequestContext (w : World) (ctx : Context) (requestTimeThreshold : Int) :
    World × RequestContext × Option Error :=
  match RequestFromContext ctx with
  | (_, false) => (w, {}, some (.text "request context not found"))
  | (reqContext, true) =>
    match timeNow w with
    | (now, w) =>
      let timeDiff := timeSub now reqContext.Timestamp
      if timeDiff > requestTimeThreshold ∨ timeDiff < wrapInt64 (-requestTimeThreshold) then
        (w, {}, some ErrInvalidRequestTime)
      else (w, reqContext, none)

/-- The record `AccountEventCollector`; its `eventRepository` is the `World`. -/
structure AccountEventCollector where
  sequenceNumber : Int := 0
  eventVersion : String := ""
  aggregateID : Int := 0
  aggregateType : AggregateType := ""
  transactionID : String := ""
  events : List Event := []
deriving DecidableEq

/-- The function `NewAccountEventCollector`. -/
def NewAccountEventCollector (w : World) (aggregateID : Int) (transactionID : String)
    (eventVersion : String) : World × Except Error AccountEventCollector :=
  match FindLastByAggregateID w aggregateID with
  | (w, .error err) =>
    if !errorsIs err ErrRecordNotFound then
      (w, .error (.wrap "failed to find last event" err))
    else
      (w, .ok { aggregateID := aggregateID, aggregateType := AggregateTypeAccount,
                transactionID := transactionID, sequenceNumber := 0,
                eventVersion := eventVersion })
  | (w, .ok event) =>
    (w, .ok { aggregateID := aggregateID, aggregateType := AggregateTypeAccount,
              transactionID := transactionID, sequenceNumber := event.SequenceNumber,
              eventVersion := eventVersion })

/-- The method `AccountEventCollector.apply`. -/
def AccountEventCollector.apply (e : AccountEventCollector) (event : Event) :
    AccountEventCollector :=
  let sequenceNumber := wrapInt64 (e.sequenceNumber + 1)
  { e with
    sequenceNumber := sequenceNumber
    events := e.events ++ [{ event with
      SequenceNumber := sequenceNumber
      AggregateID := e.aggregateID
      AggregateType := e.aggregateType
      TransactionID := e.transactionID }] }

def AccountEventCollector.OnInitBalanceEvent (e : AccountEventCollector) (amount : Decimal) :
    AccountEventCollector :=
  e.apply { Version := e.eventVersion, EventType := EventTypeInitBalance,
            EventData := [("initial_balance", .decimal amount)] }

def AccountEventCollector.OnDepositReceivedEvent (e : AccountEventCollector) (source : String)
    (amount : Decimal) : AccountEventCollector :=
  e.apply { Version := e.eventVersion, EventType := EventTypeDepositReceived,
            EventData := [("source", .string source), ("amount", .decimal amount)] }

def AccountEventCollector.OnSubBalanceEvent (e : AccountEventCollector)
    (destinationAccountID : Int) (amount : Decimal) : AccountEventCollector :=
  e.apply { Version := e.eventVersion, EventType := EventTypeDebitBalance,
            EventData := [("destination_account_id", .int64 destinationAccountID),
                          ("amount", .decimal amount)] }

def AccountEventCollector.OnAddBalanceEvent (e : AccountEventCollector)
    (sourceAccountID : Int) (amount : Decimal) : AccountEventCollector :=
  e.apply { Version := e.eventVersion, EventType := EventTypeCreditBalance,
            EventData := [("source_account_id", .int64 sourceAccountID),
                          ("amount", .decimal amount)] }

/-- The method `AccountEventCollector.Place`. -/
def AccountEventCollector.Place (e : AccountEventCollector) (w : World) (tx : Option Tx) :
    World × AccountEventCollector × Option Error :=
  match CreateBulkTx w tx e.events with
  | (w, some err) => (w, e, some (.wrap "failed to create bulk events" err))
  | (w, none) => (w, { e with sequenceNumber := 0, events := [] }, none)

/-- The configuration of `AccountService`; its repositories are the `World`. -/
structure AccountService where
  requestTimeThreshold : Int
  eventVersion : String

/-- The function literal `CreateAccount` passes to `WithTransaction`, with the variables it
captures (`req`, `eventCollector`, `account`) as parameters. -/
def createAccountTxFunc (req : CreateAccountRequest) (eventCollector : AccountEventCollector)
    (account : Account) (w : World) (dbTx : Tx) : World × Option Error :=
  let eventCollector := eventCollector.OnInitBalanceEvent req.InitialBalance
  let eventCollector := eventCollector.OnDepositReceivedEvent "SYSTEM" req.InitialBalance
  match eventCollector.Place w (some dbTx) with
  | (w, _, some err) => (w, some (.wrap "failed to place events" err))
  | (w, _, none) =>
    match UpsertTx w (some dbTx) account with
    | (w, some err) => (w, some (.wrap "failed to upsert account" err))
    | (w, none) => (w, none)

/-- The method `AccountService.CreateAccount`. -/
def CreateAccount (s : AccountService) (w : World) (ctx : Context)
    (req : CreateAccountRequest) : World × Option Error :=
  match getRequestContext w ctx s.requestTimeThreshold with
  | (w, _, some err) => (w, some (.wrap "failed to get request context" err))
  | (w, reqContext, none) =>
    match FindByID w req.AccountID with
    | (w, .ok _) => (w, some ErrAccountAlreadyExists)
    | (w, .error err) =>
      if !errorsIs err ErrRecordNotFound then (w, some (.wrap "failed to find account" err))
      else
        match FindAllByTransactionID w reqContext.TransactionID with
        | (w, .ok _) => (w, some ErrIdempotency)
        | (w, .error err) =>
          if !errorsIs err ErrRecordNotFound then (w, some (.wrap "failed to find events" err))
          else
            match NewAccountEventCollector w req.AccountID reqContext.TransactionID
                s.eventVersion with
            | (w, .error err) =>
              (w, some (.wrap "failed to create account event collector" err))
            | (w, .ok eventCollector) =>
              match timeNow w with
              | (createdAt, w) =>
                match timeNow w with
                | (updatedAt, w) =>
                  let account : Account :=
                    { ID := req.AccountID, Balance := req.InitialBalance,
                      CreatedAt := createdAt, UpdatedAt := updatedAt }
                  match WithTransaction w (createAccountTxFunc req eventCollector account) with
                  | (w, some err) => (w, some (.wrap "failed to create account" err))
                  | (w, none) => (w, none)

/-- The method `AccountService.GetAccount`, returning the response's ID and balance. -/
def GetAccount (w : World) (accountID : Int) : World × Except Error (Int × Decimal) :=
  match FindByID w accountID with
  | (w, .error err) => (w, .error (.wrap "failed to get account" err))
  | (w, .ok account) => (w, .ok (account.ID, account.Balance))

/-- The configuration of `TransactionService`; its repositories are the `World`. -/
structure TransactionService where
  requestTimeThreshold : Int
  eventVersion : String

/-- The method `TransactionService.processTransfer`. -/
def processTransfer (w : World) (dbTx : Tx) (req : CreateTransferRequest) :
    World × Option Error :=
  match FindByIDForUpdateTx w dbTx req.SourceAccountID with
  | (w, .error err) =>
    if errorsIs err ErrRecordNotFound then
      (w, some (.wrap "failed to find account" ErrSourceAccountNotFound))
    else (w, some (.wrap "failed to find account" err))
  | (w, .ok sourceAccount) =>
    match FindByIDForUpdateTx w dbTx req.DestinationAccountID with
    | (w, .error err) =>
      if errorsIs err ErrRecordNotFound then
        (w, some (.wrap "failed to find account" ErrDestinationAccountNotFound))
      else (w, some (.wrap "failed to find account" err))
    | (w, .ok destinationAccount) =>
      if sourceAccount.Balance < req.Amount then
        (w, some (.wrap "insufficient balance" ErrInsufficientBalance))
      else
        match timeNow w with
        | (sourceUpdatedAt, w) =>
          match timeNow w with
          | (destinationUpdatedAt, w) =>
            let sourceAccount : Account :=
              { sourceAccount with
                Balance := sourceAccount.Balance - req.Amount, UpdatedAt := sourceUpdatedAt }
            let destinationAccount : Account :=
              { destinationAccount with
                Balance := destinationAccount.Balance + req.Amount
                UpdatedAt := destinationUpdatedAt }
            match UpsertTx w (some dbTx) sourceAccount with
            | (w, some err) => (w, some (.wrap "failed to upsert account" err))
            | (w, none) =>
              match UpsertTx w (some dbTx) destinationAccount with
              | (w, some err) => (w, some (.wrap "failed to upsert account" err))
              | (w, none) => (w, none)

/-- The function literal `Transfer` passes to `WithTransaction`, with the variables it
captures (`req` and the two collectors) as parameters. -/
def transferTxFunc (req : CreateTransferRequest)
    (sourceAccountEventCollector destinationAccountEventCollector : AccountEventCollector)
    (w : World) (dbTx : Tx) : World × Option Error :=
  let sourceAccountEventCollector :=
    sourceAccountEventCollector.OnSubBalanceEvent req.SourceAccountID req.Amount
  let destinationAccountEventCollector :=
    destinationAccountEventCollector.OnAddBalanceEvent req.DestinationAccountID req.Amount
  match sourceAccountEventCollector.Place w (some dbTx) with
  | (w, _, some err) => (w, some (.wrap "failed to place events" err))
  | (w, _, none) =>
    match destinationAccountEventCollector.Place w (some dbTx) with
    | (w, _, some err) => (w, some (.wrap "failed to place events" err))
    | (w, _, none) =>
      match processTransfer w dbTx req with
      | (w, some err) => (w, some (.wrap "failed to process transfer" err))
      | (w, none) => (w, none)

/-- The method `TransactionService.Transfer`. -/
def Transfer (s : TransactionService) (w : World) (ctx : Context)
    (req : CreateTransferRequest) : World × Option Error :=
  match getRequestContext w ctx s.requestTimeThreshold with
  | (w, _, some err) => (w, some (.wrap "failed to get request context" err))
  | (w, reqContext, none) =>
    match FindAllByTransactionID w reqContext.TransactionID with
    | (w, .ok _) => (w, some ErrIdempotency)
    | (w, .error err) =>
      if !errorsIs err ErrRecordNotFound then (w, some (.wrap "failed to find events" err))
      else if req.SourceAccountID = req.DestinationAccountID then
        (w, some ErrSourceAndDestinationAccountSame)
      else
        match NewAccountEventCollector w req.SourceAccountID reqContext.TransactionID
            s.eventVersion with
        | (w, .error err) => (w, some (.wrap "failed to create account event collector" err))
        | (w, .ok sourceAccountEventCollector) =>
          match NewAccountEventCollector w req.DestinationAccountID reqContext.TransactionID
              s.eventVersion with
          | (w, .error err) =>
            (w, some (.wrap "failed to create account event collector" err))
          | (w, .ok destinationAccountEventCollector) =>
            match WithTransaction w (transferTxFunc req sourceAccountEventCollector
                destinationAccountEventCollector) with
            | (w, some err) => (w, some (.wrap "failed to process transfer" err))
            | (w, none) => (w, none)

/-! ## Sequences of calls -/

/-- The two services of the application. -/
structure Services where
  account : AccountService
  transaction : TransactionService

/-- One call on the ledger's API. -/
inductive Op where
  | createAccount (ctx : Context) (req : CreateAccountRequest)
  | transfer (ctx : Context) (req : CreateTransferRequest)

/-- A call together with what the outside world does while it runs: the driver failures
(keyed as in `World.faults`) and the instants the clock will show. -/
structure Call where
  op : Op
  faults : List (Nat × Fault) := []
  ticks : List Int := []

/-- Run one call to completion. -/
def exec (svc : Services) (w : World) (c : Call) : World × Option Error :=
  let w : World := { w with faults := c.faults, ticks := c.ticks }
  match c.op with
  | .createAccount ctx req => CreateAccount svc.account w ctx req
  | .transfer ctx req => Transfer svc.transaction w ctx req

/-- Run a sequence of calls, one after the other. -/
def run (svc : Services) (w : World) : List Call → World
  | [] => w
  | c :: cs => run svc (exec svc w c).1 cs

/-- The ledger before any call: no rows, no open transaction. -/
def emptyWorld : World := {}

/-! ## Vocabulary for the specifications -/

/-- The last sequence number recorded for an aggregate, `0` when it has no event. -/
def lastSeq (l : Ledger) (aggregateID : Int) : Int :=
  match lastBySequence (l.events.filter (fun e => decide (e.AggregateID = aggregateID))) with
  | some e => e.SequenceNumber
  | none => 0

/-- The collector a successful `NewAccountEventCollector` returns. -/
def freshCollector (l : Ledger) (aggregateID : Int) (transactionID eventVersion : String) :
    AccountEventCollector :=
  { aggregateID := aggregateID, aggregateType := AggregateTypeAccount,
    transactionID := transactionID, sequenceNumber := lastSeq l aggregateID,
    eventVersion := eventVersion }

/-- The world right after a successful `BeginTx`. -/
def World.begun (w : World) : World :=
  ({ w with tx := some (⟨w.txCount⟩, w.db), txCount := w.txCount + 1 } : World).record
    .beginTx none

/-- The events `CreateAccount` hands to the event store. -/
def creationEvents (l : Ledger) (accountID : Int) (transactionID eventVersion : String)
    (balance : Decimal) : List Event :=
  (((freshCollector l accountID transactionID eventVersion).OnInitBalanceEvent
    balance).OnDepositReceivedEvent "SYSTEM" balance).events

/-- The last store call was a commit, and it succeeded. -/
def Committed (w : World) : Prop := ∃ h, w.trace.getLast? = some ⟨.commit h, none⟩

/-- What `WithTransaction` can leave behind when the callback, if it succeeds, leaves rows
satisfying `P` in the transaction's view. -/
def TxOutcome (w : World) (P : Ledger → Prop) (r : World × Option Error) : Prop :=
  r.1.tx = none ∧
    ((r.1.db = w.db ∧ (r.2 = none → ¬ Committed r.1)) ∨
      (r.2 = none ∧ Committed r.1 ∧ P r.1.db))

/-- The driver failure scripted for the `k`-th store call from now (`k = 0`: the next one). -/
def World.faultAt (w : World) (k : Nat) : Option Fault := w.faults.lookup (w.trace.length + k)

/-- What a `CreateAccount` call can leave behind: nothing, or (after a successful commit) the
two events and the account row; the idempotency lookup then found no event with the
transaction ID, or the driver stopped its result set. -/
def CreateOutcome (s : AccountService) (w : World) (ctx : Context) (req : CreateAccountRequest)
    (r : World × Option Error) : Prop :=
  (r.1.tx = none ∧ r.1.db = w.db ∧ (r.2 = none → ¬ Committed r.1)) ∨
  (r.1.tx = none ∧ r.2 = none ∧ Committed r.1 ∧
    selectAccount w.db req.AccountID = none ∧
    ((∀ ev ∈ w.db.events, ev.TransactionID ≠ (RequestFromContext ctx).1.TransactionID) ∨
      ∃ k c, w.faultAt 1 = some ⟨.next k, c⟩) ∧
    ∃ createdAt updatedAt,
      r.1.db =
        upsertAccount
          (insertEvents w.db (creationEvents w.db req.AccountID
            (RequestFromContext ctx).1.TransactionID s.eventVersion req.InitialBalance))
          { ID := req.AccountID, Balance := req.InitialBalance,
            CreatedAt := createdAt, UpdatedAt := updatedAt })

/-- The rows `processTransfer` leaves in the transaction's view when it succeeds on `l`. -/
def TransferEffect (l : Ledger) (req : CreateTransferRequest) (l1 : Ledger) : Prop :=
  ∃ (src dst : Account) (t1 t2 : Int),
    selectAccount l req.SourceAccountID = some src ∧
    selectAccount l req.DestinationAccountID = some dst ∧
    ¬ src.Balance < req.Amount ∧
    l1 = upsertAccount
      (upsertAccount l { src with Balance := src.Balance - req.Amount, UpdatedAt := t1 })
      { dst with Balance := dst.Balance + req.Amount, UpdatedAt := t2 }

/-- What a `Transfer` call can leave behind: nothing, or (after a successful commit) the two
events and the two updated rows; the idempotency lookup then found no event with the
transaction ID, or the driver stopped its result set. -/
def TransferOutcome (s : TransactionService) (w : World) (ctx : Context)
    (req : CreateTransferRequest) (r : World × Option Error) : Prop :=
  (r.1.tx = none ∧ r.1.db = w.db ∧ (r.2 = none → ¬ Committed r.1)) ∨
  (r.1.tx = none ∧ r.2 = none ∧ Committed r.1 ∧
    req.SourceAccountID ≠ req.DestinationAccountID ∧
    ((∀ ev ∈ w.db.events, ev.TransactionID ≠ (RequestFromContext ctx).1.TransactionID) ∨
      ∃ k c, w.faultAt 0 = some ⟨.next k, c⟩) ∧
    TransferEffect
      (insertEvents
        (insertEvents w.db
          ((freshCollector w.db req.SourceAccountID (RequestFromContext ctx).1.TransactionID
            s.eventVersion).OnSubBalanceEvent req.SourceAccountID req.Amount).events)
        ((freshCollector w.db req.DestinationAccountID (RequestFromContext ctx).1.TransactionID
          s.eventVersion).OnAddBalanceEvent req.DestinationAccountID req.Amount).events)
      req r.1.db)

/-- The sequence numbers of an aggregate's events, in the order of the event log. -/
def aggregateSeqs (l : Ledger) (aggregateID : Int) : List Int :=
  (l.events.filter (fun e => decide (e.AggregateID = aggregateID))).map (·.SequenceNumber)

/-- The list `1, 2, ..., n`. -/
def oneTo (n : Nat) : List Int := (List.range n).map (fun (i : Nat) => (i : Int) + 1)

/-- Every aggregate's sequence numbers are exactly `1, ..., N`, `N` the number of its events. -/
def GapFree (l : Ledger) : Prop :=
  ∀ a, aggregateSeqs l a = oneTo (aggregateSeqs l a).length

/-- The invariant carried through a run: no open transaction, gap-free sequence numbers, and
at most two events per call made so far. -/
def SeqInv (w : World) (k : Nat) : Prop :=
  w.tx = none ∧ GapFree w.db ∧ w.db.events.length ≤ 2 * k

/-- Services configured with a 30 s freshness threshold, as in the unit tests. -/
def exampleServices : Services := ⟨⟨30000000000, "1.0.0"⟩, ⟨30000000000, "1.0.0"⟩⟩

/-- A context carrying a request context stamped at the clock's initial instant. -/
def exampleContext (transactionID : String) : Context :=
  [(requestContextKey, .requestContext { Timestamp := 0, TransactionID := transactionID })]

/-- Open accounts `1` (1000.00) and `2` (500.00), then move 100.00 from `1` to `2`. -/
def exampleCalls : List Call :=
  [{ op := .createAccount (exampleContext "tx-a") ⟨1, 1000⟩ },
   { op := .createAccount (exampleContext "tx-c") ⟨2, 500⟩ },
   { op := .transfer (exampleContext "tx-b") ⟨1, 2, 100⟩ }]

/-- The amount of the call is strictly positive (what the request validation enforces). -/
def PositiveAmount (c : Call) : Prop :=
  match c.op with
  | .createAccount _ req => 0 < req.InitialBalance
  | .transfer _ req => 0 < req.Amount

/-- No stored balance is negative. -/
def NonNegative (l : Ledger) : Prop := ∀ a ∈ l.accounts, 0 ≤ a.Balance

/-- The balance `GetAccount` reports for an account, `none` when it has no row. -/
def balanceOf (l : Ledger) (accountID : Int) : Option Decimal :=
  (selectAccount l accountID).map (·.Balance)

/-- The world `v` is the world `w` after `k` more store calls that changed no row. -/
def After (w v : World) (k : Nat) : Prop :=
  v.db = w.db ∧ v.tx = w.tx ∧ v.faults = w.faults ∧ v.trace.length = w.trace.length + k

/-- The world `v` is inside the transaction `h`, `k` store calls after `w`. -/
def InTx (w v : World) (k : Nat) (h : Tx) (l : Ledger) : Prop :=
  v.tx = some (h, l) ∧ v.faults = w.faults ∧ v.trace.length = w.trace.length + k

/-- The ledger after accounts `1` (1000.00) and `2` (500.00) were opened. -/
def exampleFunded : World := run exampleServices emptyWorld (exampleCalls.take 2)

/-- The ledger after only account `1` (1000.00) was opened, with transaction ID "tx-a". -/
def exampleOpened : World :=
  (CreateAccount exampleServices.account emptyWorld (exampleContext "tx-a") ⟨1, 1000⟩).1

/-- The empty ledger with a driver that fails when the sixth store call (the account
upsert of a creation) executes its statement. -/
def exampleBrokenUpsert : World :=
  { faults := [(5, ⟨.exec, .text "connection reset by peer"⟩)] }

/-- One of the four event applications a collector offers. -/
inductive CollectorCall where
  | initBalance (amount : Decimal)
  | depositReceived (source : String) (amount : Decimal)
  | subBalance (destinationAccountID : Int) (amount : Decimal)
  | addBalance (sourceAccountID : Int) (amount : Decimal)
deriving DecidableEq

/-- The event kind the application records. -/
def CollectorCall.eventType : CollectorCall → EventType
  | .initBalance _ => EventTypeInitBalance
  | .depositReceived _ _ => EventTypeDepositReceived
  | .subBalance _ _ => EventTypeDebitBalance
  | .addBalance _ _ => EventTypeCreditBalance

/-- Apply one event to the collector. -/
def AccountEventCollector.on (c : AccountEventCollector) : CollectorCall → AccountEventCollector
  | .initBalance amount => c.OnInitBalanceEvent amount
  | .depositReceived source amount => c.OnDepositReceivedEvent source amount
  | .subBalance destinationAccountID amount => c.OnSubBalanceEvent destinationAccountID amount
  | .addBalance sourceAccountID amount => c.OnAddBalanceEvent sourceAccountID amount

/-- Apply a sequence of events to the collector, with no `Place` in between. -/
def AccountEventCollector.onAll (c : AccountEventCollector) (calls : List CollectorCall) :
    AccountEventCollector :=
  calls.foldl AccountEventCollector.on c

/-- The fields of an event the collector stamps, and its kind. -/
structure EventStamp where
  SequenceNumber : Int
  AggregateID : Int
  AggregateType : AggregateType
  TransactionID : String
  Version : String
  EventType : EventType
deriving DecidableEq

def Event.stamp (e : Event) : EventStamp :=
  { SequenceNumber := e.SequenceNumber, AggregateID := e.AggregateID,
    AggregateType := e.AggregateType, TransactionID := e.TransactionID,
    Version := e.Version, EventType := e.EventType }

/-- The collector of a new account after its two creation events were applied. -/
def exampleCollector : AccountEventCollector :=
  ((freshCollector emptyWorld.db 1 "tx-a" "1.0.0").OnInitBalanceEvent 1000).OnDepositReceivedEvent
    "SYSTEM" 1000

/-- The empty ledger with a driver that fails when the seventh store call (the commit of a
creation) is made. -/
def exampleBrokenCommit : World :=
  { faults := [(6, ⟨.exec, .text "connection reset by peer"⟩)] }

/-- An `*http.Request` as far as `dto/request_context.go` reads it: the header, a map from
canonical header names to their values, and the request's context. -/
structure HttpRequest where
  Header : List (String × List String) := []
  ctx : Context := []
deriving DecidableEq

/-- Go `req.Header.Get(key)` for a key in canonical form, as every key in the source is: the
first value stored under the key, the empty string when there is none. -/
def HttpRequest.headerGet (req : HttpRequest) (key : String) : String :=
  match req.Header.lookup key with
  | some (value :: _) => value
  | _ => ""

def getLanguage (req : HttpRequest) : String := req.headerGet "Accept-Language"

def getSignature (req : HttpRequest) : String := req.headerGet "X-Signature"

def getTransactionID (req : HttpRequest) : String := req.headerGet "X-Transaction-Id"

/-- The function `getTimestamp`. The library call `time.Parse(time.RFC3339, ·)` is the parameter
`parseRFC3339`; the `exception.ApplicationError` literal has no message ID. -/
def getTimestamp (parseRFC3339 : String → Except Error Int) (req : HttpRequest) :
    Except Error Int :=
  let timestampStr := req.headerGet "X-Timestamp"
  if timestampStr = "" then
    .error (.app "" "X-TIMESTAMP is required in header" 400)
  else
    match parseRFC3339 timestampStr with
    | .error err => .error (.wrap "failed to parse timestamp" err)
    | .ok timestamp => .ok timestamp

/-- The function `dto.RequestWithContext`: `none` request and an error, or the request with
the request context bound in its context. -/
def RequestWithContext (parseRFC3339 : String → Except Error Int) (req : HttpRequest) :
    Except Error HttpRequest :=
  let reqContext : RequestContext :=
    { Language := getLanguage req, Signature := getSignature req,
      TransactionID := getTransactionID req }
  match getTimestamp parseRFC3339 req with
  | .error err => .error (.wrap "failed to get X-TIMESTAMP in header" err)
  | .ok timestamp =>
    let reqContext := { reqContext with Timestamp := timestamp }
    .ok { req with ctx := (requestContextKey, .requestContext reqContext) :: req.ctx }

/-- The decimal digits of `n`, with zeros in front up to `width` digits. -/
def padDigits (width : Nat) (n : Nat) : String :=
  "".pushn '0' (width - (toString n).length) ++ toString n

/-- Go `t.Format(time.RFC3339)` (layout `2006-01-02T15:04:05Z07:00`) for the instant `t`, in
nanoseconds since the Unix epoch, carried in a location `zoneOffset` seconds east of UTC: the
date and the time of day in that location, to the second (the layout has no fractional
seconds), then `Z` for a zero offset and the signed offset in hours and minutes otherwise. -/
def formatRFC3339 (zoneOffset : Int) (t : Int) : String :=
  let localSeconds := t / 1000000000 + zoneOffset
  let days := localSeconds / 86400
  let secondOfDay := (localSeconds % 86400).toNat
  let z := days + 719468
  let era := z / 146097
  let dayOfEra := z - era * 146097
  let yearOfEra := (dayOfEra - dayOfEra / 1460 + dayOfEra / 36524 - dayOfEra / 146096) / 365
  let dayOfYear := dayOfEra - (365 * yearOfEra + yearOfEra / 4 - yearOfEra / 100)
  let mp := (5 * dayOfYear + 2) / 153
  let day := dayOfYear - (153 * mp + 2) / 5 + 1
  let month := if mp < 10 then mp + 3 else mp - 9
  let year := yearOfEra + era * 400 + (if month ≤ 2 then 1 else 0)
  let zoneMinutes := zoneOffset.natAbs / 60
  let zone :=
    if zoneOffset = 0 then "Z"
    else (if zoneOffset < 0 ∧ zoneMinutes ≠ 0 then "-" else "+") ++
      padDigits 2 (zoneMinutes / 60) ++ ":" ++ padDigits 2 (zoneMinutes % 60)
  (if year < 0 then "-" else "") ++ padDigits 4 year.natAbs ++ "-" ++
    padDigits 2 month.toNat ++ "-" ++ padDigits 2 day.toNat ++ "T" ++
    padDigits 2 (secondOfDay / 3600) ++ ":" ++ padDigits 2 (secondOfDay / 60 % 60) ++ ":" ++
    padDigits 2 (secondOfDay % 60) ++ zone

/-- What `time.Parse(time.RFC3339, ·)` reads in three header texts, as nanoseconds since the
Unix epoch: the timestamp of the unit test, the same instant with half a second more (a
fractional second is accepted after the seconds), and the same instant with UTC written as the
offset `+00:00`. All three name a zero offset. Other texts are not read. -/
def exampleParse (text : String) : Except Error Int :=
  if text = "2025-01-01T00:00:00Z" then .ok 1735689600000000000
  else if text = "2025-01-01T00:00:00.5Z" then .ok 1735689600500000000
  else if text = "2025-01-01T00:00:00+00:00" then .ok 1735689600000000000
  else .error (.text "parsing time: cannot parse")

/-- The request of the unit test `TestRequestContext`, with the given `X-Timestamp` text. -/
def exampleRequestAt (timestamp : String) : HttpRequest :=
  { Header := [("Accept-Language", ["en"]), ("X-Timestamp", [timestamp]),
               ("X-Transaction-Id", ["1234567890"])] }

/-- The request of the unit test `TestRequestContext`. -/
def exampleRequest : HttpRequest := exampleRequestAt "2025-01-01T00:00:00Z"

/-- The amount an event carries in its payload: the entry "initial_balance" of an
`init_balance` event, the entry "amount" of every other kind. -/
def Event.amount (e : Event) : Decimal :=
  match e.EventData.lookup
      (if e.EventType = EventTypeInitBalance then "initial_balance" else "amount") with
  | some (.decimal d) => d
  | _ => 0

/-- The effect of one event on a balance, in the words of the specification: `init_balance`
sets the balance to its amount, `deposit_received` and `balance_credited` add their amount,
`balance_debited` subtracts its amount. -/
def applyEvent (balance : Decimal) (e : Event) : Decimal :=
  if e.EventType = EventTypeInitBalance then e.amount
  else if e.EventType = EventTypeDepositReceived ∨ e.EventType = EventTypeCreditBalance then
    balance + e.amount
  else if e.EventType = EventTypeDebitBalance then balance - e.amount
  else balance

/-- The effect of one event on a balance when the opening amount counts once: as `applyEvent`,
except that a `deposit_received` event leaves the balance as it is. -/
def applyEventOnce (balance : Decimal) (e : Event) : Decimal :=
  if e.EventType = EventTypeInitBalance then e.amount
  else if e.EventType = EventTypeCreditBalance then balance + e.amount
  else if e.EventType = EventTypeDebitBalance then balance - e.amount
  else balance

/-- The events recorded for an aggregate, taken in sequence order. -/
def eventsInSequence (l : Ledger) (aggregateID : Int) : List Event :=
  (l.events.filter (fun e => decide (e.AggregateID = aggregateID))).insertionSort
    (fun a b => a.SequenceNumber ≤ b.SequenceNumber)

/-- The cumulative effect, from a zero balance, of the events recorded for an aggregate. -/
def replayBalance (step : Decimal → Event → Decimal) (l : Ledger) (aggregateID : Int) :
    Decimal :=
  (eventsInSequence l aggregateID).foldl step 0

/-- What a run maintains: every event belongs to an aggregate that has an account row, and
every account row holds the cumulative effect of its aggregate's events in log order, the
opening amount counted once. -/
def Projected (l : Ledger) : Prop :=
  (∀ e ∈ l.events, ∃ a ∈ l.accounts, a.ID = e.AggregateID) ∧
  (∀ a ∈ l.accounts, a.Balance =
    (l.events.filter (fun e => decide (e.AggregateID = a.ID))).foldl applyEventOnce 0)

/-- Go's `Unwrap` chain: `e` is `err` itself or one of the errors `err` wraps. -/
def inChain : Error → Error → Bool
  | .wrap context cause, e => decide (Error.wrap context cause = e) || inChain cause e
  | err, e => decide (err = e)

/-- Go `err.Error()`: a `%w` wrapper prints its context, a colon and the text of its cause;
`leaf` gives the text of the errors that wrap nothing. -/
def errorString (leaf : Error → String) : Error → String
  | .wrap context cause => context ++ ": " ++ errorString leaf cause
  | e => leaf e

/-- The innermost error of the chain is an `exception.ApplicationError`, the type of the
domain errors of `service/errors.go`. -/
def Error.isApp : Error → Bool
  | .app _ _ _ => true
  | .wrap _ cause => cause.isApp
  | _ => false

/-- The domain errors declared in `service/errors.go`. -/
def domainErrors : List Error :=
  [ErrSourceAccountNotFound, ErrDestinationAccountNotFound, ErrInsufficientBalance,
   ErrInvalidRequestTime, ErrIdempotency, ErrSourceAndDestinationAccountSame,
   ErrAccountAlreadyExists]

/-- The call is a method of one of the two repositories (not `BeginTx`, `Commit` or
`Rollback` of `database/sql`). -/
def StoreCall.isRepositoryCall : StoreCall → Bool
  | .beginTx => false
  | .commit _ => false
  | .rollback _ => false
  | _ => true

/-- The error of a fallible result, if any. -/
def errOf {α : Type} : Except Error α → Option Error
  | .error e => some e
  | .ok _ => none

/-- Every repository call logged in `es` that failed with something other than "record not
found" failed with a store error, and `result` is an error whose chain contains it. -/
def Propagated (es : List TraceEntry) (result : Option Error) : Prop :=
  ∀ x ∈ es, ∀ e, x.call.isRepositoryCall = true → x.err = some e →
    errorsIs e ErrRecordNotFound = false →
    e.isApp = false ∧ ∃ err, result = some err ∧ inChain err e = true

/-- The run from `w` to `r.1` logged store calls whose failures `r.2` propagates. -/
def Propagates (w : World) (r : World × Option Error) : Prop :=
  ∃ es, r.1.trace = w.trace ++ es ∧ Propagated es r.2

/-- The ledger after accounts `1` and `2` were opened, with a driver that stops the result
set of the next store call before its first row (`rows.Next()` returns false on a broken
connection). -/
def exampleBrokenRows : World :=
  { exampleFunded with
    faults := [(exampleFunded.trace.length, ⟨.next 0, .text "connection reset by peer"⟩)] }

/-- The number `m` is the last sequence number recorded for the aggregate: no event of the
aggregate has a greater one and one of them has it, or the aggregate has no event and `m` is
`0`. -/
def IsLastSeq (l : Ledger) (aggregateID : Int) (m : Int) : Prop :=
  (∀ e ∈ l.events, e.AggregateID = aggregateID → e.SequenceNumber ≤ m) ∧
  ((∃ e ∈ l.events, e.AggregateID = aggregateID ∧ e.SequenceNumber = m) ∨
    (m = 0 ∧ ∀ e ∈ l.events, e.AggregateID ≠ aggregateID))

instance (l : Ledger) (aggregateID : Int) (m : Int) : Decidable (IsLastSeq l aggregateID m) := by
  unfold IsLastSeq
  infer_instance

/-- A ledger holding one event of aggregate `1`, numbered `5`, and no account row. -/
def exampleOrphanEvent : World :=
  { db := { events := [{ TransactionID := "tx-z", SequenceNumber := 5, AggregateID := 1,
                         AggregateType := "account", EventType := "balance_credited",
                         EventData := [("source_account_id", .int64 9),
                                       ("amount", .decimal 10)],
                         Version := "1.0.0" }] } }

/-! # Theorems -/

/-! ## Basic facts about the store primitives -/

@[simp] theorem record_db (w : World) (c : StoreCall) (e : Option Error) :
    (w.record c e).db = w.db := rfl
@[simp] theorem record_tx (w : World) (c : StoreCall) (e : Option Error) :
    (w.record c e).tx = w.tx := rfl
@[simp] theorem record_faults (w : World) (c : StoreCall) (e : Option Error) :
    (w.record c e).faults = w.faults := rfl
@[simp] theorem record_txCount (w : World) (c : StoreCall) (e : Option Error) :
    (w.record c e).txCount = w.txCount := rfl
@[simp] theorem record_trace (w : World) (c : StoreCall) (e : Option Error) :
    (w.record c e).trace = w.trace ++ [⟨c, e⟩] := rfl
@[simp] theorem record_view (w : World) (c : StoreCall) (e : Option Error) (h : Tx) :
    (w.record c e).view h = w.view h := rfl

theorem fault_of_nil {w : World} (h : w.faults = []) : w.fault = none := by
  simp [World.fault, h]

theorem view_of_tx {w : World} {h : Tx} {l : Ledger} (hw : w.tx = some (h, l)) :
    w.view h = some l := by
  simp [World.view, hw]

theorem view_none_of_tx {w : World} (h : Tx) (hw : w.tx = none) : w.view h = none := by
  simp [World.view, hw]

theorem mapError_cases (err : Error) : mapError err = err ∨ mapError err = ErrRecordNotUnique := by
  unfold mapError
  split
  · split
    · rename_i entry hfind
      have hmem := List.mem_of_find?_eq_some hfind
      simp [dbErrorMap] at hmem
      right; rw [hmem]
    · left; rfl
  · left; rfl

/-- A driver failure is never reported as "record not found". -/
theorem errorsIs_toError (e : DriverError) : errorsIs e.toError ErrRecordNotFound = false := by
  cases e <;> simp [DriverError.toError, errorsIs, ErrRecordNotFound]

theorem errorsIs_mapError (e : DriverError) :
    errorsIs (mapError e.toError) ErrRecordNotFound = false := by
  rcases mapError_cases e.toError with h | h
  · rw [h]; exact errorsIs_toError e
  · rw [h]; simp [errorsIs, ErrRecordNotFound, ErrRecordNotUnique]

@[simp] theorem timeNow_db (w : World) : (timeNow w).2.db = w.db := by
  unfold timeNow; split <;> rfl
@[simp] theorem timeNow_tx (w : World) : (timeNow w).2.tx = w.tx := by
  unfold timeNow; split <;> rfl
@[simp] theorem timeNow_faults (w : World) : (timeNow w).2.faults = w.faults := by
  unfold timeNow; split <;> rfl
@[simp] theorem timeNow_trace (w : World) : (timeNow w).2.trace = w.trace := by
  unfold timeNow; split <;> rfl
@[simp] theorem timeNow_txCount (w : World) : (timeNow w).2.txCount = w.txCount := by
  unfold timeNow; split <;> rfl

theorem getRequestContext_world (w : World) (ctx : Context) (thr : Int) :
    (getRequestContext w ctx thr).1 = w ∨ (getRequestContext w ctx thr).1 = (timeNow w).2 := by
  unfold getRequestContext
  split
  · left; rfl
  · right
    split
    rename_i heq
    rw [heq]
    dsimp only
    split <;> rfl

@[simp] theorem getRequestContext_db (w : World) (ctx : Context) (thr : Int) :
    (getRequestContext w ctx thr).1.db = w.db := by
  rcases getRequestContext_world w ctx thr with h | h <;> simp [h]
@[simp] theorem getRequestContext_tx (w : World) (ctx : Context) (thr : Int) :
    (getRequestContext w ctx thr).1.tx = w.tx := by
  rcases getRequestContext_world w ctx thr with h | h <;> simp [h]
@[simp] theorem getRequestContext_faults (w : World) (ctx : Context) (thr : Int) :
    (getRequestContext w ctx thr).1.faults = w.faults := by
  rcases getRequestContext_world w ctx thr with h | h <;> simp [h]
@[simp] theorem getRequestContext_trace (w : World) (ctx : Context) (thr : Int) :
    (getRequestContext w ctx thr).1.trace = w.trace := by
  rcases getRequestContext_world w ctx thr with h | h <;> simp [h]

theorem FindByID_cases (w : World) (id : Int) :
    (∃ a, FindByID w id = (w.record (.findByID id) none, .ok a) ∧
      selectAccount w.db id = some a) ∨
    (∃ e, FindByID w id = (w.record (.findByID id) (some e), .error e) ∧
      (errorsIs e ErrRecordNotFound = true → selectAccount w.db id = none)) := by
  unfold FindByID
  split <;> (try split) <;>
    first
    | exact Or.inl ⟨_, rfl, by assumption⟩
    | exact Or.inr ⟨_, rfl, by simp_all [errorsIs, errorsIs_toError, errorsIs_mapError]⟩

theorem FindByID_of_fault_none {w : World} (id : Int) (hf : w.fault = none) :
    FindByID w id =
      match selectAccount w.db id with
      | none => (w.record (.findByID id) (some (.wrap "account not found" ErrRecordNotFound)),
          .error (.wrap "account not found" ErrRecordNotFound))
      | some account => (w.record (.findByID id) none, .ok account) := by
  unfold FindByID
  simp [hf]

theorem FindByIDForUpdateTx_cases {w : World} {h : Tx} {l : Ledger} (hw : w.tx = some (h, l))
    (id : Int) :
    (∃ a, FindByIDForUpdateTx w h id = (w.record (.findByIDForUpdateTx h id) none, .ok a) ∧
      selectAccount l id = some a) ∨
    (∃ e, FindByIDForUpdateTx w h id =
        (w.record (.findByIDForUpdateTx h id) (some e), .error e) ∧
      (errorsIs e ErrRecordNotFound = true → selectAccount l id = none)) := by
  unfold FindByIDForUpdateTx
  rw [view_of_tx hw]
  dsimp only
  split <;> (try split) <;>
    first
    | exact Or.inl ⟨_, rfl, by assumption⟩
    | exact Or.inr ⟨_, rfl, by simp_all [errorsIs, errorsIs_toError, errorsIs_mapError]⟩

theorem FindByIDForUpdateTx_of_fault_none {w : World} {h : Tx} {l : Ledger}
    (hw : w.tx = some (h, l)) (id : Int) (hf : w.fault = none) :
    FindByIDForUpdateTx w h id =
      match selectAccount l id with
      | none =>
        (w.record (.findByIDForUpdateTx h id)
          (some (.wrap "account not found" ErrRecordNotFound)),
          .error (.wrap "account not found" ErrRecordNotFound))
      | some account => (w.record (.findByIDForUpdateTx h id) none, .ok account) := by
  unfold FindByIDForUpdateTx
  rw [view_of_tx hw]
  simp [hf]

theorem FindAllByTransactionID_cases (w : World) (t : String) :
    (∃ evs, FindAllByTransactionID w t = (w.record (.findAllByTransactionID t) none, .ok evs) ∧
      ∃ e ∈ w.db.events, e.TransactionID = t) ∨
    (∃ e, FindAllByTransactionID w t =
        (w.record (.findAllByTransactionID t) (some e), .error e) ∧
      (errorsIs e ErrRecordNotFound = true →
        (∀ ev ∈ w.db.events, ev.TransactionID ≠ t) ∨
        ∃ k c, w.fault = some ⟨.next k, c⟩)) := by
  have hmem : ∀ rows : List Event,
      (∀ ev ∈ rows, ev ∈ w.db.events.filter (fun e => decide (e.TransactionID = t))) →
      rows.isEmpty = false → ∃ e ∈ w.db.events, e.TransactionID = t := by
    intro rows hsub hne
    cases rows with
    | nil => simp at hne
    | cons r rs =>
      have := hsub r (List.mem_cons_self _ _)
      simp only [List.mem_filter, decide_eq_true_eq] at this
      exact ⟨r, this.1, this.2⟩
  have hnone : (w.db.events.filter (fun e => decide (e.TransactionID = t))).isEmpty = true →
      ∀ ev ∈ w.db.events, ev.TransactionID ≠ t := by
    intro hrows ev hev heq
    have : ev ∈ w.db.events.filter (fun e => decide (e.TransactionID = t)) := by
      simp [List.mem_filter, hev, heq]
    rw [List.isEmpty_iff] at hrows
    rw [hrows] at this
    simp at this
  unfold FindAllByTransactionID
  dsimp only
  split
  · exact Or.inr ⟨_, rfl, by simp [errorsIs, errorsIs_toError]⟩
  · exact Or.inr ⟨_, rfl, by simp [errorsIs, errorsIs_toError]⟩
  · split
    · rename_i hrows
      exact Or.inr ⟨_, rfl, fun _ => Or.inl (hnone hrows)⟩
    · exact Or.inr ⟨_, rfl, by simp [errorsIs, errorsIs_toError]⟩
  · rename_i k c hf
    split
    · exact Or.inr ⟨_, rfl, fun _ => Or.inr ⟨k, c, hf⟩⟩
    · rename_i hne
      exact Or.inl ⟨_, rfl, hmem _ (fun ev hev => List.mem_of_mem_take hev) (by simpa using hne)⟩
  · split
    · rename_i hrows
      exact Or.inr ⟨_, rfl, fun _ => Or.inl (hnone hrows)⟩
    · rename_i hne
      exact Or.inl ⟨_, rfl, hmem _ (fun ev hev => hev) (by simpa using hne)⟩

theorem FindLastByAggregateID_cases (w : World) (a : Int) :
    (∃ ev, FindLastByAggregateID w a = (w.record (.findLastByAggregateID a) none, .ok ev) ∧
      ev.SequenceNumber = lastSeq w.db a) ∨
    (∃ e, FindLastByAggregateID w a =
        (w.record (.findLastByAggregateID a) (some e), .error e) ∧
      (errorsIs e ErrRecordNotFound = true → lastSeq w.db a = 0)) := by
  unfold FindLastByAggregateID lastSeq
  split <;> (try split) <;>
    first
    | exact Or.inl ⟨_, rfl, by simp_all [scanEvent]⟩
    | exact Or.inr ⟨_, rfl, by simp_all [errorsIs, errorsIs_toError, errorsIs_mapError]⟩

theorem NewAccountEventCollector_cases (w : World) (a : Int) (t v : String) :
    (∃ r, NewAccountEventCollector w a t v =
        (w.record (.findLastByAggregateID a) r, .ok (freshCollector w.db a t v))) ∨
    (∃ e e1, NewAccountEventCollector w a t v =
        (w.record (.findLastByAggregateID a) (some e1), .error e)) := by
  unfold NewAccountEventCollector
  rcases FindLastByAggregateID_cases w a with ⟨ev, heq, hseq⟩ | ⟨e, heq, hnf⟩
  · left
    rw [heq]
    exact ⟨none, by simp [freshCollector, hseq]⟩
  · rw [heq]
    dsimp only
    by_cases he : errorsIs e ErrRecordNotFound = true
    · left
      exact ⟨some e, by simp [he, freshCollector, hnf he]⟩
    · right
      exact ⟨.wrap "failed to find last event" e, e, by simp [he]⟩

theorem CreateBulkTx_cases {w : World} {h : Tx} {l : Ledger} (hw : w.tx = some (h, l))
    (evs : List Event) :
    CreateBulkTx w (some h) evs =
      (({ w with tx := some (h, insertEvents l evs) } : World).record
        (.createBulkTx (some h) evs) none, none) ∨
    ∃ e, CreateBulkTx w (some h) evs = (w.record (.createBulkTx (some h) evs) (some e), some e) := by
  unfold CreateBulkTx
  simp only [view_of_tx hw]
  split <;> (try split) <;> simp [World.fail]

theorem UpsertTx_cases {w : World} {h : Tx} {l : Ledger} (hw : w.tx = some (h, l))
    (account : Account) :
    UpsertTx w (some h) account =
      (({ w with tx := some (h, upsertAccount l account) } : World).record
        (.upsertTx (some h) account) none, none) ∨
    ∃ e, UpsertTx w (some h) account =
      (w.record (.upsertTx (some h) account) (some e), some e) := by
  unfold UpsertTx
  simp only [view_of_tx hw]
  split <;> simp [World.fail]

theorem Place_cases {w : World} {h : Tx} {l : Ledger} (hw : w.tx = some (h, l))
    (c : AccountEventCollector) :
    c.Place w (some h) =
      (({ w with tx := some (h, insertEvents l c.events) } : World).record
        (.createBulkTx (some h) c.events) none,
        { c with sequenceNumber := 0, events := [] }, none) ∨
    ∃ e, c.Place w (some h) =
      (w.record (.createBulkTx (some h) c.events) (some e), c,
        some (.wrap "failed to create bulk events" e)) := by
  unfold AccountEventCollector.Place
  rcases CreateBulkTx_cases hw c.events with heq | ⟨e, heq⟩
  · left; rw [heq]
  · right; exact ⟨e, by rw [heq]⟩

theorem BeginTx_cases (w : World) :
    BeginTx w = (w.begun, .ok ⟨w.txCount⟩) ∨
    ∃ e, BeginTx w = (w.record .beginTx (some e), .error e) := by
  unfold BeginTx World.begun
  split <;> simp

theorem Commit_cases {w : World} {h : Tx} {l : Ledger} (hw : w.tx = some (h, l)) :
    Commit w h = (({ w with db := l, tx := none } : World).record (.commit h) none, none) ∨
    ∃ e, Commit w h = (({ w with tx := none } : World).record (.commit h) (some e), some e) := by
  unfold Commit
  simp only [view_of_tx hw]
  split <;> simp [World.fail]

theorem Rollback_cases {w : World} {h : Tx} {l : Ledger} (hw : w.tx = some (h, l)) :
    ∃ r, (Rollback w h).1 = ({ w with tx := none } : World).record (.rollback h) r := by
  unfold Rollback
  simp only [view_of_tx hw]
  split <;> simp [World.fail]

theorem getRequestContext_ok {w w1 : World} {ctx : Context} {thr : Int} {rc : RequestContext}
    (h : getRequestContext w ctx thr = (w1, rc, none)) : rc = (RequestFromContext ctx).1 := by
  unfold getRequestContext at h
  split at h
  · simp at h
  · rename_i heq
    rw [heq]
    split at h
    dsimp only at h
    split at h <;> simp at h
    exact h.2.symm

theorem WithTransaction_cases {w : World} {f : World → Tx → World × Option Error}
    {r : World × Option Error} {P : Ledger → Prop} (hr : WithTransaction w f = r)
    (hw : w.tx = none)
    (hf : (f w.begun ⟨w.txCount⟩).1.db = w.db ∧
      ∃ l, (f w.begun ⟨w.txCount⟩).1.tx = some (⟨w.txCount⟩, l) ∧
        ((f w.begun ⟨w.txCount⟩).2 = none → P l)) :
    TxOutcome w P r := by
  unfold WithTransaction at hr
  rcases BeginTx_cases w with hb | ⟨e, hb⟩ <;> rw [hb] at hr <;> dsimp only at hr
  · obtain ⟨hdb, l, htx, hL⟩ := hf
    rcases hres : f w.begun ⟨w.txCount⟩ with ⟨w2, _ | err⟩ <;>
      rw [hres] at hdb htx hL hr <;> dsimp only at hdb htx hL hr
    · have hl := hL rfl
      rcases Commit_cases htx with hc | ⟨e, hc⟩ <;> rw [hc] at hr <;> subst hr
      · exact ⟨rfl, Or.inr ⟨rfl, ⟨⟨w.txCount⟩, by simp⟩, hl⟩⟩
      · refine ⟨rfl, Or.inl ⟨hdb, fun _ => ?_⟩⟩
        rintro ⟨h, hh⟩
        simp at hh
    · obtain ⟨r, hrb⟩ := Rollback_cases htx
      rw [hrb] at hr
      subst hr
      exact ⟨rfl, Or.inl ⟨hdb, by simp⟩⟩
  · subst hr
    exact ⟨hw, Or.inl ⟨rfl, by simp⟩⟩

theorem createAccountTxFunc_spec {w : World} {h : Tx} {l : Ledger} (hw : w.tx = some (h, l))
    (req : CreateAccountRequest) (c : AccountEventCollector) (account : Account) :
    (createAccountTxFunc req c account w h).1.db = w.db ∧
    ∃ l1, (createAccountTxFunc req c account w h).1.tx = some (h, l1) ∧
      ((createAccountTxFunc req c account w h).2 = none →
        l1 = upsertAccount
          (insertEvents l ((c.OnInitBalanceEvent req.InitialBalance).OnDepositReceivedEvent
            "SYSTEM" req.InitialBalance).events) account) := by
  generalize hr : createAccountTxFunc req c account w h = r
  unfold createAccountTxFunc at hr
  dsimp only at hr
  generalize (c.OnInitBalanceEvent req.InitialBalance).OnDepositReceivedEvent
    "SYSTEM" req.InitialBalance = c2 at hr ⊢
  rcases Place_cases hw c2 with hp | ⟨e, hp⟩ <;> rw [hp] at hr <;> dsimp only at hr
  · rcases UpsertTx_cases
      (w := ({ w with tx := some (h, insertEvents l c2.events) } : World).record
        (.createBulkTx (some h) c2.events) none) (h := h) (l := insertEvents l c2.events) rfl
      account with hu | ⟨e, hu⟩ <;> rw [hu] at hr <;> subst hr
    · exact ⟨rfl, _, rfl, fun _ => rfl⟩
    · exact ⟨rfl, _, rfl, by simp⟩
  · subst hr
    exact ⟨rfl, _, hw, by simp⟩

theorem CreateAccount_cases (s : AccountService) (w : World) (ctx : Context)
    (req : CreateAccountRequest) (hw : w.tx = none) :
    CreateOutcome s w ctx req (CreateAccount s w ctx req) := by
  generalize hr : CreateAccount s w ctx req = r
  unfold CreateAccount at hr
  have g1db := getRequestContext_db w ctx s.requestTimeThreshold
  have g1tx := getRequestContext_tx w ctx s.requestTimeThreshold
  have g1f := getRequestContext_faults w ctx s.requestTimeThreshold
  have g1t := getRequestContext_trace w ctx s.requestTimeThreshold
  rcases h1 : getRequestContext w ctx s.requestTimeThreshold with ⟨w1, rc, _ | err⟩ <;>
    rw [h1] at hr g1db g1tx g1f g1t <;> dsimp only at hr g1db g1tx g1f g1t
  swap
  · subst hr; left; simp [g1db, g1tx, hw]
  have hrc := getRequestContext_ok h1
  rcases FindByID_cases w1 req.AccountID with ⟨a, h2, _⟩ | ⟨e2, h2, hnf2⟩ <;>
    rw [h2] at hr <;> dsimp only at hr
  · subst hr; left; simp [g1db, g1tx, hw]
  split at hr
  · subst hr; left; simp [g1db, g1tx, hw]
  rename_i hne2
  rcases FindAllByTransactionID_cases (w1.record (.findByID req.AccountID) (some e2))
    rc.TransactionID with ⟨evs, h3, _⟩ | ⟨e3, h3, hnf3⟩ <;>
    rw [h3] at hr <;> dsimp only at hr
  · subst hr; left; simp [g1db, g1tx, hw]
  split at hr
  · subst hr; left; simp [g1db, g1tx, hw]
  rename_i hne3
  rcases NewAccountEventCollector_cases
    ((w1.record (.findByID req.AccountID) (some e2)).record
      (.findAllByTransactionID rc.TransactionID) (some e3))
    req.AccountID rc.TransactionID s.eventVersion with ⟨r4, h4⟩ | ⟨e4, e4a, h4⟩ <;>
    rw [h4] at hr <;> dsimp only at hr
  swap
  · subst hr; left; simp [g1db, g1tx, hw]
  have hnf2 := hnf2 (by simpa using hne2)
  have hnf3 := hnf3 (by simpa using hne3)
  rw [g1db] at hnf2
  simp only [record_db, g1db] at hnf3 hr
  generalize hW0 : ((w1.record (.findByID req.AccountID) (some e2)).record
        (.findAllByTransactionID rc.TransactionID) (some e3)).record
        (.findLastByAggregateID req.AccountID) r4 = W0 at hr
  have hWtx : (timeNow (timeNow W0).2).2.tx = none := by rw [← hW0]; simp [g1tx, hw]
  have hWdb : (timeNow (timeNow W0).2).2.db = w.db := by rw [← hW0]; simp [g1db]
  split at hr <;> rename_i heq <;> subst hr <;>
    obtain ⟨htx5, hcase⟩ := WithTransaction_cases heq hWtx (createAccountTxFunc_spec rfl req _ _)
  · rcases hcase with ⟨hdb5, _⟩ | ⟨hn, _⟩
    · left; exact ⟨htx5, by rw [hdb5]; exact hWdb, by simp⟩
    · simp at hn
  · rcases hcase with ⟨hdb5, hnc⟩ | ⟨_, hc, hdb5⟩
    · left; exact ⟨htx5, by rw [hdb5]; exact hWdb, hnc⟩
    · right
      refine ⟨htx5, rfl, hc, hnf2, ?_, (timeNow W0).1, (timeNow (timeNow W0).2).1, ?_⟩
      · rw [← hrc]
        rcases hnf3 with hnf3 | ⟨k, c, hk⟩
        · exact Or.inl hnf3
        · exact Or.inr ⟨k, c, by
            simpa [World.fault, World.faultAt, g1f, g1t] using hk⟩
      · rw [hdb5, ← hrc, hWdb]
        rfl

theorem processTransfer_spec {w : World} {h : Tx} {l : Ledger} (hw : w.tx = some (h, l))
    (req : CreateTransferRequest) :
    (processTransfer w h req).1.db = w.db ∧
    ∃ l1, (processTransfer w h req).1.tx = some (h, l1) ∧
      ((processTransfer w h req).2 = none → TransferEffect l req l1) := by
  generalize hr : processTransfer w h req = r
  unfold processTransfer at hr
  rcases FindByIDForUpdateTx_cases hw req.SourceAccountID with ⟨src, h1, hs⟩ | ⟨e1, h1, _⟩ <;>
    rw [h1] at hr <;> dsimp only at hr
  swap
  · split at hr <;> subst hr <;> exact ⟨rfl, l, hw, by simp⟩
  rcases FindByIDForUpdateTx_cases
    (w := w.record (.findByIDForUpdateTx h req.SourceAccountID) none) (h := h) (l := l) hw
    req.DestinationAccountID with ⟨dst, h2, hd⟩ | ⟨e2, h2, _⟩ <;>
    rw [h2] at hr <;> dsimp only at hr
  swap
  · split at hr <;> subst hr <;> exact ⟨rfl, l, hw, by simp⟩
  split at hr
  · subst hr; exact ⟨rfl, l, hw, by simp⟩
  rename_i hbal
  generalize hW0 : (w.record (.findByIDForUpdateTx h req.SourceAccountID) none).record
    (.findByIDForUpdateTx h req.DestinationAccountID) none = W0 at hr
  have hW0tx : (timeNow (timeNow W0).2).2.tx = some (h, l) := by rw [← hW0]; simp [hw]
  have hW0db : (timeNow (timeNow W0).2).2.db = w.db := by rw [← hW0]; simp
  rcases UpsertTx_cases hW0tx
    { src with Balance := src.Balance - req.Amount, UpdatedAt := (timeNow W0).1 }
    with hu1 | ⟨e, hu1⟩ <;> rw [hu1] at hr <;> dsimp only at hr
  swap
  · subst hr; exact ⟨hW0db, l, hW0tx, by simp⟩
  rcases UpsertTx_cases (w := (({ (timeNow (timeNow W0).2).2 with
      tx := some (h, upsertAccount l
        { src with Balance := src.Balance - req.Amount, UpdatedAt := (timeNow W0).1 }) } :
        World).record (.upsertTx (some h)
          { src with Balance := src.Balance - req.Amount, UpdatedAt := (timeNow W0).1 }) none))
    (h := h) rfl
    { dst with Balance := dst.Balance + req.Amount, UpdatedAt := (timeNow (timeNow W0).2).1 }
    with hu2 | ⟨e, hu2⟩ <;> rw [hu2] at hr <;> subst hr
  · exact ⟨hW0db, _, rfl, fun _ => ⟨src, dst, _, _, hs, hd, hbal, rfl⟩⟩
  · exact ⟨hW0db, _, rfl, by simp⟩

theorem transferTxFunc_spec {w : World} {h : Tx} {l : Ledger} (hw : w.tx = some (h, l))
    (req : CreateTransferRequest) (cS cD : AccountEventCollector) :
    (transferTxFunc req cS cD w h).1.db = w.db ∧
    ∃ l1, (transferTxFunc req cS cD w h).1.tx = some (h, l1) ∧
      ((transferTxFunc req cS cD w h).2 = none →
        TransferEffect
          (insertEvents
            (insertEvents l (cS.OnSubBalanceEvent req.SourceAccountID req.Amount).events)
            (cD.OnAddBalanceEvent req.DestinationAccountID req.Amount).events) req l1) := by
  generalize hr : transferTxFunc req cS cD w h = r
  unfold transferTxFunc at hr
  dsimp only at hr
  generalize cS.OnSubBalanceEvent req.SourceAccountID req.Amount = c1 at hr ⊢
  generalize cD.OnAddBalanceEvent req.DestinationAccountID req.Amount = c2 at hr ⊢
  rcases Place_cases hw c1 with hp | ⟨e, hp⟩ <;> rw [hp] at hr <;> dsimp only at hr
  swap
  · subst hr; exact ⟨rfl, _, hw, by simp⟩
  rcases Place_cases
    (w := ({ w with tx := some (h, insertEvents l c1.events) } : World).record
      (.createBulkTx (some h) c1.events) none) (h := h) rfl c2
    with hp2 | ⟨e, hp2⟩ <;> rw [hp2] at hr <;> dsimp only at hr
  swap
  · subst hr; exact ⟨rfl, _, rfl, by simp⟩
  have hpt := processTransfer_spec
    (w := ({ ({ w with tx := some (h, insertEvents l c1.events) } : World).record
      (.createBulkTx (some h) c1.events) none with
        tx := some (h, insertEvents (insertEvents l c1.events) c2.events) } : World).record
      (.createBulkTx (some h) c2.events) none) (h := h) rfl req
  split at hr <;> rename_i heq <;> subst hr <;> rw [heq] at hpt <;>
    obtain ⟨hdb, l1, htx, heff⟩ := hpt
  · exact ⟨hdb, l1, htx, by simp⟩
  · exact ⟨hdb, l1, htx, fun _ => heff rfl⟩

theorem Transfer_cases (s : TransactionService) (w : World) (ctx : Context)
    (req : CreateTransferRequest) (hw : w.tx = none) :
    TransferOutcome s w ctx req (Transfer s w ctx req) := by
  generalize hr : Transfer s w ctx req = r
  unfold Transfer at hr
  have g1db := getRequestContext_db w ctx s.requestTimeThreshold
  have g1tx := getRequestContext_tx w ctx s.requestTimeThreshold
  have g1f := getRequestContext_faults w ctx s.requestTimeThreshold
  have g1t := getRequestContext_trace w ctx s.requestTimeThreshold
  rcases h1 : getRequestContext w ctx s.requestTimeThreshold with ⟨w1, rc, _ | err⟩ <;>
    rw [h1] at hr g1db g1tx g1f g1t <;> dsimp only at hr g1db g1tx g1f g1t
  swap
  · subst hr; left; simp [g1db, g1tx, hw]
  have hrc := getRequestContext_ok h1
  rcases FindAllByTransactionID_cases w1 rc.TransactionID with
    ⟨evs, h3, _⟩ | ⟨e3, h3, hnf3⟩ <;> rw [h3] at hr <;> dsimp only at hr
  · subst hr; left; simp [g1db, g1tx, hw]
  split at hr
  · subst hr; left; simp [g1db, g1tx, hw]
  rename_i hne3
  split at hr
  · subst hr; left; simp [g1db, g1tx, hw]
  rename_i hsd
  rcases NewAccountEventCollector_cases
    (w1.record (.findAllByTransactionID rc.TransactionID) (some e3))
    req.SourceAccountID rc.TransactionID s.eventVersion with ⟨r4, h4⟩ | ⟨e4, e4a, h4⟩ <;>
    rw [h4] at hr <;> dsimp only at hr
  swap
  · subst hr; left; simp [g1db, g1tx, hw]
  rcases NewAccountEventCollector_cases
    ((w1.record (.findAllByTransactionID rc.TransactionID) (some e3)).record
      (.findLastByAggregateID req.SourceAccountID) r4)
    req.DestinationAccountID rc.TransactionID s.eventVersion with ⟨r5, h5⟩ | ⟨e5, e5a, h5⟩ <;>
    rw [h5] at hr <;> dsimp only at hr
  swap
  · subst hr; left; simp [g1db, g1tx, hw]
  have hnf3 := hnf3 (by simpa using hne3)
  simp only [record_db, g1db] at hnf3 hr
  generalize hW0 : ((w1.record (.findAllByTransactionID rc.TransactionID) (some e3)).record
      (.findLastByAggregateID req.SourceAccountID) r4).record
      (.findLastByAggregateID req.DestinationAccountID) r5 = W0 at hr
  have hWtx : W0.tx = none := by rw [← hW0]; simp [g1tx, hw]
  have hWdb : W0.db = w.db := by rw [← hW0]; simp [g1db]
  split at hr <;> rename_i heq <;> subst hr <;>
    obtain ⟨htx5, hcase⟩ := WithTransaction_cases heq hWtx (transferTxFunc_spec rfl req _ _)
  · rcases hcase with ⟨hdb5, _⟩ | ⟨hn, _⟩
    · left; exact ⟨htx5, by rw [hdb5]; exact hWdb, by simp⟩
    · simp at hn
  · rcases hcase with ⟨hdb5, hnc⟩ | ⟨_, hc, heff⟩
    · left; exact ⟨htx5, by rw [hdb5]; exact hWdb, hnc⟩
    · right
      refine ⟨htx5, rfl, hc, hsd, ?_, ?_⟩
      · rw [← hrc]
        rcases hnf3 with hnf3 | ⟨k, c, hk⟩
        · exact Or.inl hnf3
        · exact Or.inr ⟨k, c, by
            simpa [World.fault, World.faultAt, g1f, g1t] using hk⟩
      · rw [← hrc]
        rw [hWdb] at heff
        exact heff

theorem wrapInt64_of_range {x : Int} (h1 : -9223372036854775808 ≤ x)
    (h2 : x ≤ 9223372036854775807) : wrapInt64 x = x := by
  unfold wrapInt64
  omega

theorem oneTo_succ (n : Nat) : oneTo (n + 1) = oneTo n ++ [(n : Int) + 1] := by
  unfold oneTo
  rw [List.range_succ, List.map_append]
  rfl

theorem oneTo_length (n : Nat) : (oneTo n).length = n := by
  unfold oneTo
  rw [List.length_map, List.length_range]

theorem lastBySequence_append (xs : List Event) (e : Event) :
    lastBySequence (xs ++ [e]) =
      match lastBySequence xs with
      | none => some e
      | some b => if b.SequenceNumber ≤ e.SequenceNumber then some e else some b := by
  simp [lastBySequence, List.foldl_append]

/-- On a gap-free list the row with the greatest sequence number carries the list's length. -/
theorem lastBySequence_oneTo (xs : List Event)
    (h : xs.map (·.SequenceNumber) = oneTo xs.length) :
    (match lastBySequence xs with
      | some e => e.SequenceNumber
      | none => 0) = (xs.length : Int) := by
  induction xs using List.reverseRecOn with
  | nil => simp [lastBySequence]
  | append_singleton xs e ih =>
    simp only [List.map_append, List.length_append, List.length_singleton, oneTo_succ,
      List.map_cons, List.map_nil] at h
    have hlen : (xs.map (·.SequenceNumber)).length = (oneTo xs.length).length := by
      simp [oneTo_length]
    obtain ⟨hxs, he⟩ := List.append_inj h hlen
    have ih := ih hxs
    simp only [List.cons.injEq, and_true] at he
    rw [lastBySequence_append]
    cases hl : lastBySequence xs with
    | none =>
      simp only [List.length_append, List.length_singleton]
      rw [he]
      push_cast
      rfl
    | some b =>
      rw [hl] at ih
      simp only at ih
      have : b.SequenceNumber ≤ e.SequenceNumber := by omega
      simp only [if_pos this, List.length_append, List.length_singleton]
      rw [he]
      push_cast
      rfl

theorem lastSeq_of_gapFree {l : Ledger} (h : GapFree l) (a : Int) :
    lastSeq l a = ((aggregateSeqs l a).length : Int) := by
  have := lastBySequence_oneTo (l.events.filter (fun e => decide (e.AggregateID = a)))
    (by simpa [aggregateSeqs] using h a)
  simpa [lastSeq, aggregateSeqs] using this

theorem aggregateSeqs_length_le (l : Ledger) (a : Int) :
    (aggregateSeqs l a).length ≤ l.events.length := by
  simp [aggregateSeqs, List.length_filter_le]

theorem upsertAccount_events (l : Ledger) (a : Account) : (upsertAccount l a).events = l.events := by
  unfold upsertAccount; split <;> rfl

theorem TransferEffect_events {l l1 : Ledger} {req : CreateTransferRequest}
    (h : TransferEffect l req l1) : l1.events = l.events := by
  obtain ⟨src, dst, t1, t2, _, _, _, rfl⟩ := h
  simp [upsertAccount_events]

theorem creationEvents_eq (l : Ledger) (a : Int) (t v : String) (b : Decimal) :
    creationEvents l a t v b =
      [{ TransactionID := t, SequenceNumber := wrapInt64 (lastSeq l a + 1), AggregateID := a,
         AggregateType := AggregateTypeAccount, EventType := EventTypeInitBalance,
         EventData := [("initial_balance", .decimal b)], Version := v },
       { TransactionID := t, SequenceNumber := wrapInt64 (wrapInt64 (lastSeq l a + 1) + 1),
         AggregateID := a, AggregateType := AggregateTypeAccount,
         EventType := EventTypeDepositReceived,
         EventData := [("source", .string "SYSTEM"), ("amount", .decimal b)], Version := v }] := by
  rfl

theorem debitEvents_eq (l : Ledger) (a : Int) (t v : String) (x : Int) (b : Decimal) :
    ((freshCollector l a t v).OnSubBalanceEvent x b).events =
      [{ TransactionID := t, SequenceNumber := wrapInt64 (lastSeq l a + 1), AggregateID := a,
         AggregateType := AggregateTypeAccount, EventType := EventTypeDebitBalance,
         EventData := [("destination_account_id", .int64 x), ("amount", .decimal b)],
         Version := v }] := by
  rfl

theorem creditEvents_eq (l : Ledger) (a : Int) (t v : String) (x : Int) (b : Decimal) :
    ((freshCollector l a t v).OnAddBalanceEvent x b).events =
      [{ TransactionID := t, SequenceNumber := wrapInt64 (lastSeq l a + 1), AggregateID := a,
         AggregateType := AggregateTypeAccount, EventType := EventTypeCreditBalance,
         EventData := [("source_account_id", .int64 x), ("amount", .decimal b)],
         Version := v }] := by
  rfl


theorem aggregateSeqs_append_one {l m : Ledger} {e : Event}
    (hev : m.events = l.events ++ [e]) (b : Int) :
    aggregateSeqs m b =
      if e.AggregateID = b then aggregateSeqs l b ++ [e.SequenceNumber] else aggregateSeqs l b := by
  unfold aggregateSeqs
  rw [hev, List.filter_append, List.map_append]
  by_cases h : e.AggregateID = b <;> simp [h, List.filter]

theorem gapFree_append_one {l m : Ledger} {e : Event} (h : GapFree l)
    (hev : m.events = l.events ++ [e])
    (hseq : e.SequenceNumber = ((aggregateSeqs l e.AggregateID).length : Int) + 1) :
    GapFree m := by
  intro b
  rw [aggregateSeqs_append_one hev b]
  by_cases hb : e.AggregateID = b
  · subst hb
    simp only [if_true, List.length_append, List.length_singleton, oneTo_succ]
    rw [← h e.AggregateID, hseq]
  · simp only [if_neg hb]
    exact h b

theorem gapFree_append_two {l m : Ledger} {e1 e2 : Event} (h : GapFree l)
    (hev : m.events = l.events ++ [e1, e2])
    (h1 : e1.SequenceNumber = ((aggregateSeqs l e1.AggregateID).length : Int) + 1)
    (h2 : e2.SequenceNumber =
      if e1.AggregateID = e2.AggregateID then
        ((aggregateSeqs l e2.AggregateID).length : Int) + 1 + 1
      else ((aggregateSeqs l e2.AggregateID).length : Int) + 1) :
    GapFree m := by
  have hmid : GapFree { l with events := l.events ++ [e1] } := gapFree_append_one h rfl h1
  have hev2 : m.events = ({ l with events := l.events ++ [e1] } : Ledger).events ++ [e2] := by
    rw [hev]; simp
  refine gapFree_append_one hmid hev2 ?_
  rw [aggregateSeqs_append_one (l := l) rfl, h2]
  split <;> simp

theorem SeqInv_create {s : AccountService} {w : World} {ctx : Context}
    {req : CreateAccountRequest} {r : World × Option Error} {k : Nat}
    (hinv : SeqInv w k) (hk : 2 * (k + 1) < 2 ^ 63) (hout : CreateOutcome s w ctx req r) :
    SeqInv r.1 (k + 1) := by
  obtain ⟨_, hgap, hlen⟩ := hinv
  rcases hout with ⟨htx, hdb, _⟩ | ⟨htx, _, _, _, _, createdAt, updatedAt, hdb⟩
  · exact ⟨htx, by rw [hdb]; exact hgap, by rw [hdb]; omega⟩
  · have hn := aggregateSeqs_length_le w.db req.AccountID
    have hlast := lastSeq_of_gapFree hgap req.AccountID
    have hevents : r.1.db.events =
        w.db.events ++ (creationEvents w.db req.AccountID
          (RequestFromContext ctx).1.TransactionID s.eventVersion req.InitialBalance).map
            eventRow := by
      rw [hdb, upsertAccount_events]; rfl
    rw [creationEvents_eq, hlast] at hevents
    have hw1 : wrapInt64 (((aggregateSeqs w.db req.AccountID).length : Int) + 1) =
        ((aggregateSeqs w.db req.AccountID).length : Int) + 1 :=
      wrapInt64_of_range (by omega) (by omega)
    have hw2 : wrapInt64 (((aggregateSeqs w.db req.AccountID).length : Int) + 1 + 1) =
        ((aggregateSeqs w.db req.AccountID).length : Int) + 1 + 1 :=
      wrapInt64_of_range (by omega) (by omega)
    rw [hw1, hw2] at hevents
    simp only [List.map_cons, List.map_nil] at hevents
    refine ⟨htx, gapFree_append_two hgap hevents rfl (by simp [eventRow]), ?_⟩
    rw [hevents]
    simp only [List.length_append, List.length_cons, List.length_nil]
    omega

theorem SeqInv_transfer {s : TransactionService} {w : World} {ctx : Context}
    {req : CreateTransferRequest} {r : World × Option Error} {k : Nat}
    (hinv : SeqInv w k) (hk : 2 * (k + 1) < 2 ^ 63) (hout : TransferOutcome s w ctx req r) :
    SeqInv r.1 (k + 1) := by
  obtain ⟨_, hgap, hlen⟩ := hinv
  rcases hout with ⟨htx, hdb, _⟩ | ⟨htx, _, _, hsd, _, heff⟩
  · exact ⟨htx, by rw [hdb]; exact hgap, by rw [hdb]; omega⟩
  · have hnS := aggregateSeqs_length_le w.db req.SourceAccountID
    have hnD := aggregateSeqs_length_le w.db req.DestinationAccountID
    have hevents := TransferEffect_events heff
    rw [debitEvents_eq, creditEvents_eq, lastSeq_of_gapFree hgap,
      lastSeq_of_gapFree hgap] at hevents
    have hw1 : wrapInt64 (((aggregateSeqs w.db req.SourceAccountID).length : Int) + 1) =
        ((aggregateSeqs w.db req.SourceAccountID).length : Int) + 1 :=
      wrapInt64_of_range (by omega) (by omega)
    have hw2 : wrapInt64 (((aggregateSeqs w.db req.DestinationAccountID).length : Int) + 1) =
        ((aggregateSeqs w.db req.DestinationAccountID).length : Int) + 1 :=
      wrapInt64_of_range (by omega) (by omega)
    rw [hw1, hw2] at hevents
    simp only [insertEvents, List.map_cons, List.map_nil, List.append_assoc,
      List.singleton_append] at hevents
    refine ⟨htx, gapFree_append_two hgap hevents rfl (by simp [eventRow, hsd]), ?_⟩
    rw [hevents]
    simp only [List.length_append, List.length_cons, List.length_nil]
    omega

theorem exec_cases (svc : Services) (w : World) (c : Call) (hw : w.tx = none) :
    (∃ ctx req, c.op = .createAccount ctx req ∧
      CreateOutcome svc.account { w with faults := c.faults, ticks := c.ticks } ctx req
        (exec svc w c)) ∨
    (∃ ctx req, c.op = .transfer ctx req ∧
      TransferOutcome svc.transaction { w with faults := c.faults, ticks := c.ticks } ctx req
        (exec svc w c)) := by
  unfold exec
  cases hop : c.op with
  | createAccount ctx req => exact Or.inl ⟨ctx, req, rfl, CreateAccount_cases _ _ _ _ hw⟩
  | transfer ctx req => exact Or.inr ⟨ctx, req, rfl, Transfer_cases _ _ _ _ hw⟩

theorem SeqInv_exec (svc : Services) {w : World} (c : Call) {k : Nat} (hinv : SeqInv w k)
    (hk : 2 * (k + 1) < 2 ^ 63) : SeqInv (exec svc w c).1 (k + 1) := by
  rcases exec_cases svc w c hinv.1 with ⟨ctx, req, _, hout⟩ | ⟨ctx, req, _, hout⟩
  · exact SeqInv_create (w := { w with faults := c.faults, ticks := c.ticks }) hinv hk hout
  · exact SeqInv_transfer (w := { w with faults := c.faults, ticks := c.ticks }) hinv hk hout

theorem SeqInv_run (svc : Services) (calls : List Call) :
    ∀ (w : World) (k : Nat), SeqInv w k → 2 * (k + calls.length) < 2 ^ 63 →
      SeqInv (run svc w calls) (k + calls.length) := by
  induction calls with
  | nil => intro w k h _; simpa [run] using h
  | cons c cs ih =>
    intro w k h hk
    simp only [List.length_cons] at hk ⊢
    have hstep := SeqInv_exec svc c h (by omega)
    have := ih (exec svc w c).1 (k + 1) hstep (by omega)
    simpa [run, Nat.add_assoc, Nat.add_comm 1] using this

/-- C1. In every ledger state reachable from the empty ledger by a sequence of `CreateAccount`
and `Transfer` calls (each run to completion, whatever driver failures it meets), the sequence
numbers of every aggregate's events are exactly `1, 2, ..., N` in log order, `N` being the
number of that aggregate's events. The length bound keeps the `int64` counter from wrapping. -/
theorem sequence_numbers_gap_free (svc : Services) (calls : List Call)
    (hlen : 2 * calls.length < 2 ^ 63) (a : Int) :
    aggregateSeqs (run svc emptyWorld calls).db a =
      oneTo (aggregateSeqs (run svc emptyWorld calls).db a).length := by
  have h0 : SeqInv emptyWorld 0 := ⟨rfl, fun b => rfl, by simp [emptyWorld]⟩
  have := SeqInv_run svc calls emptyWorld 0 h0 (by simpa using hlen)
  exact this.2.1 a

theorem sequence_numbers_gap_free_witness :
    2 * exampleCalls.length < 2 ^ 63 ∧
    aggregateSeqs (run exampleServices emptyWorld exampleCalls).db 1 =
      oneTo (aggregateSeqs (run exampleServices emptyWorld exampleCalls).db 1).length :=
  ⟨by decide, sequence_numbers_gap_free exampleServices exampleCalls (by decide) 1⟩

theorem exampleCalls_sequence_numbers :
    aggregateSeqs (run exampleServices emptyWorld exampleCalls).db 1 = [1, 2, 3] ∧
    aggregateSeqs (run exampleServices emptyWorld exampleCalls).db 2 = [1, 2, 3] := by decide

theorem upsertAccount_nonNegative {l : Ledger} {a : Account} (h : NonNegative l)
    (ha : 0 ≤ a.Balance) : NonNegative (upsertAccount l a) := by
  unfold upsertAccount
  split
  · intro x hx
    simp only [List.mem_map] at hx
    obtain ⟨y, hy, rfl⟩ := hx
    split
    · exact ha
    · exact h y hy
  · intro x hx
    simp only [List.mem_append, List.mem_singleton] at hx
    rcases hx with hx | rfl
    · exact h x hx
    · exact ha

theorem selectAccount_some {l : Ledger} {id : Int} {a : Account}
    (h : selectAccount l id = some a) :
    a.ID = id ∧ ∃ row ∈ l.accounts, row.ID = id ∧ row.Balance = a.Balance := by
  unfold selectAccount at h
  split at h
  · rename_i row hfind
    have hmem := List.mem_of_find?_eq_some hfind
    have hp := List.find?_some hfind
    simp only [decide_eq_true_eq] at hp
    simp only [Option.some.injEq] at h
    subst h
    exact ⟨hp, row, hmem, hp, rfl⟩
  · simp at h

theorem NonNegative_create {s : AccountService} {w : World} {ctx : Context}
    {req : CreateAccountRequest} {r : World × Option Error}
    (hinv : NonNegative w.db) (hpos : 0 < req.InitialBalance)
    (hout : CreateOutcome s w ctx req r) : NonNegative r.1.db := by
  rcases hout with ⟨_, hdb, _⟩ | ⟨_, _, _, _, _, createdAt, updatedAt, hdb⟩
  · rw [hdb]; exact hinv
  · rw [hdb]
    exact upsertAccount_nonNegative (l := insertEvents w.db _) hinv (le_of_lt hpos)

theorem NonNegative_transfer {s : TransactionService} {w : World} {ctx : Context}
    {req : CreateTransferRequest} {r : World × Option Error}
    (hinv : NonNegative w.db) (hpos : 0 < req.Amount)
    (hout : TransferOutcome s w ctx req r) : NonNegative r.1.db := by
  rcases hout with ⟨_, hdb, _⟩ | ⟨_, _, _, _, _, src, dst, t1, t2, hs, hd, hbal, hdb⟩
  · rw [hdb]; exact hinv
  · rw [hdb]
    obtain ⟨_, row, hrow, _, hrb⟩ := selectAccount_some hd
    have hdst : 0 ≤ dst.Balance := by rw [← hrb]; exact hinv row hrow
    refine upsertAccount_nonNegative (upsertAccount_nonNegative (l := insertEvents _ _) hinv ?_) ?_
    · simp only [not_lt] at hbal
      exact sub_nonneg.mpr hbal
    · exact add_nonneg hdst (le_of_lt hpos)

theorem NonNegative_run (svc : Services) (calls : List Call) :
    ∀ w : World, w.tx = none → NonNegative w.db → (∀ c ∈ calls, PositiveAmount c) →
      (run svc w calls).tx = none ∧ NonNegative (run svc w calls).db := by
  induction calls with
  | nil => intro w hw h _; exact ⟨hw, h⟩
  | cons c cs ih =>
    intro w hw h hpos
    have hc := hpos c (List.mem_cons_self _ _)
    have hrest : ∀ d ∈ cs, PositiveAmount d := fun d hd => hpos d (List.mem_cons_of_mem _ hd)
    unfold PositiveAmount at hc
    rcases exec_cases svc w c hw with ⟨ctx, req, hop, hout⟩ | ⟨ctx, req, hop, hout⟩ <;>
      rw [hop] at hc
    · have htx : (exec svc w c).1.tx = none := by
        rcases hout with ⟨h1, _⟩ | ⟨h1, _⟩ <;> exact h1
      exact ih _ htx
        (NonNegative_create (w := { w with faults := c.faults, ticks := c.ticks }) h hc hout)
        hrest
    · have htx : (exec svc w c).1.tx = none := by
        rcases hout with ⟨h1, _⟩ | ⟨h1, _⟩ <;> exact h1
      exact ih _ htx
        (NonNegative_transfer (w := { w with faults := c.faults, ticks := c.ticks }) h hc hout)
        hrest

/-- C4. In every ledger state reachable from the empty ledger by `CreateAccount` calls with a
positive initial balance and `Transfer` calls with a positive amount, every stored account
balance is greater than or equal to zero. -/
theorem balances_never_negative (svc : Services) (calls : List Call)
    (hpos : ∀ c ∈ calls, PositiveAmount c) :
    ∀ a ∈ (run svc emptyWorld calls).db.accounts, 0 ≤ a.Balance :=
  (NonNegative_run svc calls emptyWorld rfl (fun _ h => by simp [emptyWorld] at h) hpos).2

theorem exampleCalls_positive : ∀ c ∈ exampleCalls, PositiveAmount c := by
  intro c hc
  simp only [exampleCalls, List.mem_cons, List.mem_singleton, List.not_mem_nil, or_false] at hc
  rcases hc with rfl | rfl | rfl <;> simp [PositiveAmount]

theorem balances_never_negative_witness :
    (∀ c ∈ exampleCalls, PositiveAmount c) ∧
    ∀ a ∈ (run exampleServices emptyWorld exampleCalls).db.accounts, 0 ≤ a.Balance :=
  ⟨exampleCalls_positive, balances_never_negative exampleServices exampleCalls
    exampleCalls_positive⟩

theorem find_map_update (accs : List Account) (a : Account) (id : Int) :
    (accs.map (fun r =>
        if r.ID = a.ID then { r with Balance := a.Balance, UpdatedAt := a.UpdatedAt } else r)).find?
      (fun r => decide (r.ID = id)) =
    (accs.find? (fun r => decide (r.ID = id))).map (fun r =>
        if r.ID = a.ID then { r with Balance := a.Balance, UpdatedAt := a.UpdatedAt } else r) := by
  induction accs with
  | nil => rfl
  | cons x xs ih =>
    simp only [List.map_cons, List.find?_cons]
    have hid : (if x.ID = a.ID then { x with Balance := a.Balance, UpdatedAt := a.UpdatedAt }
        else x).ID = x.ID := by split <;> rfl
    rw [hid]
    by_cases hx : x.ID = id
    · simp [hx]
    · simp [hx, ih]

theorem selectAccount_upsertAccount (l : Ledger) (a : Account) (id : Int) :
    selectAccount (upsertAccount l a) id =
      if id = a.ID then some { ID := a.ID, Balance := a.Balance } else selectAccount l id := by
  unfold upsertAccount selectAccount
  by_cases hany : l.accounts.any (fun r => decide (r.ID = a.ID)) = true
  · simp only [hany, if_true]
    rw [find_map_update]
    by_cases hid : id = a.ID
    · subst hid
      simp only [if_true]
      simp only [List.any_eq_true, decide_eq_true_eq] at hany
      obtain ⟨row, hrow, hrid⟩ := hany
      cases hf : l.accounts.find? (fun r => decide (r.ID = a.ID)) with
      | none =>
        rw [List.find?_eq_none] at hf
        exact absurd hrid (by simpa using hf row hrow)
      | some r =>
        have hr := List.find?_some hf
        simp only [decide_eq_true_eq] at hr
        simp [hr]
    · simp only [if_neg hid]
      cases hf : l.accounts.find? (fun r => decide (r.ID = id)) with
      | none => rfl
      | some r =>
        have hr := List.find?_some hf
        simp only [decide_eq_true_eq] at hr
        have : ¬ r.ID = a.ID := by rw [hr]; exact hid
        simp [this]
  · have hany2 := hany
    simp only [Bool.not_eq_true, List.any_eq_false, decide_eq_true_eq] at hany
    simp only [hany2, if_false, Bool.false_eq_true]
    rw [List.find?_append]
    by_cases hid : id = a.ID
    · subst hid
      have hnone : l.accounts.find? (fun r => decide (r.ID = a.ID)) = none := by
        rw [List.find?_eq_none]
        intro x hx
        simpa using hany x hx
      simp [hnone]
    · have : ¬ a.ID = id := fun h => hid h.symm
      simp only [if_neg hid]
      cases hf : l.accounts.find? (fun r => decide (r.ID = id)) with
      | none => simp [this]
      | some r => simp

theorem selectAccount_insertEvents (l : Ledger) (evs : List Event) (id : Int) :
    selectAccount (insertEvents l evs) id = selectAccount l id := rfl

/-- C2. A `Transfer` that returns no error and whose transaction is committed moves exactly
the amount: the stored source balance drops by `Amount`, the stored destination balance grows
by `Amount`, and the sum of the two balances is unchanged. -/
theorem transfer_conserves_balances (s : TransactionService) (w : World) (ctx : Context)
    (req : CreateTransferRequest) (hw : w.tx = none)
    (hok : (Transfer s w ctx req).2 = none) (hcommit : Committed (Transfer s w ctx req).1) :
    req.SourceAccountID ≠ req.DestinationAccountID ∧
    ∃ sourceBefore destinationBefore : Decimal,
      balanceOf w.db req.SourceAccountID = some sourceBefore ∧
      balanceOf w.db req.DestinationAccountID = some destinationBefore ∧
      balanceOf (Transfer s w ctx req).1.db req.SourceAccountID =
        some (sourceBefore - req.Amount) ∧
      balanceOf (Transfer s w ctx req).1.db req.DestinationAccountID =
        some (destinationBefore + req.Amount) ∧
      (sourceBefore - req.Amount) + (destinationBefore + req.Amount) =
        sourceBefore + destinationBefore := by
  rcases Transfer_cases s w ctx req hw with ⟨_, _, hnc⟩ | ⟨_, _, _, hsd, _, heff⟩
  · exact absurd hcommit (hnc hok)
  · obtain ⟨src, dst, t1, t2, hs, hd, _, hdb⟩ := heff
    rw [selectAccount_insertEvents, selectAccount_insertEvents] at hs hd
    obtain ⟨hsid, _⟩ := selectAccount_some hs
    obtain ⟨hdid, _⟩ := selectAccount_some hd
    refine ⟨hsd, src.Balance, dst.Balance, by simp [balanceOf, hs], by simp [balanceOf, hd],
      ?_, ?_, by ring⟩
    · rw [hdb]
      simp [balanceOf, selectAccount_upsertAccount, hsid, hdid, hsd]
    · rw [hdb]
      simp [balanceOf, selectAccount_upsertAccount, hsid, hdid, hsd]

theorem After.refl (w : World) : After w w 0 := ⟨rfl, rfl, rfl, rfl⟩

theorem After.fault {w v : World} {k : Nat} (h : After w v k) : v.fault = w.faultAt k := by
  unfold World.fault World.faultAt
  rw [h.2.2.1, h.2.2.2]

theorem After.record {w v : World} {k : Nat} (h : After w v k) (c : StoreCall)
    (e : Option Error) : After w (v.record c e) (k + 1) := by
  obtain ⟨h1, h2, h3, h4⟩ := h
  refine ⟨h1, h2, h3, ?_⟩
  simp [h4, Nat.add_assoc]

theorem After.timeNow {w v : World} {k : Nat} (h : After w v k) : After w (timeNow v).2 k := by
  obtain ⟨h1, h2, h3, h4⟩ := h
  exact ⟨by simp [h1], by simp [h2], by simp [h3], by simp [h4]⟩

theorem After.getRequestContext {w : World} (ctx : Context) (thr : Int) :
    After w (getRequestContext w ctx thr).1 0 :=
  ⟨by simp, by simp, by simp, by simp⟩

theorem FindAllByTransactionID_of_fault_none {w : World} (t : String) (hf : w.fault = none) :
    FindAllByTransactionID w t =
      if (w.db.events.filter (fun e => decide (e.TransactionID = t))).isEmpty then
        (w.record (.findAllByTransactionID t) (some (.wrap "event not found" ErrRecordNotFound)),
          .error (.wrap "event not found" ErrRecordNotFound))
      else
        (w.record (.findAllByTransactionID t) none,
          .ok ((w.db.events.filter (fun e => decide (e.TransactionID = t))).map scanEvent)) := by
  unfold FindAllByTransactionID
  simp [hf]

theorem filter_transactionID_isEmpty {l : Ledger} {t : String}
    (h : ∀ ev ∈ l.events, ev.TransactionID ≠ t) :
    (l.events.filter (fun e => decide (e.TransactionID = t))).isEmpty = true := by
  rw [List.isEmpty_iff, List.filter_eq_nil_iff]
  intro ev hev
  simpa using h ev hev

theorem filter_transactionID_not_isEmpty {l : Ledger} {t : String}
    (h : ∃ ev ∈ l.events, ev.TransactionID = t) :
    (l.events.filter (fun e => decide (e.TransactionID = t))).isEmpty = false := by
  obtain ⟨ev, hev, ht⟩ := h
  have hmem : ev ∈ l.events.filter (fun e => decide (e.TransactionID = t)) := by
    simp [List.mem_filter, hev, ht]
  cases hl : l.events.filter (fun e => decide (e.TransactionID = t)) with
  | nil => rw [hl] at hmem; simp at hmem
  | cons x xs => rfl

theorem FindLastByAggregateID_of_fault_none {w : World} (a : Int) (hf : w.fault = none) :
    FindLastByAggregateID w a =
      match lastBySequence (w.db.events.filter (fun e => decide (e.AggregateID = a))) with
      | none =>
        (w.record (.findLastByAggregateID a) (some (.wrap "event not found" ErrRecordNotFound)),
          .error (.wrap "event not found" ErrRecordNotFound))
      | some event => (w.record (.findLastByAggregateID a) none, .ok (scanEvent event)) := by
  unfold FindLastByAggregateID
  simp [hf]

theorem NewAccountEventCollector_of_fault_none {w : World} (a : Int) (t v : String)
    (hf : w.fault = none) :
    ∃ r, NewAccountEventCollector w a t v =
      (w.record (.findLastByAggregateID a) r, .ok (freshCollector w.db a t v)) := by
  unfold NewAccountEventCollector
  rw [FindLastByAggregateID_of_fault_none a hf]
  cases hl : lastBySequence (w.db.events.filter (fun e => decide (e.AggregateID = a))) with
  | none =>
    exact ⟨some (.wrap "event not found" ErrRecordNotFound),
      by simp [errorsIs, ErrRecordNotFound, freshCollector, lastSeq, hl]⟩
  | some ev =>
    exact ⟨none, by simp [freshCollector, lastSeq, hl, scanEvent]⟩

theorem BeginTx_of_fault_none {w : World} (hf : w.fault = none) :
    BeginTx w = (w.begun, .ok ⟨w.txCount⟩) := by
  unfold BeginTx World.begun
  simp [hf]

theorem CreateBulkTx_of_fault_none {w : World} {h : Tx} {l : Ledger} (hw : w.tx = some (h, l))
    (evs : List Event) (hf : w.fault = none) :
    CreateBulkTx w (some h) evs =
      (({ w with tx := some (h, insertEvents l evs) } : World).record
        (.createBulkTx (some h) evs) none, none) := by
  unfold CreateBulkTx
  simp [view_of_tx hw, hf]

theorem UpsertTx_of_fault_none {w : World} {h : Tx} {l : Ledger} (hw : w.tx = some (h, l))
    (account : Account) (hf : w.fault = none) :
    UpsertTx w (some h) account =
      (({ w with tx := some (h, upsertAccount l account) } : World).record
        (.upsertTx (some h) account) none, none) := by
  unfold UpsertTx
  simp [view_of_tx hw, hf]

theorem Commit_of_fault_none {w : World} {h : Tx} {l : Ledger} (hw : w.tx = some (h, l))
    (hf : w.fault = none) :
    Commit w h = (({ w with db := l, tx := none } : World).record (.commit h) none, none) := by
  unfold Commit
  simp [view_of_tx hw, hf]

theorem CreateAccount_reads {s : AccountService} {w w1 : World} {ctx : Context}
    {req : CreateAccountRequest} {rc : RequestContext}
    (h1 : getRequestContext w ctx s.requestTimeThreshold = (w1, rc, none))
    (hacc : selectAccount w.db req.AccountID = none)
    (hunused : ∀ ev ∈ w.db.events, ev.TransactionID ≠ rc.TransactionID)
    (hclean : ∀ k, k < 3 → w.faultAt k = none) :
    ∃ (v : World) (account : Account), After w v 3 ∧
      account.ID = req.AccountID ∧ account.Balance = req.InitialBalance ∧
      CreateAccount s w ctx req =
        match WithTransaction v (createAccountTxFunc req
          (freshCollector w.db req.AccountID rc.TransactionID s.eventVersion) account) with
        | (w, some err) => (w, some (.wrap "failed to create account" err))
        | (w, none) => (w, none) := by
  have A1 : After w w1 0 := by
    have := After.getRequestContext (w := w) ctx s.requestTimeThreshold
    rwa [h1] at this
  unfold CreateAccount
  rw [h1]
  dsimp only
  rw [FindByID_of_fault_none _ (A1.fault.trans (hclean 0 (by omega))), A1.1, hacc]
  dsimp only
  have A2 := A1.record (.findByID req.AccountID)
    (some (.wrap "account not found" ErrRecordNotFound))
  rw [FindAllByTransactionID_of_fault_none _ (A2.fault.trans (hclean 1 (by omega))), A2.1,
    filter_transactionID_isEmpty hunused]
  simp only [errorsIs, ErrRecordNotFound, decide_True, Bool.not_true, Bool.false_eq_true,
    if_false, if_true]
  have A3 := A2.record (.findAllByTransactionID rc.TransactionID)
    (some (.wrap "event not found" ErrRecordNotFound))
  obtain ⟨r4, h4⟩ := NewAccountEventCollector_of_fault_none req.AccountID rc.TransactionID
    s.eventVersion (A3.fault.trans (hclean 2 (by omega)))
  simp only [ErrRecordNotFound] at h4 A3
  rw [h4]
  dsimp only
  have A4 := ((A3.record (.findLastByAggregateID req.AccountID) r4).timeNow).timeNow
  rw [A3.1]
  exact ⟨_, _, A4, rfl, rfl, rfl⟩

theorem faultAt_of_After {w v : World} {k : Nat} (h : After w v k) (j : Nat) :
    v.faultAt j = w.faultAt (k + j) := by
  unfold World.faultAt
  rw [h.2.2.1, h.2.2.2, Nat.add_assoc]

theorem WithTransaction_of_fault_none {w : World} (f : World → Tx → World × Option Error)
    (hf : w.faultAt 0 = none) :
    WithTransaction w f =
      match f w.begun ⟨w.txCount⟩ with
      | (v, some err) => ((Rollback v ⟨w.txCount⟩).1, some err)
      | (v, none) => ((Commit v ⟨w.txCount⟩).1, none) := by
  unfold WithTransaction
  rw [BeginTx_of_fault_none (by simpa [World.fault, World.faultAt] using hf)]

/-- With a healthy driver the creation callback writes the events, then the row, and the
transaction commits. -/
theorem createAccountTx_healthy {w : World} (req : CreateAccountRequest)
    (c : AccountEventCollector) (account : Account)
    (hclean : ∀ k, k < 4 → w.faultAt k = none) :
    ∃ v, WithTransaction w (createAccountTxFunc req c account) = (v, none) ∧ Committed v := by
  rw [WithTransaction_of_fault_none _ (hclean 0 (by omega))]
  unfold createAccountTxFunc AccountEventCollector.Place
  dsimp only
  rw [CreateBulkTx_of_fault_none (w := w.begun) (l := w.db) rfl _
    (by simpa [World.fault, World.faultAt, World.begun] using hclean 1 (by omega))]
  dsimp only
  rw [UpsertTx_of_fault_none (l := insertEvents w.db _) rfl _
    (by simpa [World.fault, World.faultAt, World.begun, Nat.add_assoc] using
      hclean 2 (by omega))]
  dsimp only
  rw [Commit_of_fault_none (l := upsertAccount (insertEvents w.db _) account) rfl
    (by simpa [World.fault, World.faultAt, World.begun, Nat.add_assoc] using
      hclean 3 (by omega))]
  exact ⟨_, rfl, ⟨w.txCount⟩, by simp⟩

/-- A driver failure while the events are flushed makes the transaction return an error. -/
theorem createAccountTx_flush_fails {w : World} (req : CreateAccountRequest)
    (c : AccountEventCollector) (account : Account)
    (h0 : w.faultAt 0 = none) {stage : Stage} {e : DriverError}
    (h1 : w.faultAt 1 = some ⟨stage, e⟩) (hstage : stage ≠ .scan ∧ ∀ k, stage ≠ .next k) :
    (WithTransaction w (createAccountTxFunc req c account)).2 ≠ none := by
  rw [WithTransaction_of_fault_none _ h0]
  have hf : w.begun.fault = some ⟨stage, e⟩ := by
    simpa [World.fault, World.faultAt, World.begun] using h1
  unfold createAccountTxFunc AccountEventCollector.Place CreateBulkTx
  have hview : w.begun.view ⟨w.txCount⟩ = some w.db := view_of_tx rfl
  simp only [hview, hf]
  obtain ⟨hscan, hnext⟩ := hstage
  cases stage with
  | next k => exact absurd rfl (hnext k)
  | scan => exact absurd rfl hscan
  | prepare => simp [World.fail]
  | exec =>
    simp [World.fail, AccountEventCollector.OnDepositReceivedEvent,
      AccountEventCollector.apply]
  | flush => simp [World.fail]

/-- A driver failure while the account row is written makes the transaction return an
error. -/
theorem createAccountTx_upsert_fails {w : World} (req : CreateAccountRequest)
    (c : AccountEventCollector) (account : Account)
    (h0 : w.faultAt 0 = none) (h1 : w.faultAt 1 = none) {stage : Stage} {e : DriverError}
    (h2 : w.faultAt 2 = some ⟨stage, e⟩) (hstage : stage = .prepare ∨ stage = .exec) :
    (WithTransaction w (createAccountTxFunc req c account)).2 ≠ none := by
  rw [WithTransaction_of_fault_none _ h0]
  unfold createAccountTxFunc AccountEventCollector.Place
  dsimp only
  rw [CreateBulkTx_of_fault_none (w := w.begun) (l := w.db) rfl _
    (by simpa [World.fault, World.faultAt, World.begun] using h1)]
  dsimp only
  unfold UpsertTx
  have hview : ∀ evs : List Event,
      World.view (({ w.begun with tx := some (⟨w.txCount⟩, insertEvents w.db evs) } :
        World).record (.createBulkTx (some ⟨w.txCount⟩) evs) none) ⟨w.txCount⟩ =
        some (insertEvents w.db evs) := fun evs => view_of_tx rfl
  have hf : ∀ evs : List Event,
      World.fault (({ w.begun with tx := some (⟨w.txCount⟩, insertEvents w.db evs) } :
        World).record (.createBulkTx (some ⟨w.txCount⟩) evs) none) = some ⟨stage, e⟩ := by
    intro evs
    simpa [World.fault, World.faultAt, World.begun, Nat.add_assoc] using h2
  simp only [hview, hf]
  rcases hstage with rfl | rfl <;> simp [World.fail]

theorem lastSeq_of_no_event {l : Ledger} {a : Int} (h : ∀ ev ∈ l.events, ev.AggregateID ≠ a) :
    lastSeq l a = 0 := by
  have hnil : l.events.filter (fun e => decide (e.AggregateID = a)) = [] := by
    rw [List.filter_eq_nil_iff]
    intro ev hev
    simpa using h ev hev
  simp [lastSeq, hnil, lastBySequence]

theorem getRequestContext_of_fresh {w : World} {ctx : Context} {thr : Int}
    (h : (getRequestContext w ctx thr).2.2 = none) :
    getRequestContext w ctx thr =
      ((getRequestContext w ctx thr).1, (RequestFromContext ctx).1, none) := by
  rcases h1 : getRequestContext w ctx thr with ⟨w1, rc, e⟩
  rw [h1] at h
  dsimp only at h
  subst h
  rw [getRequestContext_ok h1]

/-- A `CreateAccount` call that meets no obstacle returns no error and commits. -/
theorem CreateAccount_healthy {s : AccountService} {w : World} {ctx : Context}
    {req : CreateAccountRequest}
    (hfresh : (getRequestContext w ctx s.requestTimeThreshold).2.2 = none)
    (hacc : selectAccount w.db req.AccountID = none)
    (hunused : ∀ ev ∈ w.db.events,
      ev.TransactionID ≠ (RequestFromContext ctx).1.TransactionID)
    (hclean : ∀ k, k < 7 → w.faultAt k = none) :
    (CreateAccount s w ctx req).2 = none ∧ Committed (CreateAccount s w ctx req).1 := by
  obtain ⟨v, account, hv, _, _, heq⟩ := CreateAccount_reads (getRequestContext_of_fresh hfresh)
    hacc hunused (fun k hk => hclean k (by omega))
  obtain ⟨u, hu, hc⟩ := createAccountTx_healthy (w := v) req
    (freshCollector w.db req.AccountID (RequestFromContext ctx).1.TransactionID s.eventVersion)
    account (fun k hk => by rw [faultAt_of_After hv]; exact hclean _ (by omega))
  rw [heq, hu]
  exact ⟨rfl, hc⟩

theorem lastBySequence_fold (xs : List Event) : ∀ best : Option Event,
    (best = none ∧ xs = [] ∧
      xs.foldl (fun best e =>
        match best with
        | none => some e
        | some b => if b.SequenceNumber ≤ e.SequenceNumber then some e else some b) best = none) ∨
    (∃ b, xs.foldl (fun best e =>
        match best with
        | none => some e
        | some b => if b.SequenceNumber ≤ e.SequenceNumber then some e else some b) best = some b ∧
      (b ∈ xs ∨ best = some b) ∧ (∀ x ∈ xs, x.SequenceNumber ≤ b.SequenceNumber) ∧
      ∀ c, best = some c → c.SequenceNumber ≤ b.SequenceNumber) := by
  induction xs with
  | nil =>
    intro best
    cases best with
    | none => exact Or.inl ⟨rfl, rfl, rfl⟩
    | some c =>
      exact Or.inr ⟨c, rfl, Or.inr rfl, by simp, fun d hd => by
        simp only [Option.some.injEq] at hd; rw [hd]⟩
  | cons e es ih =>
    intro best
    right
    simp only [List.foldl_cons]
    cases best with
    | none =>
      rcases ih (some e) with ⟨h, _⟩ | ⟨b, hb, hmem, hmax, hbest⟩
      · simp at h
      · refine ⟨b, hb, Or.inl ?_, ?_, by simp⟩
        · rcases hmem with h | h
          · exact List.mem_cons_of_mem _ h
          · simp only [Option.some.injEq] at h; rw [h]; exact List.mem_cons_self _ _
        · intro x hx
          simp only [List.mem_cons] at hx
          rcases hx with rfl | hx
          · exact hbest x rfl
          · exact hmax x hx
    | some c =>
      by_cases hle : c.SequenceNumber ≤ e.SequenceNumber
      · simp only [hle, if_true]
        rcases ih (some e) with ⟨h, _⟩ | ⟨b, hb, hmem, hmax, hbest⟩
        · simp at h
        · refine ⟨b, hb, Or.inl ?_, ?_, ?_⟩
          · rcases hmem with h | h
            · exact List.mem_cons_of_mem _ h
            · simp only [Option.some.injEq] at h; rw [h]; exact List.mem_cons_self _ _
          · intro x hx
            simp only [List.mem_cons] at hx
            rcases hx with rfl | hx
            · exact hbest x rfl
            · exact hmax x hx
          · intro d hd
            simp only [Option.some.injEq] at hd
            rw [← hd]
            exact le_trans hle (hbest e rfl)
      · simp only [hle, if_false]
        rcases ih (some c) with ⟨h, _⟩ | ⟨b, hb, hmem, hmax, hbest⟩
        · simp at h
        · refine ⟨b, hb, ?_, ?_, ?_⟩
          · rcases hmem with h | h
            · exact Or.inl (List.mem_cons_of_mem _ h)
            · exact Or.inr h
          · intro x hx
            simp only [List.mem_cons] at hx
            rcases hx with rfl | hx
            · have := hbest c rfl
              omega
            · exact hmax x hx
          · intro d hd
            simp only [Option.some.injEq] at hd
            rw [← hd]
            exact hbest c rfl

theorem lastBySequence_max (xs : List Event) :
    (xs = [] ∧ lastBySequence xs = none) ∨
    (∃ b, lastBySequence xs = some b ∧ b ∈ xs ∧ ∀ x ∈ xs, x.SequenceNumber ≤ b.SequenceNumber) := by
  unfold lastBySequence
  rcases lastBySequence_fold xs none with ⟨_, h1, h2⟩ | ⟨b, hb, hmem, hmax, _⟩
  · exact Or.inl ⟨h1, h2⟩
  · refine Or.inr ⟨b, hb, ?_, hmax⟩
    rcases hmem with h | h
    · exact h
    · simp at h

/-- The lookup `ORDER BY sequence_number DESC LIMIT 1` finds the last sequence number. -/
theorem lastSeq_of_isLastSeq {l : Ledger} {a m : Int} (h : IsLastSeq l a m) :
    lastSeq l a = m := by
  obtain ⟨hub, hatt⟩ := h
  unfold lastSeq
  rcases lastBySequence_max (l.events.filter (fun e => decide (e.AggregateID = a))) with
    ⟨hnil, hnone⟩ | ⟨b, hb, hmem, hmax⟩
  · rw [hnone]
    rcases hatt with ⟨e, he, hea, _⟩ | ⟨hm, _⟩
    · have : e ∈ l.events.filter (fun e => decide (e.AggregateID = a)) := by
        simp [List.mem_filter, he, hea]
      rw [hnil] at this
      simp at this
    · exact hm.symm
  · rw [hb]
    dsimp only
    simp only [List.mem_filter, decide_eq_true_eq] at hmem
    have h1 := hub b hmem.1 hmem.2
    rcases hatt with ⟨e, he, hea, hem⟩ | ⟨_, hno⟩
    · have h2 := hmax e (by simp [List.mem_filter, he, hea])
      omega
    · exact absurd hmem.2 (hno b hmem.1)

/-- C9. A `CreateAccount` call with a fresh timestamp, an account ID with no row, an unused
transaction ID and a healthy store returns no error, appends exactly the `init_balance` and
`deposit_received` ("SYSTEM") events of the aggregate, numbered `last + 1` and `last + 2`,
`last` being the greatest sequence number among the aggregate's events (`1` and `2` when the
aggregate has no event), both carrying the initial balance, the transaction ID and the
aggregate type "account", and stores the account row with the initial balance. The range
hypothesis keeps the `int64` counter from wrapping. -/
theorem create_account_success (s : AccountService) (w : World) (ctx : Context)
    (req : CreateAccountRequest) (last : Int) (hw : w.tx = none)
    (hfresh : (getRequestContext w ctx s.requestTimeThreshold).2.2 = none)
    (hacc : selectAccount w.db req.AccountID = none)
    (hunused : ∀ ev ∈ w.db.events,
      ev.TransactionID ≠ (RequestFromContext ctx).1.TransactionID)
    (hclean : ∀ k, k < 7 → w.faultAt k = none)
    (hlast : IsLastSeq w.db req.AccountID last)
    (hrange : int64Min ≤ last + 1 ∧ last + 2 ≤ int64Max) :
    (CreateAccount s w ctx req).2 = none ∧
    (CreateAccount s w ctx req).1.db.events = w.db.events ++
      [{ TransactionID := (RequestFromContext ctx).1.TransactionID,
         SequenceNumber := last + 1,
         AggregateID := req.AccountID, AggregateType := "account",
         EventType := "init_balance",
         EventData := [("initial_balance", .decimal req.InitialBalance)],
         Version := s.eventVersion },
       { TransactionID := (RequestFromContext ctx).1.TransactionID,
         SequenceNumber := last + 2,
         AggregateID := req.AccountID, AggregateType := "account",
         EventType := "deposit_received",
         EventData := [("source", .string "SYSTEM"), ("amount", .decimal req.InitialBalance)],
         Version := s.eventVersion }] ∧
    selectAccount (CreateAccount s w ctx req).1.db req.AccountID =
      some { ID := req.AccountID, Balance := req.InitialBalance } ∧
    ((∀ ev ∈ w.db.events, ev.AggregateID ≠ req.AccountID) → last + 1 = 1 ∧ last + 2 = 2) := by
  obtain ⟨hok, hcommit⟩ := CreateAccount_healthy hfresh hacc hunused hclean
  have hseq := lastSeq_of_isLastSeq hlast
  refine ⟨hok, ?_, ?_, ?_⟩
  · rcases CreateAccount_cases s w ctx req hw with ⟨_, _, hnc⟩ | ⟨_, _, _, _, _, t1, t2, hdb⟩
    · exact absurd hcommit (hnc hok)
    · rw [hdb, upsertAccount_events, creationEvents_eq, hseq]
      simp only [int64Min, int64Max] at hrange
      have hw1 : wrapInt64 (last + 1) = last + 1 :=
        wrapInt64_of_range (by omega) (by omega)
      have hw2 : wrapInt64 (last + 1 + 1) = last + 2 := by
        rw [wrapInt64_of_range (by omega) (by omega)]; ring
      rw [hw1, hw2]
      rfl
  · rcases CreateAccount_cases s w ctx req hw with ⟨_, _, hnc⟩ | ⟨_, _, _, _, _, t1, t2, hdb⟩
    · exact absurd hcommit (hnc hok)
    · rw [hdb, selectAccount_upsertAccount]
      simp
  · intro hno
    rcases hlast.2 with ⟨e, he, hea, _⟩ | ⟨hm, _⟩
    · exact absurd hea (hno e he)
    · rw [hm]; exact ⟨rfl, rfl⟩

/-- C6. A `CreateAccount` call that returns an error leaves the event log and the account
store as they were; and the call does return an error when the driver fails while the event
batch is flushed (at any stage the bulk append has: preparing, executing or flushing), or when
the batch is flushed and the driver then fails while the account row is written. -/
theorem create_account_atomic (s : AccountService) (w : World) (ctx : Context)
    (req : CreateAccountRequest) (hw : w.tx = none) :
    ((CreateAccount s w ctx req).2 ≠ none → (CreateAccount s w ctx req).1.db = w.db) ∧
    (∀ (stage : Stage) (e : DriverError),
      (getRequestContext w ctx s.requestTimeThreshold).2.2 = none →
      selectAccount w.db req.AccountID = none →
      (∀ ev ∈ w.db.events, ev.TransactionID ≠ (RequestFromContext ctx).1.TransactionID) →
      (∀ k, k < 4 → w.faultAt k = none) →
      ((w.faultAt 4 = some ⟨stage, e⟩ ∧ stage ≠ .scan ∧ ∀ k, stage ≠ .next k) ∨
        (w.faultAt 4 = none ∧ w.faultAt 5 = some ⟨stage, e⟩ ∧
          (stage = .prepare ∨ stage = .exec))) →
      (CreateAccount s w ctx req).2 ≠ none ∧ (CreateAccount s w ctx req).1.db = w.db) := by
  have hgen : (CreateAccount s w ctx req).2 ≠ none → (CreateAccount s w ctx req).1.db = w.db := by
    intro herr
    rcases CreateAccount_cases s w ctx req hw with ⟨_, hdb, _⟩ | ⟨_, hnone, _⟩
    · exact hdb
    · exact absurd hnone herr
  refine ⟨hgen, ?_⟩
  intro stage e hfresh hacc hunused hclean hfail
  have herr : (CreateAccount s w ctx req).2 ≠ none := by
    obtain ⟨v, account, hv, _, _, heq⟩ := CreateAccount_reads
      (getRequestContext_of_fresh hfresh) hacc hunused (fun k hk => hclean k (by omega))
    rw [heq]
    have hne : (WithTransaction v (createAccountTxFunc req
        (freshCollector w.db req.AccountID (RequestFromContext ctx).1.TransactionID
          s.eventVersion) account)).2 ≠ none := by
      rcases hfail with ⟨h4, hst⟩ | ⟨h4, h5, hst⟩
      · exact createAccountTx_flush_fails req _ account
          (by rw [faultAt_of_After hv]; exact hclean 3 (by omega))
          (by rw [faultAt_of_After hv]; exact h4) hst
      · exact createAccountTx_upsert_fails req _ account
          (by rw [faultAt_of_After hv]; exact hclean 3 (by omega))
          (by rw [faultAt_of_After hv]; exact h4)
          (by rw [faultAt_of_After hv]; exact h5) hst
    split
    · simp
    · rename_i h
      rw [h] at hne
      exact absurd rfl hne
  exact ⟨herr, hgen herr⟩

theorem Transfer_reads {s : TransactionService} {w w1 : World} {ctx : Context}
    {req : CreateTransferRequest} {rc : RequestContext}
    (h1 : getRequestContext w ctx s.requestTimeThreshold = (w1, rc, none))
    (hunused : ∀ ev ∈ w.db.events, ev.TransactionID ≠ rc.TransactionID)
    (hsd : req.SourceAccountID ≠ req.DestinationAccountID)
    (hclean : ∀ k, k < 3 → w.faultAt k = none) :
    ∃ v : World, After w v 3 ∧
      Transfer s w ctx req =
        match WithTransaction v (transferTxFunc req
          (freshCollector w.db req.SourceAccountID rc.TransactionID s.eventVersion)
          (freshCollector w.db req.DestinationAccountID rc.TransactionID s.eventVersion)) with
        | (w, some err) => (w, some (.wrap "failed to process transfer" err))
        | (w, none) => (w, none) := by
  have A1 : After w w1 0 := by
    have := After.getRequestContext (w := w) ctx s.requestTimeThreshold
    rwa [h1] at this
  unfold Transfer
  rw [h1]
  dsimp only
  rw [FindAllByTransactionID_of_fault_none _ (A1.fault.trans (hclean 0 (by omega))), A1.1,
    filter_transactionID_isEmpty hunused]
  simp only [errorsIs, ErrRecordNotFound, decide_True, Bool.not_true, Bool.false_eq_true,
    if_false, if_true, if_neg hsd]
  have A2 := A1.record (.findAllByTransactionID rc.TransactionID)
    (some (.wrap "event not found" ErrRecordNotFound))
  obtain ⟨r3, h3⟩ := NewAccountEventCollector_of_fault_none req.SourceAccountID
    rc.TransactionID s.eventVersion (A2.fault.trans (hclean 1 (by omega)))
  simp only [ErrRecordNotFound] at h3 A2
  rw [h3]
  dsimp only
  have A3 := A2.record (.findLastByAggregateID req.SourceAccountID) r3
  obtain ⟨r4, h4⟩ := NewAccountEventCollector_of_fault_none req.DestinationAccountID
    rc.TransactionID s.eventVersion (A3.fault.trans (hclean 2 (by omega)))
  rw [h4]
  dsimp only
  have A4 := A3.record (.findLastByAggregateID req.DestinationAccountID) r4
  simp only [record_db, A1.1]
  exact ⟨_, A4, rfl⟩

theorem InTx.faultIs {w v : World} {k : Nat} {h : Tx} {l : Ledger} (hv : InTx w v k h l) :
    v.fault = w.faultAt k := by
  unfold World.fault World.faultAt
  rw [hv.2.1, hv.2.2]

theorem InTx.recorded {w v : World} {k : Nat} {h : Tx} {l : Ledger} (hv : InTx w v k h l)
    (c : StoreCall) (e : Option Error) : InTx w (v.record c e) (k + 1) h l := by
  obtain ⟨h1, h2, h3⟩ := hv
  exact ⟨h1, h2, by simp [h3, Nat.add_assoc]⟩

theorem InTx.afterNow {w v : World} {k : Nat} {h : Tx} {l : Ledger} (hv : InTx w v k h l) :
    InTx w (timeNow v).2 k h l := by
  obtain ⟨h1, h2, h3⟩ := hv
  exact ⟨by simp [h1], by simp [h2], by simp [h3]⟩

theorem InTx.write {w v : World} {k : Nat} {h : Tx} {l : Ledger} (hv : InTx w v k h l)
    (m : Ledger) (c : StoreCall) (e : Option Error) :
    InTx w (({ v with tx := some (h, m) } : World).record c e) (k + 1) h m := by
  obtain ⟨_, h2, h3⟩ := hv
  exact ⟨rfl, h2, by simp [h3, Nat.add_assoc]⟩

theorem InTx.begun (w : World) : InTx w w.begun 1 ⟨w.txCount⟩ w.db :=
  ⟨rfl, rfl, by simp [World.begun]⟩

theorem processTransfer_insufficient {w v : World} {k : Nat} {h : Tx} {l : Ledger}
    (hv : InTx w v k h l) (req : CreateTransferRequest) {src dst : Account}
    (hs : selectAccount l req.SourceAccountID = some src)
    (hd : selectAccount l req.DestinationAccountID = some dst)
    (hf0 : w.faultAt k = none) (hf1 : w.faultAt (k + 1) = none)
    (hbal : src.Balance < req.Amount) :
    (processTransfer v h req).2 = some (.wrap "insufficient balance" ErrInsufficientBalance) := by
  unfold processTransfer
  rw [FindByIDForUpdateTx_of_fault_none hv.1 _ (hv.faultIs.trans hf0), hs]
  dsimp only
  have hv1 := hv.recorded (.findByIDForUpdateTx h req.SourceAccountID) none
  rw [FindByIDForUpdateTx_of_fault_none hv1.1 _ (hv1.faultIs.trans hf1), hd]
  simp [hbal]

theorem processTransfer_sufficient {w v : World} {k : Nat} {h : Tx} {l : Ledger}
    (hv : InTx w v k h l) (req : CreateTransferRequest) {src dst : Account}
    (hs : selectAccount l req.SourceAccountID = some src)
    (hd : selectAccount l req.DestinationAccountID = some dst)
    (hclean : ∀ j, j < 4 → w.faultAt (k + j) = none)
    (hbal : ¬ src.Balance < req.Amount) :
    ∃ u m, processTransfer v h req = (u, none) ∧ InTx w u (k + 4) h m := by
  unfold processTransfer
  rw [FindByIDForUpdateTx_of_fault_none hv.1 _ (hv.faultIs.trans (hclean 0 (by omega))), hs]
  dsimp only
  have hv1 := hv.recorded (.findByIDForUpdateTx h req.SourceAccountID) none
  rw [FindByIDForUpdateTx_of_fault_none hv1.1 _ (hv1.faultIs.trans (hclean 1 (by omega))), hd]
  simp only [hbal, if_false]
  have hv2 := ((hv1.recorded (.findByIDForUpdateTx h req.DestinationAccountID) none).afterNow).afterNow
  rw [UpsertTx_of_fault_none hv2.1 _ (hv2.faultIs.trans (hclean 2 (by omega)))]
  dsimp only
  have hv3 := hv2.write (upsertAccount l { src with
      Balance := src.Balance - req.Amount
      UpdatedAt := (timeNow ((v.record (.findByIDForUpdateTx h req.SourceAccountID) none).record
        (.findByIDForUpdateTx h req.DestinationAccountID) none)).1 })
    (.upsertTx (some h) { src with
      Balance := src.Balance - req.Amount
      UpdatedAt := (timeNow ((v.record (.findByIDForUpdateTx h req.SourceAccountID) none).record
        (.findByIDForUpdateTx h req.DestinationAccountID) none)).1 }) none
  rw [UpsertTx_of_fault_none hv3.1 _ (hv3.faultIs.trans (hclean 3 (by omega)))]
  exact ⟨_, _, rfl, hv3.write _ _ _⟩

theorem transferTx_places {w : World} (req : CreateTransferRequest)
    (c1 c2 : AccountEventCollector) (hclean : ∀ k, k < 3 → w.faultAt k = none) :
    ∃ v, InTx w v 3 ⟨w.txCount⟩
        (insertEvents (insertEvents w.db
          (c1.OnSubBalanceEvent req.SourceAccountID req.Amount).events)
          (c2.OnAddBalanceEvent req.DestinationAccountID req.Amount).events) ∧
      WithTransaction w (transferTxFunc req c1 c2) =
        match (match processTransfer v ⟨w.txCount⟩ req with
          | (u, some err) => (u, some (Error.wrap "failed to process transfer" err))
          | (u, none) => (u, none)) with
        | (u, some err) => ((Rollback u ⟨w.txCount⟩).1, some err)
        | (u, none) => ((Commit u ⟨w.txCount⟩).1, none) := by
  rw [WithTransaction_of_fault_none _ (hclean 0 (by omega))]
  unfold transferTxFunc AccountEventCollector.Place
  dsimp only
  have hv0 := InTx.begun w
  rw [CreateBulkTx_of_fault_none hv0.1 _ (hv0.faultIs.trans (hclean 1 (by omega)))]
  dsimp only
  have hv1 := hv0.write
    (insertEvents w.db (c1.OnSubBalanceEvent req.SourceAccountID req.Amount).events)
    (.createBulkTx (some ⟨w.txCount⟩)
      (c1.OnSubBalanceEvent req.SourceAccountID req.Amount).events) none
  rw [CreateBulkTx_of_fault_none hv1.1 _ (hv1.faultIs.trans (hclean 2 (by omega)))]
  dsimp only
  exact ⟨_, hv1.write _ _ _, rfl⟩

theorem Transfer_insufficient {s : TransactionService} {w : World} {ctx : Context}
    {req : CreateTransferRequest} {src dst : Account}
    (hfresh : (getRequestContext w ctx s.requestTimeThreshold).2.2 = none)
    (hunused : ∀ ev ∈ w.db.events,
      ev.TransactionID ≠ (RequestFromContext ctx).1.TransactionID)
    (hsd : req.SourceAccountID ≠ req.DestinationAccountID)
    (hs : selectAccount w.db req.SourceAccountID = some src)
    (hd : selectAccount w.db req.DestinationAccountID = some dst)
    (hclean : ∀ k, k < 8 → w.faultAt k = none)
    (hbal : src.Balance < req.Amount) :
    (Transfer s w ctx req).2 = some (.wrap "failed to process transfer"
      (.wrap "failed to process transfer"
        (.wrap "insufficient balance" ErrInsufficientBalance))) := by
  obtain ⟨v, hv, heq⟩ := Transfer_reads (getRequestContext_of_fresh hfresh) hunused hsd
    (fun k hk => hclean k (by omega))
  obtain ⟨u, hu, htx⟩ := transferTx_places (w := v) req
    (freshCollector w.db req.SourceAccountID (RequestFromContext ctx).1.TransactionID
      s.eventVersion)
    (freshCollector w.db req.DestinationAccountID (RequestFromContext ctx).1.TransactionID
      s.eventVersion)
    (fun k hk => by rw [faultAt_of_After hv]; exact hclean _ (by omega))
  have hp := processTransfer_insufficient hu req
    (by rw [selectAccount_insertEvents, selectAccount_insertEvents, hv.1]; exact hs)
    (by rw [selectAccount_insertEvents, selectAccount_insertEvents, hv.1]; exact hd)
    (by rw [faultAt_of_After hv]; exact hclean _ (by omega))
    (by rw [faultAt_of_After hv]; exact hclean _ (by omega)) hbal
  rw [heq, htx]
  rcases hpt : processTransfer u ⟨v.txCount⟩ req with ⟨x, e⟩
  rw [hpt] at hp
  dsimp only at hp
  subst hp
  rfl

theorem Transfer_sufficient {s : TransactionService} {w : World} {ctx : Context}
    {req : CreateTransferRequest} {src dst : Account}
    (hfresh : (getRequestContext w ctx s.requestTimeThreshold).2.2 = none)
    (hunused : ∀ ev ∈ w.db.events,
      ev.TransactionID ≠ (RequestFromContext ctx).1.TransactionID)
    (hsd : req.SourceAccountID ≠ req.DestinationAccountID)
    (hs : selectAccount w.db req.SourceAccountID = some src)
    (hd : selectAccount w.db req.DestinationAccountID = some dst)
    (hclean : ∀ k, k < 11 → w.faultAt k = none)
    (hbal : ¬ src.Balance < req.Amount) :
    (Transfer s w ctx req).2 = none ∧ Committed (Transfer s w ctx req).1 := by
  obtain ⟨v, hv, heq⟩ := Transfer_reads (getRequestContext_of_fresh hfresh) hunused hsd
    (fun k hk => hclean k (by omega))
  obtain ⟨u, hu, htx⟩ := transferTx_places (w := v) req
    (freshCollector w.db req.SourceAccountID (RequestFromContext ctx).1.TransactionID
      s.eventVersion)
    (freshCollector w.db req.DestinationAccountID (RequestFromContext ctx).1.TransactionID
      s.eventVersion)
    (fun k hk => by rw [faultAt_of_After hv]; exact hclean _ (by omega))
  obtain ⟨x, m, hp, hx⟩ := processTransfer_sufficient hu req
    (by rw [selectAccount_insertEvents, selectAccount_insertEvents, hv.1]; exact hs)
    (by rw [selectAccount_insertEvents, selectAccount_insertEvents, hv.1]; exact hd)
    (fun j hj => by rw [faultAt_of_After hv]; exact hclean _ (by omega)) hbal
  rw [heq, htx, hp]
  dsimp only
  rw [Commit_of_fault_none hx.1
    (hx.faultIs.trans (by rw [faultAt_of_After hv]; exact hclean _ (by omega)))]
  exact ⟨rfl, ⟨v.txCount⟩, by simp⟩

/-- C3. For a `Transfer` that passes the freshness, idempotency and same-account checks, whose
two accounts exist and whose store calls meet no driver failure: it fails with
`ErrInsufficientBalance` exactly when the source balance is strictly less than the amount. An
amount equal to the balance succeeds and leaves the source balance at zero; an amount of the
balance plus 0.01 fails with `ErrInsufficientBalance`. -/
theorem transfer_insufficient_balance_iff (s : TransactionService) (w : World) (ctx : Context)
    (req : CreateTransferRequest) (src dst : Account) (hw : w.tx = none)
    (hfresh : (getRequestContext w ctx s.requestTimeThreshold).2.2 = none)
    (hunused : ∀ ev ∈ w.db.events,
      ev.TransactionID ≠ (RequestFromContext ctx).1.TransactionID)
    (hsd : req.SourceAccountID ≠ req.DestinationAccountID)
    (hs : selectAccount w.db req.SourceAccountID = some src)
    (hd : selectAccount w.db req.DestinationAccountID = some dst)
    (hclean : ∀ k, k < 11 → w.faultAt k = none) :
    ((∃ err, (Transfer s w ctx req).2 = some err ∧
        errorsIs err ErrInsufficientBalance = true) ↔ src.Balance < req.Amount) ∧
    (req.Amount = src.Balance →
      (Transfer s w ctx req).2 = none ∧
      balanceOf (Transfer s w ctx req).1.db req.SourceAccountID = some 0) ∧
    (req.Amount = src.Balance + 1 / 100 →
      ∃ err, (Transfer s w ctx req).2 = some err ∧
        errorsIs err ErrInsufficientBalance = true) := by
  have hfail : src.Balance < req.Amount →
      ∃ err, (Transfer s w ctx req).2 = some err ∧
        errorsIs err ErrInsufficientBalance = true := fun hbal =>
    ⟨_, Transfer_insufficient hfresh hunused hsd hs hd (fun k hk => hclean k (by omega)) hbal,
      by simp [errorsIs, ErrInsufficientBalance]⟩
  refine ⟨⟨?_, hfail⟩, ?_, ?_⟩
  · rintro ⟨err, herr, _⟩
    by_contra hbal
    have := (Transfer_sufficient hfresh hunused hsd hs hd hclean hbal).1
    rw [this] at herr
    simp at herr
  · intro hamt
    have hbal : ¬ src.Balance < req.Amount := by rw [hamt]; exact lt_irrefl _
    obtain ⟨hok, hcommit⟩ := Transfer_sufficient hfresh hunused hsd hs hd hclean hbal
    refine ⟨hok, ?_⟩
    rcases Transfer_cases s w ctx req hw with ⟨_, _, hnc⟩ | ⟨_, _, _, _, _, heff⟩
    · exact absurd hcommit (hnc hok)
    · obtain ⟨src1, dst1, t1, t2, hs1, hd1, _, hdb⟩ := heff
      rw [selectAccount_insertEvents, selectAccount_insertEvents] at hs1 hd1
      rw [hs] at hs1
      rw [hd] at hd1
      simp only [Option.some.injEq] at hs1 hd1
      subst hs1 hd1
      obtain ⟨hsid, _⟩ := selectAccount_some hs
      obtain ⟨hdid, _⟩ := selectAccount_some hd
      rw [hdb]
      simp [balanceOf, selectAccount_upsertAccount, hsid, hdid, hsd, hamt]
  · intro hamt
    exact hfail (by rw [hamt]; linarith)

theorem exec_preserves (svc : Services) (w : World) (c : Call) (hw : w.tx = none) :
    (exec svc w c).1.tx = none ∧
    (∀ ev ∈ w.db.events, ev ∈ (exec svc w c).1.db.events) ∧
    (∀ id, selectAccount w.db id ≠ none → selectAccount (exec svc w c).1.db id ≠ none) := by
  rcases exec_cases svc w c hw with ⟨ctx, req, _, hout⟩ | ⟨ctx, req, _, hout⟩
  · rcases hout with ⟨htx, hdb, _⟩ | ⟨htx, _, _, _, _, t1, t2, hdb⟩
    · rw [hdb]; exact ⟨htx, fun _ h => h, fun _ h => h⟩
    · rw [hdb]
      refine ⟨htx, ?_, ?_⟩
      · intro ev hev
        rw [upsertAccount_events]
        exact List.mem_append_left _ hev
      · intro id hid
        rw [selectAccount_upsertAccount]
        split
        · simp
        · exact hid
  · rcases hout with ⟨htx, hdb, _⟩ | ⟨htx, _, _, _, _, heff⟩
    · rw [hdb]; exact ⟨htx, fun _ h => h, fun _ h => h⟩
    · refine ⟨htx, ?_, ?_⟩
      · intro ev hev
        rw [TransferEffect_events heff]
        exact List.mem_append_left _ (List.mem_append_left _ hev)
      · obtain ⟨src, dst, t1, t2, _, _, _, hdb⟩ := heff
        intro id hid
        rw [hdb, selectAccount_upsertAccount, selectAccount_upsertAccount]
        split
        · simp
        · split
          · simp
          · exact hid

theorem run_preserves (svc : Services) (calls : List Call) :
    ∀ w : World, w.tx = none →
      (run svc w calls).tx = none ∧
      (∀ ev ∈ w.db.events, ev ∈ (run svc w calls).db.events) ∧
      (∀ id, selectAccount w.db id ≠ none → selectAccount (run svc w calls).db id ≠ none) := by
  induction calls with
  | nil => intro w hw; exact ⟨hw, fun _ h => h, fun _ h => h⟩
  | cons c cs ih =>
    intro w hw
    obtain ⟨h1, h2, h3⟩ := exec_preserves svc w c hw
    obtain ⟨g1, g2, g3⟩ := ih (exec svc w c).1 h1
    exact ⟨g1, fun ev hev => g2 ev (h2 ev hev), fun id hid => g3 id (h3 id hid)⟩

/-- A `Transfer` whose transaction ID is already carried by an event is rejected by the
idempotency check, before anything else is looked at. -/
theorem Transfer_transaction_used {s : TransactionService} {w : World} {ctx : Context}
    (req : CreateTransferRequest)
    (hfresh : (getRequestContext w ctx s.requestTimeThreshold).2.2 = none)
    (hused : ∃ ev ∈ w.db.events, ev.TransactionID = (RequestFromContext ctx).1.TransactionID)
    (h0 : w.faultAt 0 = none) :
    (Transfer s w ctx req).2 = some ErrIdempotency ∧
    (Transfer s w ctx req).1.db = w.db ∧
    (Transfer s w ctx req).1.tx = w.tx ∧
    (Transfer s w ctx req).1.trace = w.trace ++
      [⟨.findAllByTransactionID (RequestFromContext ctx).1.TransactionID, none⟩] := by
  have h1 := getRequestContext_of_fresh hfresh
  have A1 : After w (getRequestContext w ctx s.requestTimeThreshold).1 0 :=
    After.getRequestContext ctx s.requestTimeThreshold
  unfold Transfer
  rw [h1]
  dsimp only
  rw [FindAllByTransactionID_of_fault_none _ (A1.fault.trans h0), A1.1,
    filter_transactionID_not_isEmpty hused]
  simp

/-- A committed `Transfer` leaves an event carrying its transaction ID. -/
theorem Transfer_records_transaction {s : TransactionService} {w : World} {ctx : Context}
    {req : CreateTransferRequest} (hw : w.tx = none)
    (hok : (Transfer s w ctx req).2 = none) (hcommit : Committed (Transfer s w ctx req).1) :
    (Transfer s w ctx req).1.tx = none ∧
    ∃ ev ∈ (Transfer s w ctx req).1.db.events,
      ev.TransactionID = (RequestFromContext ctx).1.TransactionID := by
  rcases Transfer_cases s w ctx req hw with ⟨_, _, hnc⟩ | ⟨htx, _, _, _, _, heff⟩
  · exact absurd hcommit (hnc hok)
  · refine ⟨htx, ?_⟩
    rw [TransferEffect_events heff, debitEvents_eq]
    exact ⟨_, List.mem_append_left _ (List.mem_append_right _ (List.mem_singleton.mpr rfl)),
      rfl⟩

/-- C7. After a `Transfer` that succeeded (returned no error and committed) with transaction
ID `t`, and after any further calls, a `Transfer` carrying `t` with a fresh timestamp, whatever
its source, destination and amount, returns `ErrIdempotency` and leaves the event log and the
account rows as they were, provided the idempotency lookup itself meets no driver failure. -/
theorem transfer_replay_rejected (svc : Services) (w : World) (ctx : Context)
    (req : CreateTransferRequest) (hw : w.tx = none)
    (hok : (Transfer svc.transaction w ctx req).2 = none)
    (hcommit : Committed (Transfer svc.transaction w ctx req).1)
    (later : List Call) (s : TransactionService) (ctx2 : Context) (req2 : CreateTransferRequest)
    (faults : List (Nat × Fault)) (ticks : List Int)
    (hsame : (RequestFromContext ctx2).1.TransactionID =
      (RequestFromContext ctx).1.TransactionID)
    (hfresh : (getRequestContext
      { run svc (Transfer svc.transaction w ctx req).1 later with
        faults := faults, ticks := ticks } ctx2 s.requestTimeThreshold).2.2 = none)
    (hlookup : World.faultAt
      { run svc (Transfer svc.transaction w ctx req).1 later with
        faults := faults, ticks := ticks } 0 = none) :
    (Transfer s { run svc (Transfer svc.transaction w ctx req).1 later with
        faults := faults, ticks := ticks } ctx2 req2).2 = some ErrIdempotency ∧
    (Transfer s { run svc (Transfer svc.transaction w ctx req).1 later with
        faults := faults, ticks := ticks } ctx2 req2).1.db =
      (run svc (Transfer svc.transaction w ctx req).1 later).db := by
  obtain ⟨htx, ev, hev, ht⟩ := Transfer_records_transaction hw hok hcommit
  obtain ⟨_, hmono, _⟩ := run_preserves svc later _ htx
  have hused : ∃ e ∈ ({ run svc (Transfer svc.transaction w ctx req).1 later with
      faults := faults, ticks := ticks } : World).db.events,
      e.TransactionID = (RequestFromContext ctx2).1.TransactionID :=
    ⟨ev, hmono ev hev, by rw [ht, hsame]⟩
  obtain ⟨h1, h2, _⟩ := Transfer_transaction_used req2 hfresh hused hlookup
  exact ⟨h1, h2⟩

/-- C5. A `Transfer` that returns an error, at whatever step, leaves the event log and every
account row exactly as they were before the call. -/
theorem transfer_failure_changes_nothing (s : TransactionService) (w : World) (ctx : Context)
    (req : CreateTransferRequest) (hw : w.tx = none)
    (herr : (Transfer s w ctx req).2 ≠ none) :
    (Transfer s w ctx req).1.db = w.db := by
  rcases Transfer_cases s w ctx req hw with ⟨_, hdb, _⟩ | ⟨_, hnone, _⟩
  · exact hdb
  · exact absurd hnone herr

/-- The account with a row, and the replay of its creation. -/
theorem CreateAccount_account_exists {s : AccountService} {w : World} {ctx : Context}
    {req : CreateAccountRequest}
    (hfresh : (getRequestContext w ctx s.requestTimeThreshold).2.2 = none)
    (hacc : selectAccount w.db req.AccountID ≠ none) (h0 : w.faultAt 0 = none) :
    (CreateAccount s w ctx req).2 = some ErrAccountAlreadyExists ∧
    (CreateAccount s w ctx req).1.db = w.db ∧
    (CreateAccount s w ctx req).1.tx = w.tx ∧
    (CreateAccount s w ctx req).1.trace = w.trace ++ [⟨.findByID req.AccountID, none⟩] := by
  have h1 := getRequestContext_of_fresh hfresh
  have A1 : After w (getRequestContext w ctx s.requestTimeThreshold).1 0 :=
    After.getRequestContext ctx s.requestTimeThreshold
  obtain ⟨a, ha⟩ := Option.ne_none_iff_exists'.mp hacc
  unfold CreateAccount
  rw [h1]
  dsimp only
  rw [FindByID_of_fault_none _ (A1.fault.trans h0), A1.1, ha]
  simp

theorem CreateAccount_transaction_used {s : AccountService} {w : World} {ctx : Context}
    {req : CreateAccountRequest}
    (hfresh : (getRequestContext w ctx s.requestTimeThreshold).2.2 = none)
    (hacc : selectAccount w.db req.AccountID = none)
    (hused : ∃ ev ∈ w.db.events, ev.TransactionID = (RequestFromContext ctx).1.TransactionID)
    (h0 : w.faultAt 0 = none) (h1f : w.faultAt 1 = none) :
    (CreateAccount s w ctx req).2 = some ErrIdempotency ∧
    (CreateAccount s w ctx req).1.db = w.db ∧
    (CreateAccount s w ctx req).1.tx = w.tx ∧
    (CreateAccount s w ctx req).1.trace = w.trace ++
      [⟨.findByID req.AccountID, some (.wrap "account not found" ErrRecordNotFound)⟩,
       ⟨.findAllByTransactionID (RequestFromContext ctx).1.TransactionID, none⟩] := by
  have h1 := getRequestContext_of_fresh hfresh
  have A1 : After w (getRequestContext w ctx s.requestTimeThreshold).1 0 :=
    After.getRequestContext ctx s.requestTimeThreshold
  unfold CreateAccount
  rw [h1]
  dsimp only
  rw [FindByID_of_fault_none _ (A1.fault.trans h0), A1.1, hacc]
  dsimp only
  have A2 := A1.record (.findByID req.AccountID)
    (some (.wrap "account not found" ErrRecordNotFound))
  rw [FindAllByTransactionID_of_fault_none _ (A2.fault.trans h1f), A2.1,
    filter_transactionID_not_isEmpty hused]
  simp [errorsIs, ErrRecordNotFound]

/-- C10. With a fresh timestamp and healthy lookups, `CreateAccount` returns
`ErrAccountAlreadyExists` when the account has a row, whatever the transaction ID; otherwise,
when some event carries the transaction ID, it returns `ErrIdempotency`. In both cases the
rows are untouched and the only store calls are the lookups: no transaction is begun. -/
theorem create_account_rejections (s : AccountService) (w : World) (ctx : Context)
    (req : CreateAccountRequest)
    (hfresh : (getRequestContext w ctx s.requestTimeThreshold).2.2 = none) :
    (selectAccount w.db req.AccountID ≠ none → w.faultAt 0 = none →
      (CreateAccount s w ctx req).2 = some ErrAccountAlreadyExists ∧
      (CreateAccount s w ctx req).1.db = w.db ∧
      (CreateAccount s w ctx req).1.tx = w.tx ∧
      (CreateAccount s w ctx req).1.trace = w.trace ++ [⟨.findByID req.AccountID, none⟩]) ∧
    (selectAccount w.db req.AccountID = none →
      (∃ ev ∈ w.db.events, ev.TransactionID = (RequestFromContext ctx).1.TransactionID) →
      w.faultAt 0 = none → w.faultAt 1 = none →
      (CreateAccount s w ctx req).2 = some ErrIdempotency ∧
      (CreateAccount s w ctx req).1.db = w.db ∧
      (CreateAccount s w ctx req).1.tx = w.tx ∧
      (CreateAccount s w ctx req).1.trace = w.trace ++
        [⟨.findByID req.AccountID, some (.wrap "account not found" ErrRecordNotFound)⟩,
         ⟨.findAllByTransactionID (RequestFromContext ctx).1.TransactionID, none⟩]) :=
  ⟨fun hacc h0 => CreateAccount_account_exists hfresh hacc h0,
    fun hacc hused h0 h1 => CreateAccount_transaction_used hfresh hacc hused h0 h1⟩

/-- A committed `CreateAccount` leaves the account row and events carrying its transaction
ID. -/
theorem CreateAccount_records {s : AccountService} {w : World} {ctx : Context}
    {req : CreateAccountRequest} (hw : w.tx = none)
    (hok : (CreateAccount s w ctx req).2 = none)
    (hcommit : Committed (CreateAccount s w ctx req).1) :
    (CreateAccount s w ctx req).1.tx = none ∧
    selectAccount (CreateAccount s w ctx req).1.db req.AccountID ≠ none ∧
    ∃ ev ∈ (CreateAccount s w ctx req).1.db.events,
      ev.TransactionID = (RequestFromContext ctx).1.TransactionID := by
  rcases CreateAccount_cases s w ctx req hw with ⟨_, _, hnc⟩ | ⟨htx, _, _, _, _, t1, t2, hdb⟩
  · exact absurd hcommit (hnc hok)
  · refine ⟨htx, ?_, ?_⟩
    · rw [hdb, selectAccount_upsertAccount]
      simp
    · rw [hdb, upsertAccount_events, creationEvents_eq]
      exact ⟨_, List.mem_append_right _ (List.mem_cons_self _ _), rfl⟩

/-- C8, as the code has it. After a `CreateAccount` that succeeded (returned no error and
committed) with transaction ID `t`, and after any further calls, replaying it for the same
account ID with a fresh timestamp returns `ErrAccountAlreadyExists`, not `ErrIdempotency`: the
duplicate-account check runs first. `ErrIdempotency` is what a `CreateAccount` reusing `t` for
an account ID without a row gets. Either way the event log and the account store are not
mutated. The lookups are assumed to meet no driver failure. -/
theorem create_account_replay_rejected (svc : Services) (w : World) (ctx : Context)
    (req : CreateAccountRequest) (hw : w.tx = none)
    (hok : (CreateAccount svc.account w ctx req).2 = none)
    (hcommit : Committed (CreateAccount svc.account w ctx req).1)
    (later : List Call) (s : AccountService) (ctx2 : Context) (req2 : CreateAccountRequest)
    (faults : List (Nat × Fault)) (ticks : List Int)
    (hsame : (RequestFromContext ctx2).1.TransactionID =
      (RequestFromContext ctx).1.TransactionID)
    (hfresh : (getRequestContext
      { run svc (CreateAccount svc.account w ctx req).1 later with
        faults := faults, ticks := ticks } ctx2 s.requestTimeThreshold).2.2 = none)
    (h0 : World.faultAt
      { run svc (CreateAccount svc.account w ctx req).1 later with
        faults := faults, ticks := ticks } 0 = none)
    (h1 : World.faultAt
      { run svc (CreateAccount svc.account w ctx req).1 later with
        faults := faults, ticks := ticks } 1 = none) :
    (req2.AccountID = req.AccountID →
      (CreateAccount s { run svc (CreateAccount svc.account w ctx req).1 later with
        faults := faults, ticks := ticks } ctx2 req2).2 = some ErrAccountAlreadyExists ∧
      (CreateAccount s { run svc (CreateAccount svc.account w ctx req).1 later with
        faults := faults, ticks := ticks } ctx2 req2).1.db =
        (run svc (CreateAccount svc.account w ctx req).1 later).db) ∧
    (selectAccount (run svc (CreateAccount svc.account w ctx req).1 later).db
        req2.AccountID = none →
      (CreateAccount s { run svc (CreateAccount svc.account w ctx req).1 later with
        faults := faults, ticks := ticks } ctx2 req2).2 = some ErrIdempotency ∧
      (CreateAccount s { run svc (CreateAccount svc.account w ctx req).1 later with
        faults := faults, ticks := ticks } ctx2 req2).1.db =
        (run svc (CreateAccount svc.account w ctx req).1 later).db) := by
  obtain ⟨htx, hrow, ev, hev, ht⟩ := CreateAccount_records hw hok hcommit
  obtain ⟨_, hmono, hrows⟩ := run_preserves svc later _ htx
  constructor
  · intro hid
    have hacc : selectAccount ({ run svc (CreateAccount svc.account w ctx req).1 later with
        faults := faults, ticks := ticks } : World).db req2.AccountID ≠ none := by
      rw [hid]; exact hrows _ hrow
    obtain ⟨g1, g2, _⟩ := CreateAccount_account_exists hfresh hacc h0
    exact ⟨g1, g2⟩
  · intro hacc
    have hused : ∃ e ∈ ({ run svc (CreateAccount svc.account w ctx req).1 later with
        faults := faults, ticks := ticks } : World).db.events,
        e.TransactionID = (RequestFromContext ctx2).1.TransactionID :=
      ⟨ev, hmono ev hev, by rw [ht, hsame]⟩
    obtain ⟨g1, g2, _⟩ := CreateAccount_transaction_used hfresh hacc hused h0 h1
    exact ⟨g1, g2⟩

/-- C8 as stated fails: account `1` is opened with transaction ID "tx-a"; the replay of the
same request returns `ErrAccountAlreadyExists`, which is not `ErrIdempotency`. -/
theorem create_account_replay_counterexample :
    (CreateAccount exampleServices.account emptyWorld (exampleContext "tx-a") ⟨1, 1000⟩).2 =
      none ∧
    Committed
      (CreateAccount exampleServices.account emptyWorld (exampleContext "tx-a") ⟨1, 1000⟩).1 ∧
    (CreateAccount exampleServices.account
      (CreateAccount exampleServices.account emptyWorld (exampleContext "tx-a") ⟨1, 1000⟩).1
      (exampleContext "tx-a") ⟨1, 1000⟩).2 = some ErrAccountAlreadyExists ∧
    (CreateAccount exampleServices.account
      (CreateAccount exampleServices.account emptyWorld (exampleContext "tx-a") ⟨1, 1000⟩).1
      (exampleContext "tx-a") ⟨1, 1000⟩).2 ≠ some ErrIdempotency :=
  ⟨by decide, ⟨⟨0⟩, by decide⟩, by decide, by decide⟩

theorem transfer_conserves_balances_witness :
    (exampleFunded.tx = none ∧
      (Transfer exampleServices.transaction exampleFunded (exampleContext "tx-b")
        ⟨1, 2, 100⟩).2 = none) ∧
    ((1 : Int) ≠ 2 ∧
    ∃ sourceBefore destinationBefore : Decimal,
      balanceOf exampleFunded.db 1 = some sourceBefore ∧
      balanceOf exampleFunded.db 2 = some destinationBefore ∧
      balanceOf (Transfer exampleServices.transaction exampleFunded (exampleContext "tx-b")
        ⟨1, 2, 100⟩).1.db 1 = some (sourceBefore - 100) ∧
      balanceOf (Transfer exampleServices.transaction exampleFunded (exampleContext "tx-b")
        ⟨1, 2, 100⟩).1.db 2 = some (destinationBefore + 100) ∧
      (sourceBefore - 100) + (destinationBefore + 100) = sourceBefore + destinationBefore) :=
  ⟨⟨rfl, by decide⟩,
    transfer_conserves_balances exampleServices.transaction exampleFunded
      (exampleContext "tx-b") ⟨1, 2, 100⟩ rfl (by decide) ⟨⟨2⟩, by decide⟩⟩

theorem exampleFunded_healthy (k : Nat) : exampleFunded.faultAt k = none := rfl

theorem exampleOpened_healthy (k : Nat) : exampleOpened.faultAt k = none := rfl

theorem emptyWorld_healthy (k : Nat) : emptyWorld.faultAt k = none := rfl

theorem transfer_insufficient_balance_iff_witness :
    ((Transfer exampleServices.transaction exampleFunded (exampleContext "tx-b")
        ⟨1, 2, 1000⟩).2 = none ∧
      balanceOf (Transfer exampleServices.transaction exampleFunded (exampleContext "tx-b")
        ⟨1, 2, 1000⟩).1.db 1 = some 0) ∧
    ∃ err, (Transfer exampleServices.transaction exampleFunded (exampleContext "tx-b")
        ⟨1, 2, 1000 + 1 / 100⟩).2 = some err ∧ errorsIs err ErrInsufficientBalance = true :=
  ⟨(transfer_insufficient_balance_iff exampleServices.transaction exampleFunded
      (exampleContext "tx-b") ⟨1, 2, 1000⟩ { ID := 1, Balance := 1000 }
      { ID := 2, Balance := 500 } rfl (by decide) (by decide) (by decide) (by decide)
      (by decide) (fun k _ => exampleFunded_healthy k)).2.1 rfl,
    (transfer_insufficient_balance_iff exampleServices.transaction exampleFunded
      (exampleContext "tx-b") ⟨1, 2, 1000 + 1 / 100⟩ { ID := 1, Balance := 1000 }
      { ID := 2, Balance := 500 } rfl (by decide) (by decide) (by decide) (by decide)
      (by decide) (fun k _ => exampleFunded_healthy k)).2.2 rfl⟩

theorem transfer_failure_changes_nothing_witness :
    (exampleOpened.tx = none ∧
      (Transfer exampleServices.transaction exampleOpened (exampleContext "tx-b")
        ⟨1, 2, 100⟩).2 =
        some (.wrap "failed to process transfer" (.wrap "failed to process transfer"
          (.wrap "failed to find account" ErrDestinationAccountNotFound)))) ∧
    (Transfer exampleServices.transaction exampleOpened (exampleContext "tx-b")
      ⟨1, 2, 100⟩).1.db = exampleOpened.db ∧
    balanceOf exampleOpened.db 1 = some 1000 ∧
    aggregateSeqs exampleOpened.db 1 = [1, 2] ∧ aggregateSeqs exampleOpened.db 2 = [] :=
  ⟨⟨rfl, by decide⟩,
    transfer_failure_changes_nothing exampleServices.transaction exampleOpened
      (exampleContext "tx-b") ⟨1, 2, 100⟩ rfl (by decide),
    by decide, by decide, by decide⟩

theorem create_account_atomic_witness :
    (CreateAccount exampleServices.account exampleBrokenUpsert (exampleContext "tx-a")
      ⟨1, 1000⟩).2 ≠ none ∧
    (CreateAccount exampleServices.account exampleBrokenUpsert (exampleContext "tx-a")
      ⟨1, 1000⟩).1.db = exampleBrokenUpsert.db :=
  (create_account_atomic exampleServices.account exampleBrokenUpsert (exampleContext "tx-a")
    ⟨1, 1000⟩ rfl).2 .exec (.text "connection reset by peer") (by decide) (by decide)
    (by decide) (by decide) (Or.inr ⟨by decide, by decide, Or.inr rfl⟩)

theorem exampleBrokenUpsert_error :
    (CreateAccount exampleServices.account exampleBrokenUpsert (exampleContext "tx-a")
      ⟨1, 1000⟩).2 =
      some (.wrap "failed to create account" (.wrap "failed to upsert account"
        (.wrap "failed to exec statement" (.text "connection reset by peer")))) := by decide

theorem transfer_replay_rejected_witness :
    (Transfer exampleServices.transaction
      { run exampleServices
          (Transfer exampleServices.transaction exampleFunded (exampleContext "tx-b")
            ⟨1, 2, 100⟩).1 [] with faults := [], ticks := [] }
      (exampleContext "tx-b") ⟨2, 1, 5⟩).2 = some ErrIdempotency ∧
    (Transfer exampleServices.transaction
      { run exampleServices
          (Transfer exampleServices.transaction exampleFunded (exampleContext "tx-b")
            ⟨1, 2, 100⟩).1 [] with faults := [], ticks := [] }
      (exampleContext "tx-b") ⟨2, 1, 5⟩).1.db =
      (run exampleServices
        (Transfer exampleServices.transaction exampleFunded (exampleContext "tx-b")
          ⟨1, 2, 100⟩).1 []).db :=
  transfer_replay_rejected exampleServices exampleFunded (exampleContext "tx-b") ⟨1, 2, 100⟩
    rfl (by decide) ⟨⟨2⟩, by decide⟩ [] exampleServices.transaction (exampleContext "tx-b")
    ⟨2, 1, 5⟩ [] [] rfl (by decide) rfl

theorem create_account_success_witness :
    (CreateAccount exampleServices.account exampleOrphanEvent (exampleContext "tx-a")
      ⟨1, 1000⟩).1.db.events.map (fun e => (e.AggregateID, e.SequenceNumber)) =
      [(1, 5), (1, 6), (1, 7)] ∧
    ((CreateAccount exampleServices.account emptyWorld (exampleContext "tx-a") ⟨1, 1000⟩).2 =
        none ∧
      (CreateAccount exampleServices.account emptyWorld (exampleContext "tx-a")
        ⟨1, 1000⟩).1.db.events = [] ++
        [{ TransactionID := "tx-a", SequenceNumber := 1, AggregateID := 1,
           AggregateType := "account", EventType := "init_balance",
           EventData := [("initial_balance", .decimal 1000)], Version := "1.0.0" },
         { TransactionID := "tx-a", SequenceNumber := 2, AggregateID := 1,
           AggregateType := "account", EventType := "deposit_received",
           EventData := [("source", .string "SYSTEM"), ("amount", .decimal 1000)],
           Version := "1.0.0" }]) ∧
    ((CreateAccount exampleServices.account exampleOrphanEvent (exampleContext "tx-a")
        ⟨1, 1000⟩).2 = none ∧
      (CreateAccount exampleServices.account exampleOrphanEvent (exampleContext "tx-a")
        ⟨1, 1000⟩).1.db.events = exampleOrphanEvent.db.events ++
        [{ TransactionID := "tx-a", SequenceNumber := 6, AggregateID := 1,
           AggregateType := "account", EventType := "init_balance",
           EventData := [("initial_balance", .decimal 1000)], Version := "1.0.0" },
         { TransactionID := "tx-a", SequenceNumber := 7, AggregateID := 1,
           AggregateType := "account", EventType := "deposit_received",
           EventData := [("source", .string "SYSTEM"), ("amount", .decimal 1000)],
           Version := "1.0.0" }]) :=
  ⟨by decide,
   ⟨(create_account_success exampleServices.account emptyWorld (exampleContext "tx-a")
      ⟨1, 1000⟩ 0 rfl (by decide) (by decide) (by decide) (fun k _ => emptyWorld_healthy k)
      (by decide) (by decide)).1,
    (create_account_success exampleServices.account emptyWorld (exampleContext "tx-a")
      ⟨1, 1000⟩ 0 rfl (by decide) (by decide) (by decide) (fun k _ => emptyWorld_healthy k)
      (by decide) (by decide)).2.1⟩,
   ⟨(create_account_success exampleServices.account exampleOrphanEvent (exampleContext "tx-a")
      ⟨1, 1000⟩ 5 rfl (by decide) (by decide) (by decide) (fun k _ => rfl)
      (by decide) (by decide)).1,
    (create_account_success exampleServices.account exampleOrphanEvent (exampleContext "tx-a")
      ⟨1, 1000⟩ 5 rfl (by decide) (by decide) (by decide) (fun k _ => rfl)
      (by decide) (by decide)).2.1⟩⟩

theorem create_account_rejections_witness :
    ((CreateAccount exampleServices.account exampleOpened (exampleContext "tx-z")
        ⟨1, 70⟩).2 = some ErrAccountAlreadyExists ∧
      (CreateAccount exampleServices.account exampleOpened (exampleContext "tx-z")
        ⟨1, 70⟩).1.db = exampleOpened.db ∧
      (CreateAccount exampleServices.account exampleOpened (exampleContext "tx-z")
        ⟨1, 70⟩).1.tx = exampleOpened.tx ∧
      (CreateAccount exampleServices.account exampleOpened (exampleContext "tx-z")
        ⟨1, 70⟩).1.trace = exampleOpened.trace ++ [⟨.findByID 1, none⟩]) ∧
    ((CreateAccount exampleServices.account exampleOpened (exampleContext "tx-a")
        ⟨3, 70⟩).2 = some ErrIdempotency ∧
      (CreateAccount exampleServices.account exampleOpened (exampleContext "tx-a")
        ⟨3, 70⟩).1.db = exampleOpened.db ∧
      (CreateAccount exampleServices.account exampleOpened (exampleContext "tx-a")
        ⟨3, 70⟩).1.tx = exampleOpened.tx ∧
      (CreateAccount exampleServices.account exampleOpened (exampleContext "tx-a")
        ⟨3, 70⟩).1.trace = exampleOpened.trace ++
        [⟨.findByID 3, some (.wrap "account not found" ErrRecordNotFound)⟩,
         ⟨.findAllByTransactionID "tx-a", none⟩]) :=
  ⟨(create_account_rejections exampleServices.account exampleOpened (exampleContext "tx-z")
      ⟨1, 70⟩ (by decide)).1 (by decide) rfl,
    (create_account_rejections exampleServices.account exampleOpened (exampleContext "tx-a")
      ⟨3, 70⟩ (by decide)).2 (by decide) (by decide) rfl rfl⟩

theorem create_account_replay_rejected_witness :
    (CreateAccount exampleServices.account
      { run exampleServices exampleOpened [] with faults := [], ticks := [] }
      (exampleContext "tx-a") ⟨1, 1000⟩).2 = some ErrAccountAlreadyExists ∧
    (CreateAccount exampleServices.account
      { run exampleServices exampleOpened [] with faults := [], ticks := [] }
      (exampleContext "tx-a") ⟨1, 1000⟩).1.db = (run exampleServices exampleOpened []).db :=
  (create_account_replay_rejected exampleServices emptyWorld (exampleContext "tx-a") ⟨1, 1000⟩
    rfl (by decide) ⟨⟨0⟩, by decide⟩ [] exampleServices.account (exampleContext "tx-a")
    ⟨1, 1000⟩ [] [] rfl (by decide) rfl rfl).1 rfl

theorem on_fields (c : AccountEventCollector) (call : CollectorCall) :
    (c.on call).aggregateID = c.aggregateID ∧ (c.on call).aggregateType = c.aggregateType ∧
    (c.on call).transactionID = c.transactionID ∧ (c.on call).eventVersion = c.eventVersion ∧
    (c.on call).sequenceNumber = wrapInt64 (c.sequenceNumber + 1) ∧
    ∃ ev, (c.on call).events = c.events ++ [ev] ∧
      ev.stamp = { SequenceNumber := wrapInt64 (c.sequenceNumber + 1),
                   AggregateID := c.aggregateID, AggregateType := c.aggregateType,
                   TransactionID := c.transactionID, Version := c.eventVersion,
                   EventType := call.eventType } := by
  cases call <;> exact ⟨rfl, rfl, rfl, rfl, rfl, _, rfl, rfl⟩

theorem onAll_append (c : AccountEventCollector) (calls : List CollectorCall)
    (call : CollectorCall) : c.onAll (calls ++ [call]) = (c.onAll calls).on call := by
  simp [AccountEventCollector.onAll, List.foldl_append]

theorem onAll_spec (c : AccountEventCollector) (calls : List CollectorCall)
    (hlow : int64Min ≤ c.sequenceNumber + 1)
    (hhigh : c.sequenceNumber + calls.length ≤ int64Max) :
    (c.onAll calls).aggregateID = c.aggregateID ∧
    (c.onAll calls).aggregateType = c.aggregateType ∧
    (c.onAll calls).transactionID = c.transactionID ∧
    (c.onAll calls).eventVersion = c.eventVersion ∧
    (c.onAll calls).sequenceNumber = c.sequenceNumber + calls.length ∧
    (c.onAll calls).events.length = c.events.length + calls.length ∧
    (∀ i, i < c.events.length → (c.onAll calls).events[i]? = c.events[i]?) ∧
    ∀ (i : Nat) (call : CollectorCall), calls[i]? = some call →
      ((c.onAll calls).events[c.events.length + i]?).map Event.stamp =
        some { SequenceNumber := c.sequenceNumber + (i + 1), AggregateID := c.aggregateID,
               AggregateType := c.aggregateType, TransactionID := c.transactionID,
               Version := c.eventVersion, EventType := call.eventType } := by
  induction calls using List.reverseRecOn with
  | nil =>
    refine ⟨rfl, rfl, rfl, rfl, by simp [AccountEventCollector.onAll], rfl, fun _ _ => rfl, ?_⟩
    intro i call h
    simp at h
  | append_singleton calls last ih =>
    simp only [List.length_append, List.length_singleton, Nat.cast_add, Nat.cast_one] at hhigh
    obtain ⟨h1, h2, h3, h4, h5, h6, h7, h8⟩ := ih (by omega)
    obtain ⟨g1, g2, g3, g4, g5, ev, g6, g7⟩ := on_fields (c.onAll calls) last
    simp only [int64Min, int64Max] at hlow hhigh
    have hwrap : wrapInt64 ((c.onAll calls).sequenceNumber + 1) =
        c.sequenceNumber + calls.length + 1 := by
      rw [h5]
      exact wrapInt64_of_range (by omega) (by omega)
    rw [onAll_append]
    refine ⟨g1.trans h1, g2.trans h2, g3.trans h3, g4.trans h4, ?_, ?_, ?_, ?_⟩
    · rw [g5, hwrap]; simp; ring
    · rw [g6]; simp [h6]; omega
    · intro i hi
      rw [g6, List.getElem?_append_left (by omega)]
      exact h7 i hi
    · intro i call hcall
      rw [g6]
      by_cases hi : i < calls.length
      · rw [List.getElem?_append_left (by omega)]
        rw [List.getElem?_append_left hi] at hcall
        exact h8 i call hcall
      · have hlen : i = calls.length := by
          by_contra hne
          have : calls.length + 1 ≤ i := by omega
          rw [List.getElem?_eq_none (by simp; omega)] at hcall
          simp at hcall
        subst hlen
        rw [List.getElem?_append_right (by omega)]
        simp only [h6, Nat.add_sub_cancel_left, le_refl, Nat.sub_self, List.getElem?_cons_zero,
          Option.map_some', Nat.sub_self]
        rw [List.getElem?_append_right (le_refl _)] at hcall
        simp only [Nat.sub_self, List.getElem?_cons_zero, Option.some.injEq] at hcall
        subst hcall
        rw [g7, hwrap, h1, h2, h3, h4]
        simp only [Option.some.injEq, EventStamp.mk.injEq, and_true]
        ring

/-- C15. For a collector with counter `n` and an empty pending batch, as construction leaves
it, `k` event applications of any kinds with no `Place` in between leave exactly `k` pending
events in application order; the `i`-th (counting from 1) has sequence number `n + i`, the
collector's aggregate ID, aggregate type "account", transaction ID and schema version, and the
kind of the `i`-th application; the counter ends at `n + k`. The range hypotheses keep the
`int64` counter from wrapping. -/
theorem collector_batch (c : AccountEventCollector) (calls : List CollectorCall)
    (hempty : c.events = []) (htype : c.aggregateType = AggregateTypeAccount)
    (hlow : int64Min ≤ c.sequenceNumber + 1)
    (hhigh : c.sequenceNumber + calls.length ≤ int64Max) :
    (c.onAll calls).events.length = calls.length ∧
    (c.onAll calls).sequenceNumber = c.sequenceNumber + calls.length ∧
    ∀ (i : Nat) (call : CollectorCall), calls[i]? = some call →
      ((c.onAll calls).events[i]?).map Event.stamp =
        some { SequenceNumber := c.sequenceNumber + (i + 1), AggregateID := c.aggregateID,
               AggregateType := "account", TransactionID := c.transactionID,
               Version := c.eventVersion, EventType := call.eventType } := by
  obtain ⟨_, _, _, _, h5, h6, _, h8⟩ := onAll_spec c calls hlow hhigh
  refine ⟨by simpa [hempty] using h6, h5, ?_⟩
  intro i call hcall
  have := h8 i call hcall
  simpa [hempty, htype, AggregateTypeAccount] using this

/-- C16. `NewAccountEventCollector` makes the one call `FindLastByAggregateID` and is
determined by its result: an event with sequence number `n` gives a collector with counter
`n`; a record-not-found failure gives a collector with counter `0`; any other failure gives no
collector and an error wrapping that failure. Every collector it returns has the aggregate ID,
transaction ID and schema version passed in, aggregate type "account" and an empty pending
batch. -/
theorem new_collector_from_lookup (w : World) (a : Int) (t v : String) :
    (NewAccountEventCollector w a t v).1 = (FindLastByAggregateID w a).1 ∧
    (∀ ev, (FindLastByAggregateID w a).2 = .ok ev →
      (NewAccountEventCollector w a t v).2 =
        .ok { sequenceNumber := ev.SequenceNumber, eventVersion := v, aggregateID := a,
              aggregateType := "account", transactionID := t, events := [] }) ∧
    (∀ e, (FindLastByAggregateID w a).2 = .error e → errorsIs e ErrRecordNotFound = true →
      (NewAccountEventCollector w a t v).2 =
        .ok { sequenceNumber := 0, eventVersion := v, aggregateID := a,
              aggregateType := "account", transactionID := t, events := [] }) ∧
    (∀ e, (FindLastByAggregateID w a).2 = .error e → errorsIs e ErrRecordNotFound = false →
      (NewAccountEventCollector w a t v).2 = .error (.wrap "failed to find last event" e)) := by
  unfold NewAccountEventCollector
  rcases h : FindLastByAggregateID w a with ⟨w1, ev | e⟩
  · refine ⟨?_, ?_, ?_, ?_⟩
    · dsimp only; split <;> rfl
    · intro ev hev; simp at hev
    · intro e1 he1 hnf
      simp only [Except.error.injEq] at he1
      subst he1
      simp [hnf, AggregateTypeAccount]
    · intro e1 he1 hnf
      simp only [Except.error.injEq] at he1
      subst he1
      simp [hnf]
  · refine ⟨rfl, ?_, ?_, ?_⟩
    · intro ev1 hev
      simp only [Except.ok.injEq] at hev
      subst hev
      simp [AggregateTypeAccount]
    · intro e he; simp at he
    · intro e he; simp at he

theorem CreateBulkTx_trace (w : World) (tx : Option Tx) (evs : List Event) :
    (CreateBulkTx w tx evs).1.trace =
      w.trace ++ [⟨.createBulkTx tx evs, (CreateBulkTx w tx evs).2⟩] := by
  unfold CreateBulkTx
  split
  · rfl
  · split
    · rfl
    · dsimp only
      split <;> (try split) <;> rfl

/-- C17. `Place` makes exactly one store call, the bulk append, passing the transaction handle
it was given and the whole pending batch in order; when that call succeeds `Place` returns no
error and leaves the collector with an empty batch and its counter at `0`. -/
theorem place_appends_once (c : AccountEventCollector) (w : World) (tx : Option Tx) :
    (c.Place w tx).1 = (CreateBulkTx w tx c.events).1 ∧
    (c.Place w tx).1.trace =
      w.trace ++ [⟨.createBulkTx tx c.events, (CreateBulkTx w tx c.events).2⟩] ∧
    ((CreateBulkTx w tx c.events).2 = none →
      (c.Place w tx).2.2 = none ∧
      (c.Place w tx).2.1.events = [] ∧
      (c.Place w tx).2.1.sequenceNumber = 0 ∧
      (c.Place w tx).2.1 = { c with sequenceNumber := 0, events := [] }) := by
  have htrace := CreateBulkTx_trace w tx c.events
  unfold AccountEventCollector.Place
  rcases h : CreateBulkTx w tx c.events with ⟨w1, _ | e⟩
  · rw [h] at htrace
    exact ⟨rfl, htrace, fun _ => ⟨rfl, rfl, rfl, rfl⟩⟩
  · rw [h] at htrace
    exact ⟨rfl, htrace, fun hn => by simp at hn⟩

/-- C19. When the bulk append made by `Place` fails, `Place` returns an error wrapping that
failure, the bulk append is the only store call it made, and the collector keeps its pending
batch and its counter. -/
theorem place_failure_keeps_batch (c : AccountEventCollector) (w : World) (tx : Option Tx)
    (e : Error) (hfail : (CreateBulkTx w tx c.events).2 = some e) :
    (c.Place w tx).2.2 = some (.wrap "failed to create bulk events" e) ∧
    (c.Place w tx).1.trace = w.trace ++ [⟨.createBulkTx tx c.events, some e⟩] ∧
    (c.Place w tx).2.1 = c ∧
    (c.Place w tx).2.1.events = c.events ∧
    (c.Place w tx).2.1.sequenceNumber = c.sequenceNumber := by
  have htrace := CreateBulkTx_trace w tx c.events
  unfold AccountEventCollector.Place
  rcases h : CreateBulkTx w tx c.events with ⟨w1, _ | e1⟩
  · rw [h] at hfail; simp at hfail
  · rw [h] at hfail htrace
    simp only [Option.some.injEq] at hfail
    subst hfail
    exact ⟨rfl, htrace, rfl, rfl, rfl⟩

/-- C18, as the code has it. After a successful `Place` the collector's counter is back at
`0`: the events applied to the same collector afterwards are numbered `1, 2, ...` again,
whatever sequence numbers it flushed before. The sequence is continued only by a newly
constructed collector, which reads the last sequence number from the store. -/
theorem place_restarts_numbering (c : AccountEventCollector) (w : World) (tx : Option Tx)
    (calls : List CollectorCall) (hok : (c.Place w tx).2.2 = none)
    (hhigh : (calls.length : Int) ≤ int64Max) :
    (c.Place w tx).2.1.sequenceNumber = 0 ∧
    ((c.Place w tx).2.1.onAll calls).events.length = calls.length ∧
    ∀ (i : Nat) (call : CollectorCall), calls[i]? = some call →
      ((((c.Place w tx).2.1.onAll calls).events[i]?).map (·.SequenceNumber)) =
        some ((i : Int) + 1) := by
  have hplace : (c.Place w tx).2.1 = { c with sequenceNumber := 0, events := [] } := by
    unfold AccountEventCollector.Place at hok ⊢
    rcases h : CreateBulkTx w tx c.events with ⟨w1, _ | e1⟩
    · rfl
    · rw [h] at hok; simp at hok
  rw [hplace]
  obtain ⟨_, _, _, _, _, h6, _, h8⟩ := onAll_spec
    ({ c with sequenceNumber := 0, events := [] } : AccountEventCollector) calls
    (by simp [int64Min]) (by simpa using hhigh)
  refine ⟨rfl, by simpa using h6, ?_⟩
  intro i call hcall
  have := h8 i call hcall
  simp only [List.length_nil, Nat.zero_add, zero_add] at this
  cases hev : (AccountEventCollector.onAll
      ({ c with sequenceNumber := 0, events := [] } : AccountEventCollector) calls).events[i]? with
  | none => rw [hev] at this; simp at this
  | some ev =>
    rw [hev] at this
    simp only [Option.map_some', Option.some.injEq] at this ⊢
    have h2 := congrArg EventStamp.SequenceNumber this
    simpa [Event.stamp] using h2

/-- C18 as stated fails: a collector flushes events numbered `1` and `2`; the event applied to
it after the successful `Place` is numbered `1` again, which is not greater than `2` and is the
sequence number of an event it already flushed. -/
theorem place_restarts_numbering_counterexample :
    exampleCollector.events.map (·.SequenceNumber) = [1, 2] ∧
    (exampleCollector.Place emptyWorld.begun (some ⟨0⟩)).2.2 = none ∧
    (((exampleCollector.Place emptyWorld.begun (some ⟨0⟩)).2.1.OnDepositReceivedEvent
      "SYSTEM" 5).events.map (·.SequenceNumber)) = [1] := by decide

theorem place_restarts_numbering_witness :
    (exampleCollector.Place emptyWorld.begun (some ⟨0⟩)).2.1.sequenceNumber = 0 ∧
    ((exampleCollector.Place emptyWorld.begun (some ⟨0⟩)).2.1.onAll
      [.depositReceived "SYSTEM" 5, .subBalance 2 1]).events.length =
      [CollectorCall.depositReceived "SYSTEM" 5, .subBalance 2 1].length ∧
    ∀ (i : Nat) (call : CollectorCall),
      [CollectorCall.depositReceived "SYSTEM" 5, .subBalance 2 1][i]? = some call →
      ((((exampleCollector.Place emptyWorld.begun (some ⟨0⟩)).2.1.onAll
        [.depositReceived "SYSTEM" 5, .subBalance 2 1]).events[i]?).map (·.SequenceNumber)) =
        some ((i : Int) + 1) :=
  place_restarts_numbering exampleCollector emptyWorld.begun (some ⟨0⟩)
    [.depositReceived "SYSTEM" 5, .subBalance 2 1] (by decide) (by decide)

theorem collector_batch_witness :
    ((freshCollector emptyWorld.db 1 "tx-a" "1.0.0").onAll
      [.initBalance 1000, .depositReceived "SYSTEM" 1000]).events.length =
      [CollectorCall.initBalance 1000, .depositReceived "SYSTEM" 1000].length ∧
    ((freshCollector emptyWorld.db 1 "tx-a" "1.0.0").onAll
      [.initBalance 1000, .depositReceived "SYSTEM" 1000]).sequenceNumber =
      (freshCollector emptyWorld.db 1 "tx-a" "1.0.0").sequenceNumber +
        ([CollectorCall.initBalance 1000, .depositReceived "SYSTEM" 1000].length : Int) ∧
    ∀ (i : Nat) (call : CollectorCall),
      [CollectorCall.initBalance 1000, .depositReceived "SYSTEM" 1000][i]? = some call →
      (((freshCollector emptyWorld.db 1 "tx-a" "1.0.0").onAll
        [.initBalance 1000, .depositReceived "SYSTEM" 1000]).events[i]?).map Event.stamp =
        some { SequenceNumber :=
                 (freshCollector emptyWorld.db 1 "tx-a" "1.0.0").sequenceNumber + (i + 1),
               AggregateID := 1, AggregateType := "account", TransactionID := "tx-a",
               Version := "1.0.0", EventType := call.eventType } :=
  collector_batch (freshCollector emptyWorld.db 1 "tx-a" "1.0.0")
    [.initBalance 1000, .depositReceived "SYSTEM" 1000] rfl rfl (by decide) (by decide)

theorem place_failure_keeps_batch_witness :
    (exampleCollector.Place emptyWorld none).2.2 =
      some (.wrap "failed to create bulk events" (.text "transaction is nil")) ∧
    (exampleCollector.Place emptyWorld none).1.trace =
      emptyWorld.trace ++
        [⟨.createBulkTx none exampleCollector.events, some (.text "transaction is nil")⟩] ∧
    (exampleCollector.Place emptyWorld none).2.1 = exampleCollector ∧
    (exampleCollector.Place emptyWorld none).2.1.events = exampleCollector.events ∧
    (exampleCollector.Place emptyWorld none).2.1.sequenceNumber =
      exampleCollector.sequenceNumber :=
  place_failure_keeps_batch exampleCollector emptyWorld none (.text "transaction is nil") rfl

/-- A `Transfer` between an account and itself is rejected right after the idempotency
lookup. -/
theorem Transfer_same_account {s : TransactionService} {w : World} {ctx : Context}
    {req : CreateTransferRequest}
    (hfresh : (getRequestContext w ctx s.requestTimeThreshold).2.2 = none)
    (hunused : ∀ ev ∈ w.db.events,
      ev.TransactionID ≠ (RequestFromContext ctx).1.TransactionID)
    (hsame : req.SourceAccountID = req.DestinationAccountID)
    (h0 : w.faultAt 0 = none) :
    (Transfer s w ctx req).2 = some ErrSourceAndDestinationAccountSame ∧
    (Transfer s w ctx req).1.db = w.db ∧
    (Transfer s w ctx req).1.tx = w.tx ∧
    (Transfer s w ctx req).1.trace = w.trace ++
      [⟨.findAllByTransactionID (RequestFromContext ctx).1.TransactionID,
        some (.wrap "event not found" ErrRecordNotFound)⟩] := by
  have h1 := getRequestContext_of_fresh hfresh
  have A1 : After w (getRequestContext w ctx s.requestTimeThreshold).1 0 :=
    After.getRequestContext ctx s.requestTimeThreshold
  unfold Transfer
  rw [h1]
  dsimp only
  rw [FindAllByTransactionID_of_fault_none _ (A1.fault.trans h0), A1.1,
    filter_transactionID_isEmpty hunused]
  simp [errorsIs, ErrRecordNotFound, hsame]

/-- C11. With a fresh timestamp and an idempotency lookup that meets no driver failure,
`Transfer` returns `ErrIdempotency` when some event carries the transaction ID, whether or not
source and destination are equal; otherwise it returns `ErrSourceAndDestinationAccountSame`
when they are equal. In both cases the rows are untouched and the idempotency lookup is the
only store call: no collector is constructed, no account is read or locked, nothing is
written. -/
theorem transfer_rejections (s : TransactionService) (w : World) (ctx : Context)
    (req : CreateTransferRequest)
    (hfresh : (getRequestContext w ctx s.requestTimeThreshold).2.2 = none)
    (h0 : w.faultAt 0 = none) :
    ((∃ ev ∈ w.db.events, ev.TransactionID = (RequestFromContext ctx).1.TransactionID) →
      (Transfer s w ctx req).2 = some ErrIdempotency ∧
      (Transfer s w ctx req).1.db = w.db ∧
      (Transfer s w ctx req).1.tx = w.tx ∧
      (Transfer s w ctx req).1.trace = w.trace ++
        [⟨.findAllByTransactionID (RequestFromContext ctx).1.TransactionID, none⟩]) ∧
    ((∀ ev ∈ w.db.events, ev.TransactionID ≠ (RequestFromContext ctx).1.TransactionID) →
      req.SourceAccountID = req.DestinationAccountID →
      (Transfer s w ctx req).2 = some ErrSourceAndDestinationAccountSame ∧
      (Transfer s w ctx req).1.db = w.db ∧
      (Transfer s w ctx req).1.tx = w.tx ∧
      (Transfer s w ctx req).1.trace = w.trace ++
        [⟨.findAllByTransactionID (RequestFromContext ctx).1.TransactionID,
          some (.wrap "event not found" ErrRecordNotFound)⟩]) :=
  ⟨fun hused => Transfer_transaction_used req hfresh hused h0,
    fun hunused hsame => Transfer_same_account hfresh hunused hsame h0⟩

theorem transfer_rejections_witness :
    ((Transfer exampleServices.transaction exampleOpened (exampleContext "tx-a")
        ⟨1, 1, 100⟩).2 = some ErrIdempotency ∧
      (Transfer exampleServices.transaction exampleOpened (exampleContext "tx-a")
        ⟨1, 1, 100⟩).1.db = exampleOpened.db ∧
      (Transfer exampleServices.transaction exampleOpened (exampleContext "tx-a")
        ⟨1, 1, 100⟩).1.tx = exampleOpened.tx ∧
      (Transfer exampleServices.transaction exampleOpened (exampleContext "tx-a")
        ⟨1, 1, 100⟩).1.trace = exampleOpened.trace ++
        [⟨.findAllByTransactionID "tx-a", none⟩]) ∧
    ((Transfer exampleServices.transaction exampleOpened (exampleContext "tx-b")
        ⟨1, 1, 100⟩).2 = some ErrSourceAndDestinationAccountSame ∧
      (Transfer exampleServices.transaction exampleOpened (exampleContext "tx-b")
        ⟨1, 1, 100⟩).1.db = exampleOpened.db ∧
      (Transfer exampleServices.transaction exampleOpened (exampleContext "tx-b")
        ⟨1, 1, 100⟩).1.tx = exampleOpened.tx ∧
      (Transfer exampleServices.transaction exampleOpened (exampleContext "tx-b")
        ⟨1, 1, 100⟩).1.trace = exampleOpened.trace ++
        [⟨.findAllByTransactionID "tx-b", some (.wrap "event not found" ErrRecordNotFound)⟩]) :=
  ⟨(transfer_rejections exampleServices.transaction exampleOpened (exampleContext "tx-a")
      ⟨1, 1, 100⟩ (by decide) rfl).1 (by decide),
    (transfer_rejections exampleServices.transaction exampleOpened (exampleContext "tx-b")
      ⟨1, 1, 100⟩ (by decide) rfl).2 (by decide) rfl⟩

/-- C13. A `Transfer` that succeeded (returned no error and committed) with transaction ID `t`
appended exactly two events to the log: a `balance_debited` event of the source aggregate
numbered one more than that aggregate's last sequence number, then a `balance_credited` event
of the destination aggregate numbered one more than that aggregate's last sequence number, the
last sequence number of an aggregate being the greatest among its events; both carry `t`,
aggregate type "account", the configured schema version and the amount. The range hypotheses
keep the `int64` counters from wrapping. -/
theorem transfer_appends_two_events (s : TransactionService) (w : World) (ctx : Context)
    (req : CreateTransferRequest) (sourceLast destinationLast : Int) (hw : w.tx = none)
    (hok : (Transfer s w ctx req).2 = none) (hcommit : Committed (Transfer s w ctx req).1)
    (hsourceLast : IsLastSeq w.db req.SourceAccountID sourceLast)
    (hdestinationLast : IsLastSeq w.db req.DestinationAccountID destinationLast)
    (hsrc : int64Min ≤ sourceLast + 1 ∧ sourceLast + 1 ≤ int64Max)
    (hdst : int64Min ≤ destinationLast + 1 ∧ destinationLast + 1 ≤ int64Max) :
    ∃ debit credit : Event,
      (Transfer s w ctx req).1.db.events = w.db.events ++ [debit, credit] ∧
      debit.stamp =
        { SequenceNumber := sourceLast + 1,
          AggregateID := req.SourceAccountID, AggregateType := "account",
          TransactionID := (RequestFromContext ctx).1.TransactionID,
          Version := s.eventVersion, EventType := "balance_debited" } ∧
      ("amount", PayloadValue.decimal req.Amount) ∈ debit.EventData ∧
      credit.stamp =
        { SequenceNumber := destinationLast + 1,
          AggregateID := req.DestinationAccountID, AggregateType := "account",
          TransactionID := (RequestFromContext ctx).1.TransactionID,
          Version := s.eventVersion, EventType := "balance_credited" } ∧
      ("amount", PayloadValue.decimal req.Amount) ∈ credit.EventData := by
  rcases Transfer_cases s w ctx req hw with ⟨_, _, hnc⟩ | ⟨_, _, _, _, _, heff⟩
  · exact absurd hcommit (hnc hok)
  · have hev := TransferEffect_events heff
    rw [debitEvents_eq, creditEvents_eq, lastSeq_of_isLastSeq hsourceLast,
      lastSeq_of_isLastSeq hdestinationLast] at hev
    simp only [int64Min, int64Max] at hsrc hdst
    rw [wrapInt64_of_range (by omega) (by omega),
      wrapInt64_of_range (by omega) (by omega)] at hev
    simp only [insertEvents, List.map_cons, List.map_nil, List.append_assoc,
      List.singleton_append] at hev
    exact ⟨_, _, hev, rfl, by simp [eventRow], rfl, by simp [eventRow]⟩

theorem transfer_appends_two_events_witness :
    exampleFunded.db.events.map (fun e => (e.AggregateID, e.SequenceNumber)) =
      [(1, 1), (1, 2), (2, 1), (2, 2)] ∧
    (Transfer exampleServices.transaction exampleFunded (exampleContext "tx-b")
      ⟨1, 2, 100⟩).1.db.events.map (fun e => (e.AggregateID, e.SequenceNumber)) =
      [(1, 1), (1, 2), (2, 1), (2, 2), (1, 3), (2, 3)] ∧
    ∃ debit credit : Event,
      (Transfer exampleServices.transaction exampleFunded (exampleContext "tx-b")
        ⟨1, 2, 100⟩).1.db.events = exampleFunded.db.events ++ [debit, credit] ∧
      debit.stamp =
        { SequenceNumber := 3,
          AggregateID := 1, AggregateType := "account", TransactionID := "tx-b",
          Version := "1.0.0", EventType := "balance_debited" } ∧
      ("amount", PayloadValue.decimal 100) ∈ debit.EventData ∧
      credit.stamp =
        { SequenceNumber := 3,
          AggregateID := 2, AggregateType := "account", TransactionID := "tx-b",
          Version := "1.0.0", EventType := "balance_credited" } ∧
      ("amount", PayloadValue.decimal 100) ∈ credit.EventData :=
  ⟨by decide, by decide,
    transfer_appends_two_events exampleServices.transaction exampleFunded
      (exampleContext "tx-b") ⟨1, 2, 100⟩ 2 2 rfl (by decide) ⟨⟨2⟩, by decide⟩
      (by decide) (by decide) (by decide) (by decide)⟩

/-- C14 fails on the code: in the transfer of 100.00 from account `1` to account `2` the
`balance_debited` event of aggregate `1` carries `destination_account_id = 1` (not `2`) and the
`balance_credited` event of aggregate `2` carries `source_account_id = 2` (not `1`): `Transfer`
passes each collector its own account ID where the counterparty's is expected. -/
theorem transfer_payload_carries_own_id :
    (Transfer exampleServices.transaction exampleFunded (exampleContext "tx-b")
      ⟨1, 2, 100⟩).2 = none ∧
    ((Transfer exampleServices.transaction exampleFunded (exampleContext "tx-b")
      ⟨1, 2, 100⟩).1.db.events.drop exampleFunded.db.events.length).map
        (fun e => (e.AggregateID, e.EventType, e.EventData)) =
      [(1, "balance_debited",
          [("destination_account_id", .int64 1), ("amount", .decimal 100)]),
       (2, "balance_credited",
          [("source_account_id", .int64 2), ("amount", .decimal 100)])] := by decide

theorem FindByIDForUpdateTx_world (w : World) (h : Tx) (id : Int) :
    (∃ a, FindByIDForUpdateTx w h id = (w.record (.findByIDForUpdateTx h id) none, .ok a)) ∨
    (∃ e, FindByIDForUpdateTx w h id =
      (w.record (.findByIDForUpdateTx h id) (some e), .error e)) := by
  unfold FindByIDForUpdateTx
  split
  · exact Or.inr ⟨_, rfl⟩
  · split <;> (try split) <;>
      first
      | exact Or.inl ⟨_, rfl⟩
      | exact Or.inr ⟨_, rfl⟩

theorem UpsertTx_trace {w : World} {tx : Option Tx} {a : Account} {r : World × Option Error}
    (hr : UpsertTx w tx a = r) : ∃ x, r.1.trace = w.trace ++ [x] := by
  subst hr
  unfold UpsertTx
  split
  · exact ⟨_, rfl⟩
  · split
    · exact ⟨_, rfl⟩
    · split <;> exact ⟨_, rfl⟩

/-- In every run of `processTransfer` the first store call is the locked lookup of the
source; the destination is looked up right after it, and only when the source was found. -/
theorem processTransfer_lookup_order (v : World) (h : Tx) (req : CreateTransferRequest) :
    (∃ e, (processTransfer v h req).1.trace = v.trace ++
        [⟨.findByIDForUpdateTx h req.SourceAccountID, some e⟩]) ∨
    (∃ r rest, (processTransfer v h req).1.trace = v.trace ++
        ⟨.findByIDForUpdateTx h req.SourceAccountID, none⟩ ::
        ⟨.findByIDForUpdateTx h req.DestinationAccountID, r⟩ :: rest) := by
  generalize hr : processTransfer v h req = r
  unfold processTransfer at hr
  rcases FindByIDForUpdateTx_world v h req.SourceAccountID with ⟨src, h1⟩ | ⟨e1, h1⟩ <;>
    rw [h1] at hr <;> dsimp only at hr
  swap
  · left
    refine ⟨e1, ?_⟩
    split at hr <;> subst hr <;> simp
  right
  rcases FindByIDForUpdateTx_world (v.record (.findByIDForUpdateTx h req.SourceAccountID) none)
    h req.DestinationAccountID with ⟨dst, h2⟩ | ⟨e2, h2⟩ <;>
    rw [h2] at hr <;> dsimp only at hr
  swap
  · refine ⟨some e2, [], ?_⟩
    split at hr <;> subst hr <;> simp
  split at hr
  · subst hr
    exact ⟨none, [], by simp⟩
  generalize hW : (timeNow (timeNow ((v.record (.findByIDForUpdateTx h req.SourceAccountID)
    none).record (.findByIDForUpdateTx h req.DestinationAccountID) none)).2).2 = W at hr
  have hWt : W.trace = v.trace ++ [⟨.findByIDForUpdateTx h req.SourceAccountID, none⟩,
      ⟨.findByIDForUpdateTx h req.DestinationAccountID, none⟩] := by
    rw [← hW]; simp
  split at hr
  · rename_i hx
    obtain ⟨x1, hu1⟩ := UpsertTx_trace hx
    subst hr
    exact ⟨none, [x1], by dsimp only at hu1; simp [hu1, hWt]⟩
  · rename_i hx
    obtain ⟨x1, hu1⟩ := UpsertTx_trace hx
    split at hr <;> rename_i hy <;> obtain ⟨x2, hu2⟩ := UpsertTx_trace hy <;> subst hr <;>
      exact ⟨none, [x1, x2], by dsimp only at hu1 hu2; simp [hu2, hu1, hWt]⟩

theorem processTransfer_source_missing {w v : World} {k : Nat} {h : Tx} {l : Ledger}
    (hv : InTx w v k h l) (req : CreateTransferRequest)
    (hs : selectAccount l req.SourceAccountID = none) (hf0 : w.faultAt k = none) :
    processTransfer v h req =
      (v.record (.findByIDForUpdateTx h req.SourceAccountID)
        (some (.wrap "account not found" ErrRecordNotFound)),
        some (.wrap "failed to find account" ErrSourceAccountNotFound)) := by
  unfold processTransfer
  rw [FindByIDForUpdateTx_of_fault_none hv.1 _ (hv.faultIs.trans hf0), hs]
  simp [errorsIs, ErrRecordNotFound]

theorem processTransfer_destination_missing {w v : World} {k : Nat} {h : Tx} {l : Ledger}
    (hv : InTx w v k h l) (req : CreateTransferRequest) {src : Account}
    (hs : selectAccount l req.SourceAccountID = some src)
    (hd : selectAccount l req.DestinationAccountID = none)
    (hf0 : w.faultAt k = none) (hf1 : w.faultAt (k + 1) = none) :
    processTransfer v h req =
      ((v.record (.findByIDForUpdateTx h req.SourceAccountID) none).record
        (.findByIDForUpdateTx h req.DestinationAccountID)
        (some (.wrap "account not found" ErrRecordNotFound)),
        some (.wrap "failed to find account" ErrDestinationAccountNotFound)) := by
  unfold processTransfer
  rw [FindByIDForUpdateTx_of_fault_none hv.1 _ (hv.faultIs.trans hf0), hs]
  dsimp only
  have hv1 := hv.recorded (.findByIDForUpdateTx h req.SourceAccountID) none
  rw [FindByIDForUpdateTx_of_fault_none hv1.1 _ (hv1.faultIs.trans hf1), hd]
  simp [errorsIs, ErrRecordNotFound]

/-- C12. For a `Transfer` that passes its preconditions and flushes both event batches (the
store calls up to the locked lookups meet no driver failure): when the source has no row the
returned error wraps `ErrSourceAccountNotFound`, whether or not the destination has one, and
the destination is not looked up; when the source has a row and the destination has none the
returned error wraps `ErrDestinationAccountNotFound`, whatever the source balance. The two
errors are distinct, and in every run of `processTransfer` the source is looked up before the
destination. -/
theorem transfer_account_not_found (s : TransactionService) (w : World) (ctx : Context)
    (req : CreateTransferRequest)
    (hfresh : (getRequestContext w ctx s.requestTimeThreshold).2.2 = none)
    (hunused : ∀ ev ∈ w.db.events,
      ev.TransactionID ≠ (RequestFromContext ctx).1.TransactionID)
    (hsd : req.SourceAccountID ≠ req.DestinationAccountID)
    (hclean : ∀ k, k < 8 → w.faultAt k = none) :
    (selectAccount w.db req.SourceAccountID = none →
      (Transfer s w ctx req).2 = some (.wrap "failed to process transfer"
        (.wrap "failed to process transfer"
          (.wrap "failed to find account" ErrSourceAccountNotFound))) ∧
      ∃ before h r, (Transfer s w ctx req).1.trace = before ++
        [⟨.findByIDForUpdateTx h req.SourceAccountID,
            some (.wrap "account not found" ErrRecordNotFound)⟩,
         ⟨.rollback h, r⟩]) ∧
    (∀ src, selectAccount w.db req.SourceAccountID = some src →
      selectAccount w.db req.DestinationAccountID = none →
      (Transfer s w ctx req).2 = some (.wrap "failed to process transfer"
        (.wrap "failed to process transfer"
          (.wrap "failed to find account" ErrDestinationAccountNotFound))) ∧
      ∃ before h r, (Transfer s w ctx req).1.trace = before ++
        [⟨.findByIDForUpdateTx h req.SourceAccountID, none⟩,
         ⟨.findByIDForUpdateTx h req.DestinationAccountID,
            some (.wrap "account not found" ErrRecordNotFound)⟩,
         ⟨.rollback h, r⟩]) ∧
    (∀ context : String,
      errorsIs (.wrap context ErrSourceAccountNotFound) ErrSourceAccountNotFound = true ∧
      errorsIs (.wrap context ErrSourceAccountNotFound) ErrDestinationAccountNotFound = false ∧
      errorsIs (.wrap context ErrDestinationAccountNotFound) ErrDestinationAccountNotFound =
        true ∧
      errorsIs (.wrap context ErrDestinationAccountNotFound) ErrSourceAccountNotFound = false) ∧
    ErrSourceAccountNotFound ≠ ErrDestinationAccountNotFound ∧
    (∀ (v : World) (h : Tx),
      (∃ e, (processTransfer v h req).1.trace = v.trace ++
          [⟨.findByIDForUpdateTx h req.SourceAccountID, some e⟩]) ∨
      (∃ r rest, (processTransfer v h req).1.trace = v.trace ++
          ⟨.findByIDForUpdateTx h req.SourceAccountID, none⟩ ::
          ⟨.findByIDForUpdateTx h req.DestinationAccountID, r⟩ :: rest)) := by
  obtain ⟨v, hv, heq⟩ := Transfer_reads (getRequestContext_of_fresh hfresh) hunused hsd
    (fun k hk => hclean k (by omega))
  obtain ⟨u, hu, htx⟩ := transferTx_places (w := v) req
    (freshCollector w.db req.SourceAccountID (RequestFromContext ctx).1.TransactionID
      s.eventVersion)
    (freshCollector w.db req.DestinationAccountID (RequestFromContext ctx).1.TransactionID
      s.eventVersion)
    (fun k hk => by rw [faultAt_of_After hv]; exact hclean _ (by omega))
  refine ⟨?_, ?_, ?_, by decide, fun v h => processTransfer_lookup_order v h req⟩
  · intro hs
    have hp := processTransfer_source_missing hu req
      (by rw [selectAccount_insertEvents, selectAccount_insertEvents, hv.1]; exact hs)
      (by rw [faultAt_of_After hv]; exact hclean _ (by omega))
    rw [heq, htx, hp]
    dsimp only
    obtain ⟨r, hrb⟩ := Rollback_cases
      (w := u.record (.findByIDForUpdateTx ⟨v.txCount⟩ req.SourceAccountID)
        (some (.wrap "account not found" ErrRecordNotFound))) hu.1
    rw [hrb]
    exact ⟨rfl, u.trace, ⟨v.txCount⟩, r, by simp⟩
  · intro src hs hd
    have hp := processTransfer_destination_missing hu req
      (by rw [selectAccount_insertEvents, selectAccount_insertEvents, hv.1]; exact hs)
      (by rw [selectAccount_insertEvents, selectAccount_insertEvents, hv.1]; exact hd)
      (by rw [faultAt_of_After hv]; exact hclean _ (by omega))
      (by rw [faultAt_of_After hv]; exact hclean _ (by omega))
    rw [heq, htx, hp]
    dsimp only
    obtain ⟨r, hrb⟩ := Rollback_cases
      (w := (u.record (.findByIDForUpdateTx ⟨v.txCount⟩ req.SourceAccountID) none).record
        (.findByIDForUpdateTx ⟨v.txCount⟩ req.DestinationAccountID)
        (some (.wrap "account not found" ErrRecordNotFound))) hu.1
    rw [hrb]
    exact ⟨rfl, u.trace, ⟨v.txCount⟩, r, by simp⟩
  · intro context
    simp [errorsIs, ErrSourceAccountNotFound, ErrDestinationAccountNotFound]

theorem transfer_account_not_found_witness :
    ((Transfer exampleServices.transaction emptyWorld (exampleContext "tx-b")
        ⟨1, 2, 100⟩).2 = some (.wrap "failed to process transfer"
        (.wrap "failed to process transfer"
          (.wrap "failed to find account" ErrSourceAccountNotFound))) ∧
      ∃ before h r, (Transfer exampleServices.transaction emptyWorld (exampleContext "tx-b")
        ⟨1, 2, 100⟩).1.trace = before ++
        [⟨.findByIDForUpdateTx h 1, some (.wrap "account not found" ErrRecordNotFound)⟩,
         ⟨.rollback h, r⟩]) ∧
    ((Transfer exampleServices.transaction exampleOpened (exampleContext "tx-b")
        ⟨1, 2, 5000⟩).2 = some (.wrap "failed to process transfer"
        (.wrap "failed to process transfer"
          (.wrap "failed to find account" ErrDestinationAccountNotFound))) ∧
      ∃ before h r, (Transfer exampleServices.transaction exampleOpened (exampleContext "tx-b")
        ⟨1, 2, 5000⟩).1.trace = before ++
        [⟨.findByIDForUpdateTx h 1, none⟩,
         ⟨.findByIDForUpdateTx h 2, some (.wrap "account not found" ErrRecordNotFound)⟩,
         ⟨.rollback h, r⟩]) :=
  ⟨(transfer_account_not_found exampleServices.transaction emptyWorld (exampleContext "tx-b")
      ⟨1, 2, 100⟩ (by decide) (by decide) (by decide) (fun k _ => emptyWorld_healthy k)).1
      (by decide),
    (transfer_account_not_found exampleServices.transaction exampleOpened
      (exampleContext "tx-b") ⟨1, 2, 5000⟩ (by decide) (by decide) (by decide)
      (fun k _ => exampleOpened_healthy k)).2.1 { ID := 1, Balance := 1000 } (by decide)
      (by decide)⟩

/-- With a threshold strictly between the two extreme durations, the check of
`getRequestContext` is exactly `|now - ts| > threshold`. -/
theorem getRequestContext_window (w : World) (ctx : Context) (rc : RequestContext) (thr : Int)
    (hctx : RequestFromContext ctx = (rc, true))
    (hthr : int64Min < thr ∧ thr < int64Max) :
    (getRequestContext w ctx thr).2 =
      if |(timeNow w).1 - rc.Timestamp| > thr then ({}, some ErrInvalidRequestTime)
      else (rc, none) := by
  unfold getRequestContext
  rw [hctx]
  dsimp only
  have hwrap : wrapInt64 (-thr) = -thr := by
    unfold int64Min int64Max at hthr
    unfold wrapInt64
    omega
  rw [hwrap]
  have hiff : (timeSub (timeNow w).1 rc.Timestamp > thr ∨
      timeSub (timeNow w).1 rc.Timestamp < -thr) ↔ |(timeNow w).1 - rc.Timestamp| > thr := by
    unfold int64Min int64Max at hthr
    unfold timeSub int64Min int64Max
    rcases abs_cases ((timeNow w).1 - rc.Timestamp) with ⟨h, _⟩ | ⟨h, _⟩ <;> rw [h] <;>
      split_ifs <;> omega
  by_cases hc : |(timeNow w).1 - rc.Timestamp| > thr
  · rw [if_pos (hiff.mpr hc), if_pos hc]
  · rw [if_neg (fun h => hc (hiff.mp h)), if_neg hc]

/-- C20 (amended). For every context carrying a request context with timestamp `ts`, every
current time `now` and every threshold strictly between the least and the greatest `int64`
duration, `getRequestContext` fails with `ErrInvalidRequestTime` if and only if
`|now - ts| > threshold`, and otherwise returns the carried request context unchanged; with
a threshold that is not negative a request timestamped exactly the threshold before or after
`now` is accepted, and one nanosecond beyond the threshold it is rejected. -/
theorem request_time_window (w : World) (ctx : Context) (rc : RequestContext) (thr : Int)
    (hctx : RequestFromContext ctx = (rc, true))
    (hthr : int64Min < thr ∧ thr < int64Max) :
    ((getRequestContext w ctx thr).2.2 = some ErrInvalidRequestTime ↔
      |(timeNow w).1 - rc.Timestamp| > thr) ∧
    (¬ |(timeNow w).1 - rc.Timestamp| > thr → (getRequestContext w ctx thr).2 = (rc, none)) ∧
    (0 ≤ thr →
      ((timeNow w).1 - rc.Timestamp = thr ∨ rc.Timestamp - (timeNow w).1 = thr) →
      (getRequestContext w ctx thr).2 = (rc, none)) ∧
    (((timeNow w).1 - rc.Timestamp = thr + 1 ∨ rc.Timestamp - (timeNow w).1 = thr + 1) →
      (getRequestContext w ctx thr).2.2 = some ErrInvalidRequestTime) := by
  have h := getRequestContext_window w ctx rc thr hctx hthr
  refine ⟨?_, ?_, ?_, ?_⟩
  · rw [h]
    by_cases hc : |(timeNow w).1 - rc.Timestamp| > thr
    · simp [hc]
    · simp [hc]
  · intro hc
    rw [h, if_neg hc]
  · intro h0 hb
    rw [h, if_neg]
    rcases abs_cases ((timeNow w).1 - rc.Timestamp) with ⟨ha, _⟩ | ⟨ha, _⟩ <;> rw [ha] <;>
      omega
  · intro hb
    rw [h, if_pos]
    rcases abs_cases ((timeNow w).1 - rc.Timestamp) with ⟨ha, _⟩ | ⟨ha, _⟩ <;> rw [ha] <;>
      omega

theorem request_time_window_witness :
    ((getRequestContext { emptyWorld with now := 30000000000 } (exampleContext "tx-a")
        30000000000).2 = ({ Timestamp := 0, TransactionID := "tx-a" }, none)) ∧
    ((getRequestContext { emptyWorld with now := 30000000001 } (exampleContext "tx-a")
        30000000000).2.2 = some ErrInvalidRequestTime) :=
  ⟨(request_time_window { emptyWorld with now := 30000000000 } (exampleContext "tx-a")
      { Timestamp := 0, TransactionID := "tx-a" } 30000000000 (by decide)
      (by decide)).2.2.1 (by decide) (Or.inl (by decide)),
    (request_time_window { emptyWorld with now := 30000000001 } (exampleContext "tx-a")
      { Timestamp := 0, TransactionID := "tx-a" } 30000000000 (by decide)
      (by decide)).2.2.2 (Or.inl (by decide))⟩

/-- C20, as stated, fails at the two extreme thresholds. With the greatest duration as
threshold a request more than that duration old is accepted, because `Time.Sub` saturates;
with the least duration as threshold, whose negation wraps to itself, a request timestamped
that far after `now` is accepted. In both runs `|now - ts| > threshold`. -/
theorem request_time_window_counterexample :
    ((getRequestContext { emptyWorld with now := 9223372036854775808 } (exampleContext "tx-a")
        int64Max).2 = ({ Timestamp := 0, TransactionID := "tx-a" }, none) ∧
      |(9223372036854775808 : Int) - 0| > int64Max) ∧
    ((getRequestContext { emptyWorld with now := -9223372036854775808 }
        (exampleContext "tx-a") int64Min).2 =
          ({ Timestamp := 0, TransactionID := "tx-a" }, none) ∧
      |(-9223372036854775808 : Int) - 0| > int64Min) := by
  refine ⟨⟨by decide, by decide⟩, ⟨by decide, by decide⟩⟩

/-- C27. When the context carries no request context under the key of the `dto` package (no
binding for the key, or a binding of another type; a binding under a key of another type does
not count), `getRequestContext` returns the zero request context and a non-nil error that is
not `ErrInvalidRequestTime`, whatever the threshold and the clock; and whenever
`getRequestContext` returns an error, the request context it returns is the zero value. -/
theorem missing_request_context (w : World) (ctx : Context) (thr : Int)
    (hmissing : ∀ rc, ctx.lookup requestContextKey ≠ some (.requestContext rc)) :
    getRequestContext w ctx thr = (w, {}, some (.text "request context not found")) ∧
    Error.text "request context not found" ≠ ErrInvalidRequestTime ∧
    errorsIs (.text "request context not found") ErrInvalidRequestTime = false ∧
    (∀ (v : World) (other : Context) (threshold : Int) (e : Error),
      (getRequestContext v other threshold).2.2 = some e →
      (getRequestContext v other threshold).2.1 = {}) := by
  refine ⟨?_, by decide, by decide, ?_⟩
  · unfold getRequestContext RequestFromContext
    cases h : ctx.lookup requestContextKey with
    | none => rfl
    | some v =>
      cases v with
      | requestContext rc => exact absurd h (hmissing rc)
      | other d => rfl
  · intro v other threshold e he
    unfold getRequestContext at he ⊢
    split
    · rfl
    · rename_i heq
      rw [heq] at he
      dsimp only at he ⊢
      split
      · rfl
      · rename_i hc
        rw [if_neg hc] at he
        simp at he

theorem missing_request_context_witness :
    (getRequestContext emptyWorld [] 30000000000 =
        (emptyWorld, {}, some (.text "request context not found")) ∧
      getRequestContext emptyWorld
        [(.foreign "request_context", .requestContext { TransactionID := "tx-a" })] 0 =
        (emptyWorld, {}, some (.text "request context not found"))) ∧
    getRequestContext emptyWorld
        [(requestContextKey, .other "a string"),
         (requestContextKey, .requestContext { TransactionID := "tx-a" })] (-1) =
      (emptyWorld, {}, some (.text "request context not found")) :=
  ⟨⟨(missing_request_context emptyWorld [] 30000000000 (by simp)).1,
    (missing_request_context emptyWorld
      [(.foreign "request_context", .requestContext { TransactionID := "tx-a" })] 0
      (fun rc => by
        rw [show List.lookup requestContextKey
          [(CtxKey.foreign "request_context",
            CtxValue.requestContext { TransactionID := "tx-a" })] = none from by decide]
        simp)).1⟩,
    (missing_request_context emptyWorld
      [(requestContextKey, .other "a string"),
       (requestContextKey, .requestContext { TransactionID := "tx-a" })] (-1)
      (by simp [List.lookup])).1⟩

/-- C28 fails on the code: the callback returns no error, the commit fails, and
`WithTransaction` returns nil all the same. First on `WithTransaction` itself with a callback
that does nothing; then on `CreateAccount`, which reports success although its commit failed and
neither the events nor the account row were stored. -/
theorem commit_error_is_lost :
    ((WithTransaction { emptyWorld with faults := [(1, ⟨.exec, .text "connection reset by peer"⟩)] }
        (fun v _ => (v, none))).2 = none ∧
      (WithTransaction { emptyWorld with faults := [(1, ⟨.exec, .text "connection reset by peer"⟩)] }
        (fun v _ => (v, none))).1.trace =
        [⟨.beginTx, none⟩, ⟨.commit ⟨0⟩, some (.text "connection reset by peer")⟩]) ∧
    ((CreateAccount exampleServices.account exampleBrokenCommit (exampleContext "tx-a")
        ⟨1, 1000⟩).2 = none ∧
      (CreateAccount exampleServices.account exampleBrokenCommit (exampleContext "tx-a")
        ⟨1, 1000⟩).1.trace.getLast? =
        some ⟨.commit ⟨0⟩, some (.text "connection reset by peer")⟩ ∧
      (CreateAccount exampleServices.account exampleBrokenCommit (exampleContext "tx-a")
        ⟨1, 1000⟩).1.db = {}) := by
  decide

theorem hasPrefix_length : ∀ (l p : List Char), hasPrefix l p = true → p.length ≤ l.length
  | _, [], _ => by simp
  | [], _ :: _, h => by simp [hasPrefix] at h
  | c :: cs, p :: ps, h => by
    simp only [hasPrefix, Bool.and_eq_true] at h
    have := hasPrefix_length cs ps h.2
    simp only [List.length_cons]
    omega

theorem stringsContains_length : ∀ (l sub : List Char), stringsContains l sub = true →
    sub.length ≤ l.length
  | [], sub, h => by
    simp only [stringsContains, List.isEmpty_iff] at h
    simp [h]
  | c :: cs, sub, h => by
    simp only [stringsContains, Bool.or_eq_true] at h
    rcases h with h | h
    · exact hasPrefix_length _ _ h
    · have := stringsContains_length cs sub h
      simp only [List.length_cons]
      omega

theorem mapError_short_code (err : Error) (code : String) (hcode : asPqError err = some code)
    (hlen : code.length < 14) : mapError err = err := by
  have hno : stringsContains code.data "SQLSTATE 23505".data = false := by
    cases hc : stringsContains code.data "SQLSTATE 23505".data with
    | false => rfl
    | true =>
      have := stringsContains_length _ _ hc
      have h14 : "SQLSTATE 23505".data.length = 14 := by decide
      rw [h14] at this
      simp only [String.length] at hlen
      omega
  unfold mapError
  rw [hcode]
  simp [dbErrorMap, hno]

/-- C29 fails on the code: a driver error whose SQLSTATE code is `23505` is returned unchanged,
not as `ErrRecordNotUnique`, also when it arrives wrapped. The key of `dbErrorMap` is the text
"SQLSTATE 23505", fourteen characters, and `mapError` looks for it inside the driver's code, so
no code shorter than that (every SQLSTATE code has five characters) is ever mapped. -/
theorem unique_violation_is_not_mapped :
    mapError (.pq "23505" "duplicate key value violates unique constraint") =
      .pq "23505" "duplicate key value violates unique constraint" ∧
    mapError (.pq "23505" "duplicate key value violates unique constraint") ≠
      ErrRecordNotUnique ∧
    mapError (.wrap "failed to exec statement"
        (.pq "23505" "duplicate key value violates unique constraint")) ≠ ErrRecordNotUnique ∧
    (∀ code message : String, code.length < 14 →
      mapError (.pq code message) = .pq code message) := by
  refine ⟨mapError_short_code _ "23505" rfl (by decide), ?_, ?_,
    fun code message hlen => mapError_short_code _ code rfl hlen⟩
  · rw [mapError_short_code
      (.pq "23505" "duplicate key value violates unique constraint") "23505" rfl (by decide)]
    simp [ErrRecordNotUnique]
  · rw [mapError_short_code (.wrap "failed to exec statement"
      (.pq "23505" "duplicate key value violates unique constraint")) "23505" rfl (by decide)]
    simp [ErrRecordNotUnique]

theorem BeginTx_trace (w : World) :
    (BeginTx w).1.trace = w.trace ++
      [⟨.beginTx, match (BeginTx w).2 with | .error e => some e | .ok _ => none⟩] := by
  unfold BeginTx
  split <;> rfl

theorem Commit_trace (w : World) (h : Tx) :
    (Commit w h).1.trace = w.trace ++ [⟨.commit h, (Commit w h).2⟩] := by
  unfold Commit
  split
  · rfl
  · split <;> rfl

theorem Rollback_trace (w : World) (h : Tx) :
    (Rollback w h).1.trace = w.trace ++ [⟨.rollback h, (Rollback w h).2⟩] := by
  unfold Rollback
  split
  · rfl
  · split <;> rfl

/-- C22. `WithTransaction`: when beginning the transaction fails, the result is an error
wrapping that failure and is the same whatever the callback is, with the failed `BeginTx` as
the only store call (the callback is never run). When the callback returns an error, the one
store call made after it is `Rollback` (no commit), that same error is returned, and the rows
the callback wrote in its transaction are discarded. When the callback returns no error, the
one store call made after it is `Commit` (no rollback), and unless the driver fails that commit
the rows the callback wrote are published. -/
theorem with_transaction_dispatch (w : World) (f : World → Tx → World × Option Error) :
    (∀ e, (BeginTx w).2 = .error e →
      WithTransaction w f = ((BeginTx w).1, some (.wrap "failed to begin transaction" e)) ∧
      (∀ g : World → Tx → World × Option Error, WithTransaction w g = WithTransaction w f) ∧
      (WithTransaction w f).1.trace = w.trace ++ [⟨.beginTx, some e⟩] ∧
      (WithTransaction w f).1.db = w.db) ∧
    (∀ h, (BeginTx w).2 = .ok h →
      (∀ err, (f (BeginTx w).1 h).2 = some err →
        (WithTransaction w f).2 = some err ∧
        (WithTransaction w f).1 = (Rollback (f (BeginTx w).1 h).1 h).1 ∧
        (WithTransaction w f).1.trace =
          (f (BeginTx w).1 h).1.trace ++
            [⟨.rollback h, (Rollback (f (BeginTx w).1 h).1 h).2⟩] ∧
        (∀ l, (f (BeginTx w).1 h).1.tx = some (h, l) →
          (WithTransaction w f).1.db = (f (BeginTx w).1 h).1.db ∧
          (WithTransaction w f).1.tx = none)) ∧
      ((f (BeginTx w).1 h).2 = none →
        (WithTransaction w f).1 = (Commit (f (BeginTx w).1 h).1 h).1 ∧
        (WithTransaction w f).1.trace =
          (f (BeginTx w).1 h).1.trace ++
            [⟨.commit h, (Commit (f (BeginTx w).1 h).1 h).2⟩] ∧
        (∀ l, (f (BeginTx w).1 h).1.tx = some (h, l) →
          (f (BeginTx w).1 h).1.fault = none →
          (WithTransaction w f).1.db = l ∧ (WithTransaction w f).1.tx = none))) := by
  have hbt := BeginTx_trace w
  have hbdb : ∀ e, (BeginTx w).2 = .error e → (BeginTx w).1.db = w.db := by
    intro e he
    unfold BeginTx at he ⊢
    split
    · rfl
    · rename_i hf
      rw [hf] at he
      simp at he
  unfold WithTransaction
  rcases hb : BeginTx w with ⟨w1, e | h⟩ <;> rw [hb] at hbt hbdb <;> dsimp only at hbt hbdb ⊢
  · refine ⟨?_, fun h hh => by simp at hh⟩
    intro e1 he1
    simp only [Except.error.injEq] at he1
    subst he1
    exact ⟨rfl, fun g => rfl, hbt, hbdb e rfl⟩
  · refine ⟨fun e he => by simp at he, ?_⟩
    intro h1 hh1
    simp only [Except.ok.injEq] at hh1
    subst hh1
    rcases hf : f w1 h with ⟨w2, _ | err⟩
    · refine ⟨fun err herr => by simp at herr, fun _ => ⟨rfl, Commit_trace w2 h, ?_⟩⟩
      intro l hl hfault
      dsimp only at hl hfault ⊢
      rw [Commit_of_fault_none hl hfault]
      exact ⟨rfl, rfl⟩
    · refine ⟨?_, fun hn => by simp at hn⟩
      intro err1 herr1
      simp only [Option.some.injEq] at herr1
      subst herr1
      refine ⟨rfl, rfl, Rollback_trace w2 h, ?_⟩
      intro l hl
      dsimp only at hl ⊢
      obtain ⟨r, hr⟩ := Rollback_cases hl
      rw [hr]
      exact ⟨rfl, rfl⟩

theorem exec_events (svc : Services) (w : World) (c : Call) (hw : w.tx = none) :
    (exec svc w c).1.tx = none ∧
    ∃ added, (exec svc w c).1.db.events = w.db.events ++ added := by
  rcases exec_cases svc w c hw with ⟨ctx, req, _, hout⟩ | ⟨ctx, req, _, hout⟩
  · rcases hout with ⟨htx, hdb, _⟩ | ⟨htx, _, _, _, _, t1, t2, hdb⟩
    · exact ⟨htx, [], by rw [hdb]; simp⟩
    · exact ⟨htx, _, by rw [hdb, upsertAccount_events]; rfl⟩
  · rcases hout with ⟨htx, hdb, _⟩ | ⟨htx, _, _, _, _, heff⟩
    · exact ⟨htx, [], by rw [hdb]; simp⟩
    · have hev := TransferEffect_events heff
      simp only [insertEvents, List.append_assoc] at hev
      exact ⟨htx, _, hev⟩

theorem run_events (svc : Services) (calls : List Call) :
    ∀ w : World, w.tx = none →
      ∃ added, (run svc w calls).db.events = w.db.events ++ added := by
  induction calls with
  | nil => intro w _; exact ⟨[], by simp [run]⟩
  | cons c cs ih =>
    intro w hw
    obtain ⟨htx, a1, h1⟩ := exec_events svc w c hw
    obtain ⟨a2, h2⟩ := ih (exec svc w c).1 htx
    exact ⟨a1 ++ a2, by simp only [run]; rw [h2, h1, List.append_assoc]⟩

/-- C24. The event log is append-only. For every `CreateAccount` or `Transfer` call started
with no transaction open, whatever it returns and whatever driver failures it meets, the event
log after the call is the event log before the call followed by the events the call added (none
when it fails): every earlier event is still there, in place, with all its fields. The same
holds across any sequence of calls. -/
theorem event_log_append_only (svc : Services) (w : World) (hw : w.tx = none) :
    (∀ c : Call, ∃ added, (exec svc w c).1.db.events = w.db.events ++ added) ∧
    (∀ c : Call, (exec svc w c).2 ≠ none → (exec svc w c).1.db.events = w.db.events) ∧
    (∀ calls : List Call, ∃ added, (run svc w calls).db.events = w.db.events ++ added) ∧
    (∀ (calls : List Call) (i : Nat) (ev : Event), w.db.events[i]? = some ev →
      (run svc w calls).db.events[i]? = some ev) := by
  refine ⟨fun c => (exec_events svc w c hw).2, ?_, fun calls => run_events svc calls w hw, ?_⟩
  · intro c hfail
    rcases exec_cases svc w c hw with ⟨ctx, req, _, hout⟩ | ⟨ctx, req, _, hout⟩
    · rcases hout with ⟨_, hdb, _⟩ | ⟨_, hn, _⟩
      · rw [hdb]
      · exact absurd hn hfail
    · rcases hout with ⟨_, hdb, _⟩ | ⟨_, hn, _⟩
      · rw [hdb]
      · exact absurd hn hfail
  · intro calls i ev hi
    obtain ⟨added, hadd⟩ := run_events svc calls w hw
    rw [hadd]
    have hlt : i < w.db.events.length := by
      by_contra hge
      rw [List.getElem?_eq_none (by omega)] at hi
      simp at hi
    rw [List.getElem?_append_left hlt]
    exact hi

theorem event_log_append_only_witness :
    (∀ c : Call, ∃ added, (exec exampleServices exampleFunded c).1.db.events =
      exampleFunded.db.events ++ added) ∧
    (∀ c : Call, (exec exampleServices exampleFunded c).2 ≠ none →
      (exec exampleServices exampleFunded c).1.db.events = exampleFunded.db.events) ∧
    (∀ calls : List Call, ∃ added, (run exampleServices exampleFunded calls).db.events =
      exampleFunded.db.events ++ added) ∧
    (∀ (calls : List Call) (i : Nat) (ev : Event), exampleFunded.db.events[i]? = some ev →
      (run exampleServices exampleFunded calls).db.events[i]? = some ev) :=
  event_log_append_only exampleServices exampleFunded (by decide)

theorem upsertAccount_of_mem {l : Ledger} {a : Account}
    (h : ∃ row ∈ l.accounts, row.ID = a.ID) :
    (upsertAccount l a).accounts = l.accounts.map (fun r =>
      if r.ID = a.ID then { r with Balance := a.Balance, UpdatedAt := a.UpdatedAt } else r) := by
  unfold upsertAccount
  have hany : l.accounts.any (fun r => decide (r.ID = a.ID)) = true := by
    obtain ⟨row, hrow, hid⟩ := h
    simp only [List.any_eq_true, decide_eq_true_eq]
    exact ⟨row, hrow, hid⟩
  rw [if_pos hany]

/-- C30. A `Transfer` from `S` to `D` that succeeded (returned no error and committed) wrote
two account rows, whose IDs are `S` and `D`, and appended two events, one of aggregate `S` and
one of aggregate `D`. The account table keeps its rows in place with their IDs, every row whose
ID is neither `S` nor `D` is unchanged in all its fields, and the events of every aggregate
other than `S` and `D` are the same as before. -/
theorem transfer_touches_two_accounts (s : TransactionService) (w : World) (ctx : Context)
    (req : CreateTransferRequest) (hw : w.tx = none)
    (hok : (Transfer s w ctx req).2 = none) (hcommit : Committed (Transfer s w ctx req).1) :
    (∃ (sourceRow destinationRow : Account) (debit credit : Event),
      sourceRow.ID = req.SourceAccountID ∧ destinationRow.ID = req.DestinationAccountID ∧
      debit.AggregateID = req.SourceAccountID ∧ credit.AggregateID = req.DestinationAccountID ∧
      (Transfer s w ctx req).1.db.events = w.db.events ++ [debit, credit] ∧
      (Transfer s w ctx req).1.db.accounts =
        (upsertAccount (upsertAccount w.db sourceRow) destinationRow).accounts) ∧
    (∃ update : Account → Account,
      (∀ a, (update a).ID = a.ID) ∧
      (∀ a, a.ID ≠ req.SourceAccountID → a.ID ≠ req.DestinationAccountID → update a = a) ∧
      (Transfer s w ctx req).1.db.accounts = w.db.accounts.map update) ∧
    (∀ id, id ≠ req.SourceAccountID → id ≠ req.DestinationAccountID →
      selectAccount (Transfer s w ctx req).1.db id = selectAccount w.db id ∧
      (Transfer s w ctx req).1.db.events.filter (fun e => decide (e.AggregateID = id)) =
        w.db.events.filter (fun e => decide (e.AggregateID = id))) := by
  rcases Transfer_cases s w ctx req hw with ⟨_, _, hnc⟩ | ⟨_, _, _, hsd, _, heff⟩
  · exact absurd hcommit (hnc hok)
  · have hev := TransferEffect_events heff
    rw [debitEvents_eq, creditEvents_eq] at hev
    simp only [insertEvents, List.map_cons, List.map_nil, List.append_assoc,
      List.singleton_append] at hev
    obtain ⟨src, dst, t1, t2, hs, hd, _, hdb⟩ := heff
    rw [selectAccount_insertEvents, selectAccount_insertEvents] at hs hd
    obtain ⟨hsid, srow, hsrow, hsrid, _⟩ := selectAccount_some hs
    obtain ⟨hdid, drow, hdrow, hdrid, _⟩ := selectAccount_some hd
    have hacc : (Transfer s w ctx req).1.db.accounts =
        (upsertAccount (upsertAccount w.db
          { src with Balance := src.Balance - req.Amount, UpdatedAt := t1 })
          { dst with Balance := dst.Balance + req.Amount, UpdatedAt := t2 }).accounts := by
      rw [hdb]
      unfold upsertAccount insertEvents
      dsimp only
      split <;> split <;> rfl
    have h1 : (upsertAccount w.db
          { src with Balance := src.Balance - req.Amount, UpdatedAt := t1 }).accounts =
        w.db.accounts.map (fun r =>
          if r.ID = req.SourceAccountID then
            { r with Balance := src.Balance - req.Amount, UpdatedAt := t1 } else r) := by
      rw [upsertAccount_of_mem ⟨srow, hsrow, by rw [hsrid]; exact hsid.symm⟩]
      simp only [hsid]
    have h2 : (upsertAccount (upsertAccount w.db
          { src with Balance := src.Balance - req.Amount, UpdatedAt := t1 })
          { dst with Balance := dst.Balance + req.Amount, UpdatedAt := t2 }).accounts =
        (w.db.accounts.map (fun r =>
          if r.ID = req.SourceAccountID then
            { r with Balance := src.Balance - req.Amount, UpdatedAt := t1 } else r)).map
          (fun r => if r.ID = req.DestinationAccountID then
            { r with Balance := dst.Balance + req.Amount, UpdatedAt := t2 } else r) := by
      rw [upsertAccount_of_mem, h1]
      · simp only [hdid]
      · rw [h1]
        refine ⟨_, List.mem_map_of_mem _ hdrow, ?_⟩
        have : ¬ drow.ID = req.SourceAccountID := by
          rw [hdrid]; exact fun h => hsd h.symm
        simp only [if_neg this]
        rw [hdrid]; exact hdid.symm
    refine ⟨⟨{ src with Balance := src.Balance - req.Amount, UpdatedAt := t1 },
      { dst with Balance := dst.Balance + req.Amount, UpdatedAt := t2 }, _, _,
      hsid, hdid, rfl, rfl, hev, hacc⟩, ?_, ?_⟩
    · refine ⟨fun a => (fun r : Account => if r.ID = req.DestinationAccountID then
          { r with Balance := dst.Balance + req.Amount, UpdatedAt := t2 } else r)
          ((fun r : Account => if r.ID = req.SourceAccountID then
            { r with Balance := src.Balance - req.Amount, UpdatedAt := t1 } else r) a),
        ?_, ?_, ?_⟩
      · intro a
        dsimp only
        split <;> split <;> rfl
      · intro a ha1 ha2
        simp [ha1, ha2]
      · rw [hacc, h2, List.map_map]
        rfl
    · intro id h1 h2
      refine ⟨?_, ?_⟩
      · rw [hdb, selectAccount_upsertAccount, selectAccount_upsertAccount]
        simp [hsid, hdid, h1, h2, selectAccount_insertEvents]
      · rw [hev, List.filter_append]
        have hn1 : ¬ req.SourceAccountID = id := fun h => h1 h.symm
        have hn2 : ¬ req.DestinationAccountID = id := fun h => h2 h.symm
        simp [List.filter, eventRow, hn1, hn2]

theorem transfer_touches_two_accounts_witness :
    (∃ (sourceRow destinationRow : Account) (debit credit : Event),
      sourceRow.ID = 1 ∧ destinationRow.ID = 2 ∧
      debit.AggregateID = 1 ∧ credit.AggregateID = 2 ∧
      (Transfer exampleServices.transaction exampleFunded (exampleContext "tx-b")
        ⟨1, 2, 100⟩).1.db.events = exampleFunded.db.events ++ [debit, credit] ∧
      (Transfer exampleServices.transaction exampleFunded (exampleContext "tx-b")
        ⟨1, 2, 100⟩).1.db.accounts =
        (upsertAccount (upsertAccount exampleFunded.db sourceRow) destinationRow).accounts) :=
  (transfer_touches_two_accounts exampleServices.transaction exampleFunded
    (exampleContext "tx-b") ⟨1, 2, 100⟩ rfl (by decide) ⟨⟨2⟩, by decide⟩).1

/-- C26 (amended). For every request whose `X-Timestamp` header is present and parses as an
RFC3339 time `t`, `RequestWithContext` returns a request from whose context
`RequestFromContext` reads, with `ok = true`, the request context made of the
`Accept-Language`, `X-Signature` and `X-Transaction-Id` headers and the timestamp `t`. When the
`X-Timestamp` header is absent, `RequestWithContext` returns an error and no request. For the
header of the unit test, `2025-01-01T00:00:00Z`, which is written the way RFC3339 formatting
writes that time, formatting the stored timestamp gives back the header text. -/
theorem request_context_round_trip (parseRFC3339 : String → Except Error Int)
    (req : HttpRequest) (t : Int)
    (hpresent : req.headerGet "X-Timestamp" ≠ "")
    (hvalid : parseRFC3339 (req.headerGet "X-Timestamp") = .ok t) :
    (∃ out, RequestWithContext parseRFC3339 req = .ok out ∧
      out.Header = req.Header ∧
      RequestFromContext out.ctx =
        ({ Signature := req.headerGet "X-Signature",
           Language := req.headerGet "Accept-Language",
           Timestamp := t,
           TransactionID := req.headerGet "X-Transaction-Id" }, true)) ∧
    (∀ other : HttpRequest, other.Header.lookup "X-Timestamp" = none →
      RequestWithContext parseRFC3339 other =
        .error (.wrap "failed to get X-TIMESTAMP in header"
          (.app "" "X-TIMESTAMP is required in header" 400))) ∧
    (∃ out, RequestWithContext exampleParse exampleRequest = .ok out ∧
      (RequestFromContext out.ctx).1.Timestamp = 1735689600000000000 ∧
      formatRFC3339 0 (RequestFromContext out.ctx).1.Timestamp = "2025-01-01T00:00:00Z" ∧
      formatRFC3339 0 (RequestFromContext out.ctx).1.Timestamp =
        exampleRequest.headerGet "X-Timestamp") := by
  refine ⟨?_, ?_, ?_⟩
  · unfold RequestWithContext getTimestamp
    simp only [if_neg hpresent, hvalid]
    refine ⟨_, rfl, rfl, ?_⟩
    simp [RequestFromContext, List.lookup, getLanguage, getSignature, getTransactionID]
  · intro other habsent
    unfold RequestWithContext getTimestamp HttpRequest.headerGet
    simp [habsent]
  · exact ⟨_, rfl, by decide, by decide, by decide⟩

theorem request_context_round_trip_witness :
    ∃ out, RequestWithContext exampleParse exampleRequest = .ok out ∧
      out.Header = exampleRequest.Header ∧
      RequestFromContext out.ctx =
        ({ Signature := exampleRequest.headerGet "X-Signature",
           Language := exampleRequest.headerGet "Accept-Language",
           Timestamp := 1735689600000000000,
           TransactionID := exampleRequest.headerGet "X-Transaction-Id" }, true) :=
  (request_context_round_trip exampleParse exampleRequest 1735689600000000000
    (by decide) rfl).1

/-- C26 as stated fails: formatting the stored timestamp back as RFC3339 does not give the
header text for every valid header. The header `2025-01-01T00:00:00.5Z` is stored as the
instant half a second past midnight and formatted as `2025-01-01T00:00:00Z`, the layout having
no fractional seconds; the header `2025-01-01T00:00:00+00:00` is stored as midnight UTC and
formatted as `2025-01-01T00:00:00Z`, a zero offset being written `Z`. -/
theorem request_context_round_trip_counterexample :
    (∃ out, RequestWithContext exampleParse (exampleRequestAt "2025-01-01T00:00:00.5Z") =
        .ok out ∧
      (RequestFromContext out.ctx).2 = true ∧
      (RequestFromContext out.ctx).1.Timestamp = 1735689600500000000 ∧
      formatRFC3339 0 (RequestFromContext out.ctx).1.Timestamp = "2025-01-01T00:00:00Z" ∧
      formatRFC3339 0 (RequestFromContext out.ctx).1.Timestamp ≠
        (exampleRequestAt "2025-01-01T00:00:00.5Z").headerGet "X-Timestamp") ∧
    (∃ out, RequestWithContext exampleParse (exampleRequestAt "2025-01-01T00:00:00+00:00") =
        .ok out ∧
      (RequestFromContext out.ctx).2 = true ∧
      (RequestFromContext out.ctx).1.Timestamp = 1735689600000000000 ∧
      formatRFC3339 0 (RequestFromContext out.ctx).1.Timestamp = "2025-01-01T00:00:00Z" ∧
      formatRFC3339 0 (RequestFromContext out.ctx).1.Timestamp ≠
        (exampleRequestAt "2025-01-01T00:00:00+00:00").headerGet "X-Timestamp") :=
  ⟨⟨_, rfl, by decide, by decide, by decide, by decide⟩,
    ⟨_, rfl, by decide, by decide, by decide, by decide⟩⟩

/-- The formatting at some known instants: the Unix epoch, the second before it, a leap day,
and a time carried in zones seven hours east and five and a half hours west of UTC. -/
theorem formatRFC3339_examples :
    formatRFC3339 0 0 = "1970-01-01T00:00:00Z" ∧
    formatRFC3339 0 (-1) = "1969-12-31T23:59:59Z" ∧
    formatRFC3339 0 951868799999999999 = "2000-02-29T23:59:59Z" ∧
    formatRFC3339 25200 1735689600000000000 = "2025-01-01T07:00:00+07:00" ∧
    formatRFC3339 (-19800) 1735689600000000000 = "2024-12-31T18:30:00-05:30" := by
  decide

theorem exampleRequest_context :
    (RequestWithContext exampleParse exampleRequest).map (fun out => RequestFromContext out.ctx) =
      .ok ({ Language := "en", Timestamp := 1735689600000000000,
             TransactionID := "1234567890" }, true) := by
  rfl

theorem exampleOpened_events :
    exampleOpened.db.events.map (fun e => (e.AggregateID, e.SequenceNumber, e.EventType)) =
      [(1, 1, "init_balance"), (1, 2, "deposit_received")] ∧
    exampleOpened.db.accounts.map (fun a => (a.ID, a.Balance)) = [(1, 1000)] := by
  decide

theorem exampleOpened_replay :
    eventsInSequence exampleOpened.db 1 = exampleOpened.db.events ∧
    replayBalance applyEvent exampleOpened.db 1 = 2000 := by
  have h1 : eventsInSequence exampleOpened.db 1 = exampleOpened.db.events := by decide
  refine ⟨h1, ?_⟩
  unfold replayBalance
  rw [h1]
  have h2 : exampleOpened.db.events =
      [{ TransactionID := "tx-a", SequenceNumber := 1, AggregateID := 1,
         AggregateType := "account", EventType := "init_balance",
         EventData := [("initial_balance", .decimal 1000)], Version := "1.0.0" },
       { TransactionID := "tx-a", SequenceNumber := 2, AggregateID := 1,
         AggregateType := "account", EventType := "deposit_received",
         EventData := [("source", .string "SYSTEM"), ("amount", .decimal 1000)],
         Version := "1.0.0" }] := by decide
  rw [h2]
  simp [applyEvent, Event.amount, EventTypeInitBalance, EventTypeDepositReceived, List.lookup]
  norm_num

theorem selectAccount_none {l : Ledger} {id : Int} (h : selectAccount l id = none) :
    ∀ a ∈ l.accounts, a.ID ≠ id := by
  unfold selectAccount at h
  split at h
  · simp at h
  · rename_i hfind
    rw [List.find?_eq_none] at hfind
    intro a ha
    simpa using hfind a ha

theorem mem_upsertAccount {l : Ledger} {a x : Account}
    (hx : x ∈ (upsertAccount l a).accounts) :
    (x ∈ l.accounts ∧ x.ID ≠ a.ID) ∨ (x.ID = a.ID ∧ x.Balance = a.Balance) := by
  unfold upsertAccount at hx
  split at hx
  · simp only [List.mem_map] at hx
    obtain ⟨y, hy, rfl⟩ := hx
    by_cases hid : y.ID = a.ID
    · right; simp [hid]
    · left; simp [hid, hy]
  · rename_i hany
    simp only [Bool.not_eq_true, List.any_eq_false, decide_eq_true_eq] at hany
    simp only [List.mem_append, List.mem_singleton] at hx
    rcases hx with hx | rfl
    · left; exact ⟨hx, hany x hx⟩
    · right; exact ⟨rfl, rfl⟩

theorem upsertAccount_keeps_id {l : Ledger} {id : Int} (a : Account)
    (h : ∃ r ∈ l.accounts, r.ID = id) : ∃ r ∈ (upsertAccount l a).accounts, r.ID = id := by
  obtain ⟨r, hr, hid⟩ := h
  unfold upsertAccount
  split
  · refine ⟨_, List.mem_map_of_mem _ hr, ?_⟩
    split <;> exact hid
  · exact ⟨r, List.mem_append_left _ hr, hid⟩

theorem upsertAccount_has_id (l : Ledger) (a : Account) :
    ∃ r ∈ (upsertAccount l a).accounts, r.ID = a.ID := by
  by_cases hany : ∃ r ∈ l.accounts, r.ID = a.ID
  · exact upsertAccount_keeps_id a hany
  · unfold upsertAccount
    have : ¬ l.accounts.any (fun r => decide (r.ID = a.ID)) = true := by
      simpa using hany
    rw [if_neg this]
    exact ⟨a, by simp, rfl⟩

theorem Projected_create {s : AccountService} {w : World} {ctx : Context}
    {req : CreateAccountRequest} {r : World × Option Error}
    (hinv : Projected w.db) (hout : CreateOutcome s w ctx req r) : Projected r.1.db := by
  rcases hout with ⟨_, hdb, _⟩ | ⟨_, _, _, hnone, _, createdAt, updatedAt, hdb⟩
  · rw [hdb]; exact hinv
  · obtain ⟨hev, hbal⟩ := hinv
    have hrows := selectAccount_none hnone
    have hold : w.db.events.filter (fun e => decide (e.AggregateID = req.AccountID)) = [] := by
      rw [List.filter_eq_nil_iff]
      intro e he
      obtain ⟨a, ha, hid⟩ := hev e he
      simpa [← hid] using hrows a ha
    have hevents : r.1.db.events =
        w.db.events ++ (creationEvents w.db req.AccountID
          (RequestFromContext ctx).1.TransactionID s.eventVersion req.InitialBalance).map
            eventRow := by
      rw [hdb, upsertAccount_events]; rfl
    rw [creationEvents_eq] at hevents
    simp only [List.map_cons, List.map_nil] at hevents
    refine ⟨?_, ?_⟩
    · intro e he
      rw [hevents] at he
      rw [hdb]
      simp only [List.mem_append, List.mem_cons, List.mem_singleton, List.not_mem_nil,
        or_false] at he
      rcases he with he | rfl | rfl
      · exact upsertAccount_keeps_id _ (hev e he)
      · exact upsertAccount_has_id _ _
      · exact upsertAccount_has_id _ _
    · intro a ha
      rw [hevents, List.filter_append]
      rw [hdb] at ha
      rcases mem_upsertAccount ha with ⟨hmem, hid⟩ | ⟨hid, hb⟩
      · have hid2 : ¬ req.AccountID = a.ID := fun h => hid h.symm
        simp only [List.filter, eventRow, hid2, decide_False, List.append_nil]
        exact hbal a hmem
      · dsimp only at hid hb
        rw [hid, hold, hb]
        simp [List.filter, eventRow, applyEventOnce, Event.amount, EventTypeInitBalance,
          EventTypeDepositReceived, EventTypeCreditBalance, EventTypeDebitBalance, List.lookup]

theorem Projected_transfer {s : TransactionService} {w : World} {ctx : Context}
    {req : CreateTransferRequest} {r : World × Option Error}
    (hinv : Projected w.db) (hout : TransferOutcome s w ctx req r) : Projected r.1.db := by
  rcases hout with ⟨_, hdb, _⟩ | ⟨_, _, _, hsd, _, heff⟩
  · rw [hdb]; exact hinv
  · obtain ⟨hev, hbal⟩ := hinv
    have hevents := TransferEffect_events heff
    rw [debitEvents_eq, creditEvents_eq] at hevents
    simp only [insertEvents, List.map_cons, List.map_nil, List.append_assoc,
      List.singleton_append] at hevents
    obtain ⟨src, dst, t1, t2, hs, hd, _, hdb⟩ := heff
    rw [selectAccount_insertEvents, selectAccount_insertEvents] at hs hd
    obtain ⟨hsid, srow, hsrow, hsrid, hsbal⟩ := selectAccount_some hs
    obtain ⟨hdid, drow, hdrow, hdrid, hdbal⟩ := selectAccount_some hd
    have hsrc : src.Balance = (w.db.events.filter
        (fun e => decide (e.AggregateID = req.SourceAccountID))).foldl applyEventOnce 0 := by
      rw [← hsbal, hbal srow hsrow, hsrid]
    have hdst : dst.Balance = (w.db.events.filter
        (fun e => decide (e.AggregateID = req.DestinationAccountID))).foldl applyEventOnce 0 := by
      rw [← hdbal, hbal drow hdrow, hdrid]
    have hds : ¬ req.DestinationAccountID = req.SourceAccountID := fun h => hsd h.symm
    refine ⟨?_, ?_⟩
    · intro e he
      rw [hevents] at he
      rw [hdb]
      simp only [List.mem_append, List.mem_cons, List.mem_singleton, List.not_mem_nil,
        or_false] at he
      rcases he with he | rfl | rfl
      · exact upsertAccount_keeps_id _ (upsertAccount_keeps_id _ (hev e he))
      · exact upsertAccount_keeps_id _ (upsertAccount_keeps_id _ ⟨srow, hsrow, hsrid⟩)
      · exact upsertAccount_keeps_id _ (upsertAccount_keeps_id _ ⟨drow, hdrow, hdrid⟩)
    · intro a ha
      rw [hevents, List.filter_append]
      rw [hdb] at ha
      rcases mem_upsertAccount ha with ⟨hmem, hid⟩ | ⟨hid, hb⟩
      · rcases mem_upsertAccount hmem with ⟨hmem2, hid2⟩ | ⟨hid2, hb2⟩
        · have h1 : ¬ req.SourceAccountID = a.ID := fun h => hid2 (by rw [← h]; exact hsid.symm)
          have h2 : ¬ req.DestinationAccountID = a.ID :=
            fun h => hid (by rw [← h]; exact hdid.symm)
          simp only [List.filter, eventRow, h1, h2, decide_False, List.append_nil]
          exact hbal a hmem2
        · dsimp only at hid2 hb2
          have ha1 : a.ID = req.SourceAccountID := by rw [hid2, hsid]
          rw [ha1, hb2, hsrc]
          simp [List.filter, eventRow, hds, List.foldl_append, applyEventOnce, Event.amount,
            EventTypeInitBalance, EventTypeDepositReceived, EventTypeCreditBalance,
            EventTypeDebitBalance, List.lookup]
      · dsimp only at hid hb
        have ha1 : a.ID = req.DestinationAccountID := by rw [hid, hdid]
        rw [ha1, hb, hdst]
        simp [List.filter, eventRow, hsd, List.foldl_append, applyEventOnce, Event.amount,
          EventTypeInitBalance, EventTypeDepositReceived, EventTypeCreditBalance,
          EventTypeDebitBalance, List.lookup]

theorem Projected_run (svc : Services) (calls : List Call) :
    ∀ w : World, w.tx = none → Projected w.db → Projected (run svc w calls).db := by
  induction calls with
  | nil => intro w _ h; exact h
  | cons c cs ih =>
    intro w hw h
    rcases exec_cases svc w c hw with ⟨ctx, req, hop, hout⟩ | ⟨ctx, req, hop, hout⟩
    · have htx : (exec svc w c).1.tx = none := by
        rcases hout with ⟨h1, _⟩ | ⟨h1, _⟩ <;> exact h1
      exact ih _ htx
        (Projected_create (w := { w with faults := c.faults, ticks := c.ticks }) h hout)
    · have htx : (exec svc w c).1.tx = none := by
        rcases hout with ⟨h1, _⟩ | ⟨h1, _⟩ <;> exact h1
      exact ih _ htx
        (Projected_transfer (w := { w with faults := c.faults, ticks := c.ticks }) h hout)

theorem oneTo_sorted (n : Nat) : (oneTo n).Sorted (· ≤ ·) := by
  induction n with
  | zero => simp [oneTo]
  | succ n ih =>
    rw [oneTo_succ]
    unfold List.Sorted at ih ⊢
    rw [List.pairwise_append]
    refine ⟨ih, by simp, ?_⟩
    intro a ha b hb
    simp only [List.mem_singleton] at hb
    subst hb
    simp only [oneTo, List.mem_map, List.mem_range] at ha
    obtain ⟨i, hi, rfl⟩ := ha
    omega

/-- With gap-free sequence numbers, the log order of an aggregate's events is their sequence
order. -/
theorem eventsInSequence_of_gapFree {l : Ledger} (h : GapFree l) (a : Int) :
    eventsInSequence l a = l.events.filter (fun e => decide (e.AggregateID = a)) := by
  unfold eventsInSequence
  apply List.Sorted.insertionSort_eq
  have hs := oneTo_sorted (aggregateSeqs l a).length
  rw [← h a] at hs
  unfold aggregateSeqs at hs
  unfold List.Sorted at hs ⊢
  rw [List.pairwise_map] at hs
  exact hs

/-- C21 (amended). In every ledger state reachable from the empty ledger by `CreateAccount` and
`Transfer` calls, every account's stored balance equals the cumulative effect of the events
recorded for its aggregate ID, taken in sequence order, where an `init_balance` event sets the
balance to its amount, a `balance_credited` event adds its amount, a `balance_debited` event
subtracts its amount, and the `deposit_received` event, which `CreateAccount` records next to
`init_balance` with the same amount, adds nothing further. The length bound keeps the `int64`
sequence counter from wrapping. -/
theorem balance_is_replay_of_events (svc : Services) (calls : List Call)
    (hlen : 2 * calls.length < 2 ^ 63) :
    (∀ a ∈ (run svc emptyWorld calls).db.accounts,
      a.Balance = replayBalance applyEventOnce (run svc emptyWorld calls).db a.ID) ∧
    (∀ e ∈ (run svc emptyWorld calls).db.events,
      ∃ a ∈ (run svc emptyWorld calls).db.accounts, a.ID = e.AggregateID) ∧
    (∀ (balance : Decimal) (e : Event), e.EventType ≠ EventTypeDepositReceived →
      applyEventOnce balance e = applyEvent balance e) ∧
    (∀ (balance : Decimal) (e : Event), e.EventType = EventTypeDepositReceived →
      applyEventOnce balance e = balance) := by
  have h0 : SeqInv emptyWorld 0 := ⟨rfl, fun b => rfl, by simp [emptyWorld]⟩
  have hseq := SeqInv_run svc calls emptyWorld 0 h0 (by simpa using hlen)
  have hproj : Projected (run svc emptyWorld calls).db :=
    Projected_run svc calls emptyWorld rfl
      ⟨fun e he => by simp [emptyWorld] at he, fun a ha => by simp [emptyWorld] at ha⟩
  refine ⟨?_, hproj.1, ?_, ?_⟩
  · intro a ha
    unfold replayBalance
    rw [eventsInSequence_of_gapFree hseq.2.1]
    exact hproj.2 a ha
  · intro balance e he
    unfold applyEventOnce applyEvent
    simp [he]
  · intro balance e he
    unfold applyEventOnce
    simp [he, EventTypeDepositReceived, EventTypeInitBalance, EventTypeCreditBalance,
      EventTypeDebitBalance]

theorem balance_is_replay_of_events_witness :
    2 * exampleCalls.length < 2 ^ 63 ∧
    ∀ a ∈ (run exampleServices emptyWorld exampleCalls).db.accounts,
      a.Balance = replayBalance applyEventOnce (run exampleServices emptyWorld exampleCalls).db
        a.ID :=
  ⟨by decide, (balance_is_replay_of_events exampleServices exampleCalls (by decide)).1⟩

/-- C21 as stated fails: after the one call `CreateAccount` of account `1` with 1000.00 on the
empty ledger, the stored balance is 1000.00, while the events of aggregate `1` are
`init_balance` (1000.00) followed by `deposit_received` (1000.00), whose cumulative effect as
the claim reads it is 2000.00. -/
theorem balance_is_replay_counterexample :
    exampleOpened.db = (run exampleServices emptyWorld (exampleCalls.take 1)).db ∧
    exampleOpened.db.accounts.map (fun a => (a.ID, a.Balance)) = [(1, 1000)] ∧
    (eventsInSequence exampleOpened.db 1).map (fun e => (e.EventType, e.amount)) =
      [("init_balance", 1000), ("deposit_received", 1000)] ∧
    replayBalance applyEvent exampleOpened.db 1 = 2000 ∧
    ¬ ∀ a ∈ exampleOpened.db.accounts,
      a.Balance = replayBalance applyEvent exampleOpened.db a.ID := by
  have hrep := exampleOpened_replay.2
  have hacc : exampleOpened.db.accounts =
      [{ ID := 1, Balance := 1000, CreatedAt := 0, UpdatedAt := 0 }] := by decide
  refine ⟨by decide, by decide, by decide, hrep, ?_⟩
  intro hall
  have := hall _ (by rw [hacc]; exact List.mem_singleton_self _)
  rw [hrep] at this
  norm_num at this

theorem inChain_self (e : Error) : inChain e e = true := by
  cases e <;> simp [inChain]

theorem inChain_wrap {err e : Error} (c : String) (h : inChain err e = true) :
    inChain (.wrap c err) e = true := by
  simp [inChain, h]

theorem inChain_isApp {err e : Error} (h : inChain err e = true) : err.isApp = e.isApp := by
  induction err with
  | wrap c cause ih =>
    simp only [inChain, Bool.or_eq_true, decide_eq_true_eq] at h
    rcases h with h | h
    · rw [h]
    · simpa [Error.isApp] using ih h
  | recordNotFound => simp only [inChain, decide_eq_true_eq] at h; rw [h]
  | recordNotUnique => simp only [inChain, decide_eq_true_eq] at h; rw [h]
  | app _ _ _ => simp only [inChain, decide_eq_true_eq] at h; rw [h]
  | pq _ _ => simp only [inChain, decide_eq_true_eq] at h; rw [h]
  | text _ => simp only [inChain, decide_eq_true_eq] at h; rw [h]

theorem inChain_errorString {err e : Error} (h : inChain err e = true) (leaf : Error → String) :
    ∃ before, errorString leaf err = before ++ errorString leaf e := by
  induction err with
  | wrap c cause ih =>
    simp only [inChain, Bool.or_eq_true, decide_eq_true_eq] at h
    rcases h with h | h
    · exact ⟨"", by rw [h]; simp⟩
    · obtain ⟨p, hp⟩ := ih h
      exact ⟨c ++ ": " ++ p, by simp [errorString, hp, String.append_assoc]⟩
  | recordNotFound => simp only [inChain, decide_eq_true_eq] at h; exact ⟨"", by rw [h]; simp⟩
  | recordNotUnique => simp only [inChain, decide_eq_true_eq] at h; exact ⟨"", by rw [h]; simp⟩
  | app _ _ _ => simp only [inChain, decide_eq_true_eq] at h; exact ⟨"", by rw [h]; simp⟩
  | pq _ _ => simp only [inChain, decide_eq_true_eq] at h; exact ⟨"", by rw [h]; simp⟩
  | text _ => simp only [inChain, decide_eq_true_eq] at h; exact ⟨"", by rw [h]; simp⟩

theorem errorsIs_app {err : Error} (m s : String) (c : Nat)
    (h : errorsIs err (.app m s c) = true) : err.isApp = true := by
  induction err with
  | wrap _ cause ih => simpa [Error.isApp] using ih (by simpa [errorsIs] using h)
  | app _ _ _ => rfl
  | recordNotFound => simp [errorsIs] at h
  | recordNotUnique => simp [errorsIs] at h
  | pq _ _ => simp [errorsIs] at h
  | text _ => simp [errorsIs] at h

theorem not_domain_of_not_app {err : Error} (h : err.isApp = false) :
    ∀ d ∈ domainErrors, errorsIs err d = false ∧ err ≠ d := by
  intro d hd
  simp only [domainErrors, List.mem_cons, List.mem_singleton, List.not_mem_nil, or_false] at hd
  have key : ∀ (m s : String) (c : Nat), errorsIs err (.app m s c) = false ∧ err ≠ .app m s c := by
    intro m s c
    refine ⟨?_, ?_⟩
    · cases hc : errorsIs err (.app m s c) with
      | false => rfl
      | true => rw [errorsIs_app m s c hc] at h; simp at h
    · intro heq
      rw [heq] at h
      simp [Error.isApp] at h
  rcases hd with rfl | rfl | rfl | rfl | rfl | rfl | rfl <;> exact key _ _ _

theorem isApp_toError (e : DriverError) : e.toError.isApp = false := by
  cases e <;> rfl

theorem isApp_mapError (e : DriverError) : (mapError e.toError).isApp = false := by
  rcases mapError_cases e.toError with h | h
  · rw [h]; exact isApp_toError e
  · rw [h]; rfl

theorem FindByID_entry (w : World) (id : Int) :
    (FindByID w id).1.trace = w.trace ++ [⟨.findByID id, errOf (FindByID w id).2⟩] ∧
    ∀ e, (FindByID w id).2 = .error e → e.isApp = false := by
  unfold FindByID
  split <;> (try split) <;>
    simp [errOf, Error.isApp, isApp_toError, isApp_mapError, ErrRecordNotFound]

theorem FindByIDForUpdateTx_entry (w : World) (h : Tx) (id : Int) :
    (FindByIDForUpdateTx w h id).1.trace =
      w.trace ++ [⟨.findByIDForUpdateTx h id, errOf (FindByIDForUpdateTx w h id).2⟩] ∧
    ∀ e, (FindByIDForUpdateTx w h id).2 = .error e → e.isApp = false := by
  unfold FindByIDForUpdateTx
  split
  · simp [errOf, Error.isApp, ErrTxDone]
  · split <;> (try split) <;>
      simp [errOf, Error.isApp, isApp_toError, isApp_mapError, ErrRecordNotFound]

theorem FindAllByTransactionID_entry (w : World) (t : String) :
    (FindAllByTransactionID w t).1.trace =
      w.trace ++ [⟨.findAllByTransactionID t, errOf (FindAllByTransactionID w t).2⟩] ∧
    ∀ e, (FindAllByTransactionID w t).2 = .error e → e.isApp = false := by
  unfold FindAllByTransactionID
  dsimp only
  split <;> (try split) <;>
    simp [errOf, Error.isApp, isApp_toError, isApp_mapError, ErrRecordNotFound]

theorem FindLastByAggregateID_entry (w : World) (a : Int) :
    (FindLastByAggregateID w a).1.trace =
      w.trace ++ [⟨.findLastByAggregateID a, errOf (FindLastByAggregateID w a).2⟩] ∧
    ∀ e, (FindLastByAggregateID w a).2 = .error e → e.isApp = false := by
  unfold FindLastByAggregateID
  split <;> (try split) <;>
    simp [errOf, Error.isApp, isApp_toError, isApp_mapError, ErrRecordNotFound]

theorem CreateBulkTx_error (w : World) (tx : Option Tx) (evs : List Event) :
    ∀ e, (CreateBulkTx w tx evs).2 = some e → e.isApp = false := by
  unfold CreateBulkTx
  split
  · simp [World.fail, Error.isApp]
  · split
    · simp [World.fail, Error.isApp, ErrTxDone]
    · dsimp only
      split <;> (try split) <;>
        simp [World.fail, Error.isApp, isApp_toError, isApp_mapError]

theorem UpsertTx_entry (w : World) (tx : Option Tx) (a : Account) :
    (UpsertTx w tx a).1.trace = w.trace ++ [⟨.upsertTx tx a, (UpsertTx w tx a).2⟩] ∧
    ∀ e, (UpsertTx w tx a).2 = some e → e.isApp = false := by
  unfold UpsertTx
  split
  · simp [World.fail, Error.isApp]
  · split
    · simp [World.fail, Error.isApp, ErrTxDone]
    · split <;> simp [World.fail, Error.isApp, isApp_toError, isApp_mapError]

theorem Propagates.done (w : World) (o : Option Error) : Propagates w (w, o) :=
  ⟨[], by simp, fun x hx => by simp at hx⟩

theorem Propagates.of_trace {w v : World} {r : World × Option Error} (ht : v.trace = w.trace)
    (h : Propagates v r) : Propagates w r := by
  obtain ⟨es, hes, hp⟩ := h
  exact ⟨es, by rw [hes, ht], hp⟩

/-- A store call that succeeded, or reported "record not found", or is not a repository call,
puts no obligation on what follows. -/
theorem Propagates.step {w v : World} {r : World × Option Error} {x : TraceEntry}
    (hv : v.trace = w.trace ++ [x])
    (hx : ∀ e, x.call.isRepositoryCall = true → x.err = some e →
      errorsIs e ErrRecordNotFound = true)
    (h : Propagates v r) : Propagates w r := by
  obtain ⟨es, hes, hp⟩ := h
  refine ⟨x :: es, by rw [hes, hv]; simp, ?_⟩
  intro y hy e hcall herr hnf
  simp only [List.mem_cons] at hy
  rcases hy with rfl | hy
  · rw [hx e hcall herr] at hnf
    simp at hnf
  · exact hp y hy e hcall herr hnf

/-- A store call that failed, after which the run stops with an error whose chain contains the
failure. -/
theorem Propagates.fail {w v : World} {x : TraceEntry} {e err : Error}
    (hv : v.trace = w.trace ++ [x]) (hx : x.err = some e) (happ : e.isApp = false)
    (hin : inChain err e = true) : Propagates w (v, some err) := by
  refine ⟨[x], hv, ?_⟩
  intro y hy e1 _ herr _
  simp only [List.mem_singleton] at hy
  subst hy
  rw [hx] at herr
  simp only [Option.some.injEq] at herr
  subst herr
  exact ⟨happ, err, rfl, hin⟩

theorem Propagates.wrap {w v : World} {err : Error} (c : String)
    (h : Propagates w (v, some err)) : Propagates w (v, some (.wrap c err)) := by
  obtain ⟨es, hes, hp⟩ := h
  refine ⟨es, hes, ?_⟩
  intro y hy e hcall herr hnf
  obtain ⟨happ, err1, herr1, hin⟩ := hp y hy e hcall herr hnf
  simp only [Option.some.injEq] at herr1
  subst herr1
  exact ⟨happ, _, rfl, inChain_wrap c hin⟩

/-- A call of `database/sql` made at the end changes nothing to what was propagated. -/
theorem Propagates.after {w v u : World} {o : Option Error} {x : TraceEntry}
    (h : Propagates w (v, o)) (hu : u.trace = v.trace ++ [x])
    (hx : x.call.isRepositoryCall = false) : Propagates w (u, o) := by
  obtain ⟨es, hes, hp⟩ := h
  refine ⟨es ++ [x], by rw [hu, hes]; simp, ?_⟩
  intro y hy e hcall herr hnf
  simp only [List.mem_append, List.mem_singleton] at hy
  rcases hy with hy | rfl
  · exact hp y hy e hcall herr hnf
  · rw [hx] at hcall
    simp at hcall

theorem Place_propagates (c : AccountEventCollector) (w : World) (tx : Option Tx) :
    (∀ v c1, c.Place w tx = (v, c1, none) →
      v.trace = w.trace ++ [⟨.createBulkTx tx c.events, none⟩]) ∧
    (∀ v c1 err, c.Place w tx = (v, c1, some err) → Propagates w (v, some err)) := by
  have ht := CreateBulkTx_trace w tx c.events
  have he := CreateBulkTx_error w tx c.events
  unfold AccountEventCollector.Place
  rcases h : CreateBulkTx w tx c.events with ⟨w1, _ | e⟩ <;> rw [h] at ht he <;>
    dsimp only at ht he ⊢
  · refine ⟨?_, ?_⟩
    · intro v c1 heq
      simp only [Prod.mk.injEq] at heq
      rw [← heq.1]; exact ht
    · intro v c1 err heq
      simp at heq
  · refine ⟨?_, ?_⟩
    · intro v c1 heq
      simp at heq
    · intro v c1 err heq
      simp only [Prod.mk.injEq, Option.some.injEq] at heq
      obtain ⟨rfl, _, rfl⟩ := heq
      exact Propagates.fail ht rfl (he e rfl) (inChain_wrap _ (inChain_self e))

theorem NewAccountEventCollector_propagates (w : World) (a : Int) (t v : String) :
    (∀ u c, NewAccountEventCollector w a t v = (u, .ok c) →
      ∃ x, u.trace = w.trace ++ [x] ∧
        ∀ e, x.call.isRepositoryCall = true → x.err = some e →
          errorsIs e ErrRecordNotFound = true) ∧
    (∀ u err, NewAccountEventCollector w a t v = (u, .error err) →
      Propagates w (u, some err)) := by
  have ht := FindLastByAggregateID_entry w a
  unfold NewAccountEventCollector
  rcases h : FindLastByAggregateID w a with ⟨w1, e | ev⟩ <;> rw [h] at ht <;>
    dsimp only [errOf] at ht ⊢
  · by_cases hnf : errorsIs e ErrRecordNotFound = true
    · simp only [hnf, Bool.not_true, Bool.false_eq_true, if_false]
      refine ⟨?_, ?_⟩
      · intro u c heq
        simp only [Prod.mk.injEq] at heq
        refine ⟨_, by rw [← heq.1]; exact ht.1, ?_⟩
        intro e1 _ he1
        simp only [Option.some.injEq] at he1
        rw [← he1]; exact hnf
      · intro u err heq
        simp at heq
    · simp only [hnf, Bool.not_false, if_true]
      refine ⟨?_, ?_⟩
      · intro u c heq
        simp at heq
      · intro u err heq
        simp only [Prod.mk.injEq, Except.error.injEq] at heq
        obtain ⟨rfl, rfl⟩ := heq
        exact Propagates.fail ht.1 rfl (ht.2 e rfl) (inChain_wrap _ (inChain_self e))
  · refine ⟨?_, ?_⟩
    · intro u c heq
      simp only [Prod.mk.injEq] at heq
      refine ⟨_, by rw [← heq.1]; exact ht.1, ?_⟩
      intro e1 _ he1
      simp at he1
    · intro u err heq
      simp at heq

theorem processTransfer_propagates (w : World) (h : Tx) (req : CreateTransferRequest) :
    Propagates w (processTransfer w h req) := by
  unfold processTransfer
  have t1 := FindByIDForUpdateTx_entry w h req.SourceAccountID
  rcases h1 : FindByIDForUpdateTx w h req.SourceAccountID with ⟨w1, e1 | src⟩ <;>
    rw [h1] at t1 <;> dsimp only [errOf] at t1 ⊢
  · split
    · rename_i hnf
      exact Propagates.step t1.1 (fun e _ he => by
        simp only [Option.some.injEq] at he; rw [← he]; exact hnf) (Propagates.done _ _)
    · exact Propagates.fail t1.1 rfl (t1.2 e1 rfl) (inChain_wrap _ (inChain_self e1))
  refine Propagates.step t1.1 (fun e _ he => by simp at he) ?_
  have t2 := FindByIDForUpdateTx_entry w1 h req.DestinationAccountID
  rcases h2 : FindByIDForUpdateTx w1 h req.DestinationAccountID with ⟨w2, e2 | dst⟩ <;>
    rw [h2] at t2 <;> dsimp only [errOf] at t2 ⊢
  · split
    · rename_i hnf
      exact Propagates.step t2.1 (fun e _ he => by
        simp only [Option.some.injEq] at he; rw [← he]; exact hnf) (Propagates.done _ _)
    · exact Propagates.fail t2.1 rfl (t2.2 e2 rfl) (inChain_wrap _ (inChain_self e2))
  refine Propagates.step t2.1 (fun e _ he => by simp at he) ?_
  split
  · exact Propagates.done _ _
  have n1 := timeNow_trace w2
  rcases hn1 : timeNow w2 with ⟨sourceUpdatedAt, w3⟩
  rw [hn1] at n1
  dsimp only at n1 ⊢
  have n2 := timeNow_trace w3
  rcases hn2 : timeNow w3 with ⟨destinationUpdatedAt, w4⟩
  rw [hn2] at n2
  dsimp only at n2 ⊢
  refine Propagates.of_trace (n2.trans n1) ?_
  have u1 := UpsertTx_entry w4 (some h)
    { src with Balance := src.Balance - req.Amount, UpdatedAt := sourceUpdatedAt }
  rcases hu1 : UpsertTx w4 (some h)
    { src with Balance := src.Balance - req.Amount, UpdatedAt := sourceUpdatedAt }
    with ⟨w5, _ | e5⟩ <;> rw [hu1] at u1 <;> dsimp only at u1 ⊢
  swap
  · exact Propagates.fail u1.1 rfl (u1.2 e5 rfl) (inChain_wrap _ (inChain_self e5))
  refine Propagates.step u1.1 (fun e _ he => by simp at he) ?_
  have u2 := UpsertTx_entry w5 (some h)
    { dst with Balance := dst.Balance + req.Amount, UpdatedAt := destinationUpdatedAt }
  rcases hu2 : UpsertTx w5 (some h)
    { dst with Balance := dst.Balance + req.Amount, UpdatedAt := destinationUpdatedAt }
    with ⟨w6, _ | e6⟩ <;> rw [hu2] at u2 <;> dsimp only at u2 ⊢
  · exact Propagates.step u2.1 (fun e _ he => by simp at he) (Propagates.done _ _)
  · exact Propagates.fail u2.1 rfl (u2.2 e6 rfl) (inChain_wrap _ (inChain_self e6))

theorem createAccountTxFunc_propagates (req : CreateAccountRequest)
    (c : AccountEventCollector) (account : Account) (w : World) (h : Tx) :
    Propagates w (createAccountTxFunc req c account w h) := by
  unfold createAccountTxFunc
  dsimp only
  generalize (c.OnInitBalanceEvent req.InitialBalance).OnDepositReceivedEvent
    "SYSTEM" req.InitialBalance = c2
  have p := Place_propagates c2 w (some h)
  rcases hp : c2.Place w (some h) with ⟨w1, c3, _ | e1⟩ <;> dsimp only
  swap
  · exact Propagates.wrap _ (p.2 w1 c3 e1 hp)
  refine Propagates.step (p.1 w1 c3 hp) (fun e _ he => by simp at he) ?_
  have u1 := UpsertTx_entry w1 (some h) account
  rcases hu1 : UpsertTx w1 (some h) account with ⟨w2, _ | e2⟩ <;> rw [hu1] at u1 <;>
    dsimp only at u1 ⊢
  · exact Propagates.step u1.1 (fun e _ he => by simp at he) (Propagates.done _ _)
  · exact Propagates.fail u1.1 rfl (u1.2 e2 rfl) (inChain_wrap _ (inChain_self e2))

theorem transferTxFunc_propagates (req : CreateTransferRequest)
    (cS cD : AccountEventCollector) (w : World) (h : Tx) :
    Propagates w (transferTxFunc req cS cD w h) := by
  unfold transferTxFunc
  dsimp only
  generalize cS.OnSubBalanceEvent req.SourceAccountID req.Amount = c1
  generalize cD.OnAddBalanceEvent req.DestinationAccountID req.Amount = c2
  have p1 := Place_propagates c1 w (some h)
  rcases hp1 : c1.Place w (some h) with ⟨w1, c3, _ | e1⟩ <;> dsimp only
  swap
  · exact Propagates.wrap _ (p1.2 w1 c3 e1 hp1)
  refine Propagates.step (p1.1 w1 c3 hp1) (fun e _ he => by simp at he) ?_
  have p2 := Place_propagates c2 w1 (some h)
  rcases hp2 : c2.Place w1 (some h) with ⟨w2, c4, _ | e2⟩ <;> dsimp only
  swap
  · exact Propagates.wrap _ (p2.2 w2 c4 e2 hp2)
  refine Propagates.step (p2.1 w2 c4 hp2) (fun e _ he => by simp at he) ?_
  have p3 := processTransfer_propagates w2 h req
  rcases hp3 : processTransfer w2 h req with ⟨w3, _ | e3⟩ <;> rw [hp3] at p3 <;> dsimp only
  · exact p3
  · exact Propagates.wrap _ p3

theorem WithTransaction_propagates (w : World) (f : World → Tx → World × Option Error)
    (hf : ∀ v h, Propagates v (f v h)) : Propagates w (WithTransaction w f) := by
  have hb := BeginTx_trace w
  unfold WithTransaction
  rcases h1 : BeginTx w with ⟨w1, e | h⟩ <;> rw [h1] at hb <;> dsimp only at hb ⊢
  · exact Propagates.after (Propagates.done w _) hb rfl
  refine Propagates.step hb (fun e hc _ => by simp [StoreCall.isRepositoryCall] at hc) ?_
  have p := hf w1 h
  rcases h2 : f w1 h with ⟨w2, _ | err⟩ <;> rw [h2] at p <;> dsimp only
  · exact Propagates.after p (Commit_trace w2 h) rfl
  · exact Propagates.after p (Rollback_trace w2 h) rfl

theorem CreateAccount_propagates (s : AccountService) (w : World) (ctx : Context)
    (req : CreateAccountRequest) : Propagates w (CreateAccount s w ctx req) := by
  unfold CreateAccount
  have g1 := getRequestContext_trace w ctx s.requestTimeThreshold
  rcases h1 : getRequestContext w ctx s.requestTimeThreshold with ⟨w1, rc, _ | err⟩ <;>
    rw [h1] at g1 <;> dsimp only at g1 ⊢ <;> refine Propagates.of_trace g1 ?_
  swap
  · exact Propagates.done _ _
  have t2 := FindByID_entry w1 req.AccountID
  rcases h2 : FindByID w1 req.AccountID with ⟨w2, e2 | a⟩ <;> rw [h2] at t2 <;>
    dsimp only [errOf] at t2 ⊢
  swap
  · exact Propagates.step t2.1 (fun e _ he => by simp at he) (Propagates.done _ _)
  by_cases hnf2 : errorsIs e2 ErrRecordNotFound = true
  swap
  · simp only [hnf2, Bool.not_false, if_true]
    exact Propagates.fail t2.1 rfl (t2.2 e2 rfl) (inChain_wrap _ (inChain_self e2))
  simp only [hnf2, Bool.not_true, Bool.false_eq_true, if_false]
  refine Propagates.step t2.1 (fun e _ he => by
    simp only [Option.some.injEq] at he; rw [← he]; exact hnf2) ?_
  have t3 := FindAllByTransactionID_entry w2 rc.TransactionID
  rcases h3 : FindAllByTransactionID w2 rc.TransactionID with ⟨w3, e3 | evs⟩ <;>
    rw [h3] at t3 <;> dsimp only [errOf] at t3 ⊢
  swap
  · exact Propagates.step t3.1 (fun e _ he => by simp at he) (Propagates.done _ _)
  by_cases hnf3 : errorsIs e3 ErrRecordNotFound = true
  swap
  · simp only [hnf3, Bool.not_false, if_true]
    exact Propagates.fail t3.1 rfl (t3.2 e3 rfl) (inChain_wrap _ (inChain_self e3))
  simp only [hnf3, Bool.not_true, Bool.false_eq_true, if_false]
  refine Propagates.step t3.1 (fun e _ he => by
    simp only [Option.some.injEq] at he; rw [← he]; exact hnf3) ?_
  have t4 := NewAccountEventCollector_propagates w3 req.AccountID rc.TransactionID
    s.eventVersion
  rcases h4 : NewAccountEventCollector w3 req.AccountID rc.TransactionID s.eventVersion
    with ⟨w4, e4 | c⟩ <;> dsimp only
  · exact Propagates.wrap _ (t4.2 w4 e4 h4)
  obtain ⟨x4, hx4, hb4⟩ := t4.1 w4 c h4
  refine Propagates.step hx4 hb4 ?_
  have n1 := timeNow_trace w4
  rcases hn1 : timeNow w4 with ⟨createdAt, w5⟩
  rw [hn1] at n1
  dsimp only at n1 ⊢
  have n2 := timeNow_trace w5
  rcases hn2 : timeNow w5 with ⟨updatedAt, w6⟩
  rw [hn2] at n2
  dsimp only at n2 ⊢
  refine Propagates.of_trace (n2.trans n1) ?_
  have p := WithTransaction_propagates w6
    (createAccountTxFunc req c
      { ID := req.AccountID, Balance := req.InitialBalance, CreatedAt := createdAt,
        UpdatedAt := updatedAt })
    (createAccountTxFunc_propagates req c _)
  rcases h5 : WithTransaction w6 (createAccountTxFunc req c
      { ID := req.AccountID, Balance := req.InitialBalance, CreatedAt := createdAt,
        UpdatedAt := updatedAt }) with ⟨w7, _ | e7⟩ <;> rw [h5] at p <;> dsimp only
  · exact p
  · exact Propagates.wrap _ p

theorem Transfer_propagates (s : TransactionService) (w : World) (ctx : Context)
    (req : CreateTransferRequest) : Propagates w (Transfer s w ctx req) := by
  unfold Transfer
  have g1 := getRequestContext_trace w ctx s.requestTimeThreshold
  rcases h1 : getRequestContext w ctx s.requestTimeThreshold with ⟨w1, rc, _ | err⟩ <;>
    rw [h1] at g1 <;> dsimp only at g1 ⊢ <;> refine Propagates.of_trace g1 ?_
  swap
  · exact Propagates.done _ _
  have t3 := FindAllByTransactionID_entry w1 rc.TransactionID
  rcases h3 : FindAllByTransactionID w1 rc.TransactionID with ⟨w3, e3 | evs⟩ <;>
    rw [h3] at t3 <;> dsimp only [errOf] at t3 ⊢
  swap
  · exact Propagates.step t3.1 (fun e _ he => by simp at he) (Propagates.done _ _)
  by_cases hnf3 : errorsIs e3 ErrRecordNotFound = true
  swap
  · simp only [hnf3, Bool.not_false, if_true]
    exact Propagates.fail t3.1 rfl (t3.2 e3 rfl) (inChain_wrap _ (inChain_self e3))
  simp only [hnf3, Bool.not_true, Bool.false_eq_true, if_false]
  refine Propagates.step t3.1 (fun e _ he => by
    simp only [Option.some.injEq] at he; rw [← he]; exact hnf3) ?_
  split
  · exact Propagates.done _ _
  have t4 := NewAccountEventCollector_propagates w3 req.SourceAccountID rc.TransactionID
    s.eventVersion
  rcases h4 : NewAccountEventCollector w3 req.SourceAccountID rc.TransactionID s.eventVersion
    with ⟨w4, e4 | cS⟩ <;> dsimp only
  · exact Propagates.wrap _ (t4.2 w4 e4 h4)
  obtain ⟨x4, hx4, hb4⟩ := t4.1 w4 cS h4
  refine Propagates.step hx4 hb4 ?_
  have t5 := NewAccountEventCollector_propagates w4 req.DestinationAccountID rc.TransactionID
    s.eventVersion
  rcases h5 : NewAccountEventCollector w4 req.DestinationAccountID rc.TransactionID
    s.eventVersion with ⟨w5, e5 | cD⟩ <;> dsimp only
  · exact Propagates.wrap _ (t5.2 w5 e5 h5)
  obtain ⟨x5, hx5, hb5⟩ := t5.1 w5 cD h5
  refine Propagates.step hx5 hb5 ?_
  have p := WithTransaction_propagates w5 (transferTxFunc req cS cD)
    (transferTxFunc_propagates req cS cD)
  rcases h6 : WithTransaction w5 (transferTxFunc req cS cD) with ⟨w6, _ | e6⟩ <;>
    rw [h6] at p <;> dsimp only
  · exact p
  · exact Propagates.wrap _ p

/-- Every error a repository method returns is propagated. Run any `CreateAccount` or
`Transfer` call, from any state and under any script of driver failures, and look at the store
calls it logged. Whenever a repository call (`FindByID`, `FindAllByTransactionID`,
`FindLastByAggregateID`, `CreateBulkTx`, `FindByIDForUpdateTx`, `UpsertTx`) returned an error
`e` that is not "record not found", the operation returns a non-nil error whose chain contains
`e`, whose text ends with the text of `e`, and which neither is nor matches (`errors.Is`) any
of the domain errors. A driver failure the repository method itself does not return is outside
this statement. -/
theorem returned_errors_propagate (svc : Services) (w : World) (c : Call) :
    ∃ es, (exec svc w c).1.trace = w.trace ++ es ∧
      ∀ x ∈ es, ∀ e, x.call.isRepositoryCall = true → x.err = some e →
        errorsIs e ErrRecordNotFound = false →
        ∃ err, (exec svc w c).2 = some err ∧ inChain err e = true ∧
          (∀ leaf : Error → String,
            ∃ before, errorString leaf err = before ++ errorString leaf e) ∧
          ∀ d ∈ domainErrors, errorsIs err d = false ∧ err ≠ d := by
  have key : Propagates w (exec svc w c) := by
    unfold exec
    cases c.op with
    | createAccount ctx req =>
      exact Propagates.of_trace (w := w)
        (v := { w with faults := c.faults, ticks := c.ticks }) rfl
        (CreateAccount_propagates _ _ ctx req)
    | transfer ctx req =>
      exact Propagates.of_trace (w := w)
        (v := { w with faults := c.faults, ticks := c.ticks }) rfl
        (Transfer_propagates _ _ ctx req)
  obtain ⟨es, hes, hp⟩ := key
  refine ⟨es, hes, ?_⟩
  intro x hx e hcall herr hnf
  obtain ⟨happ, err, hres, hin⟩ := hp x hx e hcall herr hnf
  refine ⟨err, hres, hin, inChain_errorString hin, ?_⟩
  exact not_domain_of_not_app (by rw [inChain_isApp hin]; exact happ)

/-- The account upsert of a creation fails in the driver: the failed `UpsertTx` is logged with
the repository's error, and `CreateAccount` returns that error under two layers of context. -/
theorem exampleBrokenUpsert_propagated :
    ((CreateAccount exampleServices.account exampleBrokenUpsert (exampleContext "tx-a")
        ⟨1, 1000⟩).1.trace.map (fun x => (x.call.isRepositoryCall, x.err))).drop 5 =
      [(true, some (.wrap "failed to exec statement" (.text "connection reset by peer"))),
       (false, none)] ∧
    (CreateAccount exampleServices.account exampleBrokenUpsert (exampleContext "tx-a")
        ⟨1, 1000⟩).2 =
      some (.wrap "failed to create account" (.wrap "failed to upsert account"
        (.wrap "failed to exec statement" (.text "connection reset by peer")))) ∧
    inChain (.wrap "failed to create account" (.wrap "failed to upsert account"
        (.wrap "failed to exec statement" (.text "connection reset by peer"))))
      (.wrap "failed to exec statement" (.text "connection reset by peer")) = true := by
  decide

/-- C23 fails on the code: a driver failure inside `FindAllByTransactionID` is swallowed and
the operation returns success. Accounts `1` and `2` exist and the transaction ID "tx-a" is
carried by the events of account `1`, so a `Transfer` with that ID is rejected with
`ErrIdempotency` on a healthy store. When the driver stops the lookup's result set on a broken
connection, the method, which never reads `rows.Err()`, reports "event not found"; `Transfer`
goes on, commits, returns nil, and the log gains two more events with the used ID. -/
theorem rows_error_is_swallowed :
    (exampleFunded.db.events.map (·.TransactionID) = ["tx-a", "tx-a", "tx-c", "tx-c"] ∧
      (Transfer exampleServices.transaction exampleFunded (exampleContext "tx-a")
        ⟨1, 2, 100⟩).2 = some ErrIdempotency) ∧
    exampleBrokenRows.fault = some ⟨.next 0, .text "connection reset by peer"⟩ ∧
    (Transfer exampleServices.transaction exampleBrokenRows (exampleContext "tx-a")
        ⟨1, 2, 100⟩).2 = none ∧
    ((Transfer exampleServices.transaction exampleBrokenRows (exampleContext "tx-a")
        ⟨1, 2, 100⟩).1.trace.drop exampleBrokenRows.trace.length).head? =
      some ⟨.findAllByTransactionID "tx-a",
        some (.wrap "event not found" ErrRecordNotFound)⟩ ∧
    (Transfer exampleServices.transaction exampleBrokenRows (exampleContext "tx-a")
        ⟨1, 2, 100⟩).1.trace.getLast? = some ⟨.commit ⟨2⟩, none⟩ ∧
    (Transfer exampleServices.transaction exampleBrokenRows (exampleContext "tx-a")
        ⟨1, 2, 100⟩).1.db.events.map (fun e => (e.TransactionID, e.EventType)) =
      [("tx-a", "init_balance"), ("tx-a", "deposit_received"),
       ("tx-c", "init_balance"), ("tx-c", "deposit_received"),
       ("tx-a", "balance_debited"), ("tx-a", "balance_credited")] := by
  decide

end EventSource
